import Mathlib

/-!
# The ticket workflow engine (kekexiaoai/ticket)

A shallow embedding of `workflow/state.go`, `model/ticket.go`, `store/store.go`
and `service/ticket.go`.

Modelling conventions.

* Go strings are `String`; `State` and `Event` are string types in the source
  and stay strings here, so a ticket may carry any string as its state.
* Go `int` is a 64-bit two's-complement integer: values are `Int`, and the two
  arithmetic operations of the program (`ReassignCount++` in the engine,
  `InitialPriority + ReassignCount` in the service) wrap with `wrapInt`.
* Go maps are partial functions `κ → Option ν` (`GoMap`); an absent key is
  `none`, which is the `ok == false` of the comma-ok form.
* A Go `error` is its message; `nil` is `none`.
* A hook is a closure `func(ctx, *Ticket, Event) error`.  It may write the
  ticket it is handed and any variable it captured.  The captured variables
  are the world `W`, threaded through every call; the context is `Ctx`.
* `time.Now()` is read twice by the commit step; the two readings are the
  parameters `now₁` and `now₂` of `Transition`.
* `Outcome.trace` is a ghost field: the list of hook calls the engine made,
  in the order it made them.  It is the call-count instrumentation of the
  tests, kept by the model instead of by the hooks.
* The hooks do not register hooks on the machine that is running them: the
  table and the registry are fixed while `Transition` runs.  A hook call
  returns (it neither panics nor loops), and the registry holds no nil node.
-/

namespace model

/-- One entry of the transition log: `model.History`. -/
structure History where
  FromState : String
  ToState : String
  Event : String
  Timestamp : Nat
  TriggeredBy : String
deriving DecidableEq, Repr

/-- The entity driven by the engine: `model.Ticket`. -/
structure Ticket where
  ID : String
  Title : String
  Description : String
  Priority : Int
  InitialPriority : Int
  ReassignCount : Int
  CurrentState : String
  CreatorID : String
  AssigneeID : String
  CreatedAt : Nat
  UpdatedAt : Nat
  History : List History
deriving DecidableEq, Repr

end model

namespace workflow

/-- Go `type State string`. -/
abbrev State := String

/-- Go `type Event string`. -/
abbrev Event := String

/-- A non-nil Go `error`, identified with its message. -/
abbrev GoError := String

/-- A reading of `time.Now()`. -/
abbrev Time := Nat

abbrev StateNew : State := "New"
abbrev StatePending : State := "Pending"
abbrev StateInitialReview : State := "InitialReview"
abbrev StateInProgress : State := "InProgress"
abbrev StateFinalApproval : State := "FinalApproval"
abbrev StateCompleted : State := "Completed"
abbrev StateClosed : State := "Closed"
abbrev StateCanceled : State := "Canceled"

abbrev EventSubmit : Event := "Submit"
abbrev EventAssign : Event := "Assign"
abbrev EventApproveInitial : Event := "ApproveInitial"
abbrev EventRejectInitial : Event := "RejectInitial"
abbrev EventDenyInitial : Event := "DenyInitial"
abbrev EventSubmitFinal : Event := "SubmitFinal"
abbrev EventApproveFinal : Event := "ApproveFinal"
abbrev EventRejectFinal : Event := "RejectFinal"
abbrev EventArchive : Event := "Archive"
abbrev EventCancel : Event := "Cancel"
abbrev EventReassign : Event := "Reassign"
abbrev EventHold : Event := "Hold"
abbrev EventResume : Event := "Resume"

/-- Two's-complement wrap of an integer into the range of a 64-bit Go `int`. -/
def wrapInt (x : Int) : Int := (x + 2 ^ 63) % 2 ^ 64 - 2 ^ 63

/-- The largest Go `int`. -/
abbrev maxInt : Int := 2 ^ 63 - 1

/-- The smallest Go `int`. -/
abbrev minInt : Int := -(2 ^ 63)

/-- A Go map: a partial function from keys to values. -/
abbrev GoMap (κ ν : Type) := κ → Option ν

/-- The map returned by `make(map[K]V)`. -/
def GoMap.empty {κ ν : Type} : GoMap κ ν := fun _ => none

/-- The assignment `m[k] = v`. -/
def GoMap.set {κ ν : Type} [DecidableEq κ] (m : GoMap κ ν) (k : κ) (v : ν) : GoMap κ ν :=
  fun k' => if k' = k then some v else m k'

/-- A map literal `map[K]V{k₁: v₁, ...}`. -/
def GoMap.lit {κ ν : Type} [DecidableEq κ] (kvs : List (κ × ν)) : GoMap κ ν :=
  kvs.foldl (fun m kv => m.set kv.1 kv.2) GoMap.empty

/-- What one hook call leaves behind: the captured variables, the ticket, and
the returned error. -/
structure HookResult (W : Type) where
  world : W
  ticket : model.Ticket
  err : Option GoError

/-- Go `Task`: a named hook. -/
structure Task (Ctx W : Type) where
  Name : String
  Execute : Ctx → W → model.Ticket → Event → HookResult W

/-- Go `Node`: the five hook lists of one state. -/
structure Node (Ctx W : Type) where
  State : State
  BeforeTasks : List (Task Ctx W) := []
  AfterTasks : List (Task Ctx W) := []
  OnEnter : List (Task Ctx W) := []
  OnExit : List (Task Ctx W) := []
  Guards : List (Task Ctx W) := []

/-- Go `StateMachine`: the transition table and the hook registry. -/
structure StateMachine (Ctx W : Type) where
  transitions : GoMap State (GoMap Event State)
  nodes : GoMap State (Node Ctx W)

/-- The five kinds of hook, in the order the engine visits them. -/
inductive HookKind where
  | guard
  | before
  | exit
  | enter
  | after
deriving DecidableEq, Repr

/-- `initTransitions`: the thirteen entries of the built-in table. -/
def initTransitions {Ctx W : Type} (sm : StateMachine Ctx W) : StateMachine Ctx W :=
  let t0 := sm.transitions
  let t1 := t0.set StateNew (GoMap.lit [(EventSubmit, StatePending)])
  let t2 := t1.set StatePending (GoMap.lit [
    (EventAssign, StateInitialReview),
    (EventCancel, StateCanceled)])
  let t3 := t2.set StateInitialReview (GoMap.lit [
    (EventApproveInitial, StateInProgress),
    (EventRejectInitial, StateNew),
    (EventDenyInitial, StateCanceled)])
  let t4 := t3.set StateInProgress (GoMap.lit [
    (EventSubmitFinal, StateFinalApproval),
    (EventReassign, StateInProgress),
    (EventHold, StateInProgress),
    (EventResume, StateInProgress)])
  let t5 := t4.set StateFinalApproval (GoMap.lit [
    (EventApproveFinal, StateCompleted),
    (EventRejectFinal, StateInProgress)])
  let t6 := t5.set StateCompleted (GoMap.lit [(EventArchive, StateClosed)])
  { sm with transitions := t6 }

/-- `initNodes`: one empty node for each of the eight states. -/
def initNodes {Ctx W : Type} (sm : StateMachine Ctx W) : StateMachine Ctx W :=
  let n0 := sm.nodes
  let n1 := n0.set StateNew { State := StateNew }
  let n2 := n1.set StatePending { State := StatePending }
  let n3 := n2.set StateInitialReview { State := StateInitialReview }
  let n4 := n3.set StateInProgress { State := StateInProgress }
  let n5 := n4.set StateFinalApproval { State := StateFinalApproval }
  let n6 := n5.set StateCompleted { State := StateCompleted }
  let n7 := n6.set StateClosed { State := StateClosed }
  let n8 := n7.set StateCanceled { State := StateCanceled }
  { sm with nodes := n8 }

/-- `NewStateMachine`: empty maps, then the table, then the nodes. -/
def NewStateMachine (Ctx W : Type) : StateMachine Ctx W :=
  let sm : StateMachine Ctx W := { transitions := GoMap.empty, nodes := GoMap.empty }
  initNodes (initTransitions sm)

/-- `RegisterTasks`: fetch the node of `state` (a new empty one when the state
has none) and append each argument list to the matching list of the node. -/
def RegisterTasks {Ctx W : Type} (sm : StateMachine Ctx W) (state : State)
    (before after onEnter onExit guards : List (Task Ctx W)) : StateMachine Ctx W :=
  let node : Node Ctx W :=
    match sm.nodes state with
    | some node => node
    | none => { State := state }
  let node1 := { node with BeforeTasks := node.BeforeTasks ++ before }
  let node2 := { node1 with AfterTasks := node1.AfterTasks ++ after }
  let node3 := { node2 with OnEnter := node2.OnEnter ++ onEnter }
  let node4 := { node3 with OnExit := node3.OnExit ++ onExit }
  let node5 := { node4 with Guards := node4.Guards ++ guards }
  { sm with nodes := sm.nodes.set state node5 }

/-- The running state of one `Transition` call: the captured variables, the
ticket behind the pointer, and the ghost list of the hook calls made so far. -/
structure RunState (Ctx W : Type) where
  world : W
  ticket : model.Ticket
  trace : List (HookKind × Task Ctx W)

/-- One of the five `for _, task := range list` loops of `Transition`: call
the hooks in list order and stop at the first one that returns an error. -/
def runTasks {Ctx W : Type} (kind : HookKind) (ctx : Ctx) (event : Event) :
    List (Task Ctx W) → RunState Ctx W → RunState Ctx W × Option GoError
  | [], rs => (rs, none)
  | task :: rest, rs =>
    let r := task.Execute ctx rs.world rs.ticket event
    let rs1 : RunState Ctx W :=
      { world := r.world, ticket := r.ticket, trace := rs.trace ++ [(kind, task)] }
    match r.err with
    | some err => (rs1, some err)
    | none => runTasks kind ctx event rest rs1

/-- One `if node, ok := sm.nodes[s]; ok { for ... }` block of `Transition`. -/
def runNode {Ctx W : Type} (sm : StateMachine Ctx W) (s : State) (kind : HookKind)
    (sel : Node Ctx W → List (Task Ctx W)) (ctx : Ctx) (event : Event)
    (rs : RunState Ctx W) : RunState Ctx W × Option GoError :=
  match sm.nodes s with
  | some node => runTasks kind ctx event (sel node) rs
  | none => (rs, none)

/-- The lookup `sm.transitions[currentState][event]` in comma-ok form: indexing
an absent inner map yields the zero value with `ok == false`. -/
def lookupTransition {Ctx W : Type} (sm : StateMachine Ctx W) (s : State) (e : Event) :
    Option State :=
  match sm.transitions s with
  | some inner => inner e
  | none => none

/-- The commit block of `Transition` (the statements between the exit loop and
the enter loop): read the old state, set the new one, bump the reassign counter
on `Reassign`, stamp the update time, append the history record. -/
def commit (nextState : State) (event : Event) (now₁ now₂ : Time) (ticket : model.Ticket) :
    model.Ticket :=
  let oldState := ticket.CurrentState
  let t1 := { ticket with CurrentState := nextState }
  let t2 := if event = EventReassign then { t1 with ReassignCount := wrapInt (t1.ReassignCount + 1) } else t1
  let t3 := { t2 with UpdatedAt := now₁ }
  { t3 with History := t3.History ++ [{
      FromState := oldState,
      ToState := nextState,
      Event := event,
      Timestamp := now₂,
      TriggeredBy := t3.AssigneeID }] }

/-- What a `Transition` call returns and leaves behind. -/
structure Outcome (Ctx W : Type) where
  state : State
  err : Option GoError
  ticket : model.Ticket
  world : W
  trace : List (HookKind × Task Ctx W)

/-- `StateMachine.Transition`. -/
def Transition {Ctx W : Type} (sm : StateMachine Ctx W) (ctx : Ctx) (now₁ now₂ : Time)
    (w : W) (ticket : model.Ticket) (event : Event) : Outcome Ctx W :=
  let currentState : State := ticket.CurrentState
  match lookupTransition sm currentState event with
  | none =>
    { state := currentState, err := some "invalid transition", ticket := ticket,
      world := w, trace := [] }
  | some nextState =>
    match runNode sm currentState HookKind.guard (fun n => n.Guards) ctx event
        { world := w, ticket := ticket, trace := [] } with
    | (rs1, some err) =>
      { state := currentState, err := some err, ticket := rs1.ticket,
        world := rs1.world, trace := rs1.trace }
    | (rs1, none) =>
    match runNode sm currentState HookKind.before (fun n => n.BeforeTasks) ctx event rs1 with
    | (rs2, some err) =>
      { state := currentState, err := some err, ticket := rs2.ticket,
        world := rs2.world, trace := rs2.trace }
    | (rs2, none) =>
    match runNode sm currentState HookKind.exit (fun n => n.OnExit) ctx event rs2 with
    | (rs3, some err) =>
      { state := currentState, err := some err, ticket := rs3.ticket,
        world := rs3.world, trace := rs3.trace }
    | (rs3, none) =>
    let rs4 : RunState Ctx W := { rs3 with ticket := commit nextState event now₁ now₂ rs3.ticket }
    match runNode sm nextState HookKind.enter (fun n => n.OnEnter) ctx event rs4 with
    | (rs5, some err) =>
      { state := nextState, err := some err, ticket := rs5.ticket,
        world := rs5.world, trace := rs5.trace }
    | (rs5, none) =>
    match runNode sm nextState HookKind.after (fun n => n.AfterTasks) ctx event rs5 with
    | (rs6, some err) =>
      { state := nextState, err := some err, ticket := rs6.ticket,
        world := rs6.world, trace := rs6.trace }
    | (rs6, none) =>
      { state := nextState, err := none, ticket := rs6.ticket,
        world := rs6.world, trace := rs6.trace }

/-! ## The pipeline in the words of the specification -/

/-- Mark each hook of a list with the kind of list it was registered in. -/
def tag {Ctx W : Type} (k : HookKind) (hs : List (Task Ctx W)) : List (HookKind × Task Ctx W) :=
  hs.map (fun h => (k, h))

/-- The hook list `sel` of the node of state `s`; no hook when `s` has no node. -/
def hooksAt {Ctx W : Type} (sm : StateMachine Ctx W) (s : State)
    (sel : Node Ctx W → List (Task Ctx W)) : List (Task Ctx W) :=
  match sm.nodes s with
  | some node => sel node
  | none => []

/-- Steps 2 to 4 of the algorithm: guards, then before-actions, then
exit-actions of the source node, each list in registration order. -/
def preCommitHooks {Ctx W : Type} (sm : StateMachine Ctx W) (s : State) :
    List (HookKind × Task Ctx W) :=
  tag HookKind.guard (hooksAt sm s (fun n => n.Guards))
    ++ tag HookKind.before (hooksAt sm s (fun n => n.BeforeTasks))
    ++ tag HookKind.exit (hooksAt sm s (fun n => n.OnExit))

/-- Steps 6 and 7 of the algorithm: enter-actions, then after-actions of the
destination node, each list in registration order. -/
def postCommitHooks {Ctx W : Type} (sm : StateMachine Ctx W) (d : State) :
    List (HookKind × Task Ctx W) :=
  tag HookKind.enter (hooksAt sm d (fun n => n.OnEnter))
    ++ tag HookKind.after (hooksAt sm d (fun n => n.AfterTasks))

/-- The captured variables and the ticket after one call of hook `h`. -/
def applyHook {Ctx W : Type} (ctx : Ctx) (event : Event) (s : W × model.Ticket)
    (h : Task Ctx W) : W × model.Ticket :=
  ((h.Execute ctx s.1 s.2 event).world, (h.Execute ctx s.1 s.2 event).ticket)

/-- The error hook `h` returns when called on `s`. -/
def hookErr {Ctx W : Type} (ctx : Ctx) (event : Event) (s : W × model.Ticket)
    (h : Task Ctx W) : Option GoError :=
  (h.Execute ctx s.1 s.2 event).err

/-- The captured variables and the ticket after calling every hook of the list,
one after the other. -/
def applyHooks {Ctx W : Type} (ctx : Ctx) (event : Event) (hs : List (HookKind × Task Ctx W))
    (s : W × model.Ticket) : W × model.Ticket :=
  hs.foldl (fun s kh => applyHook ctx event s kh.2) s

/-- Every hook of the list returns `nil` when the hooks are called one after
the other starting from `s`. -/
def AllSucceed {Ctx W : Type} (ctx : Ctx) (event : Event) :
    List (HookKind × Task Ctx W) → W × model.Ticket → Prop
  | [], _ => True
  | kh :: rest, s =>
    hookErr ctx event s kh.2 = none ∧ AllSucceed ctx event rest (applyHook ctx event s kh.2)

/-- A fail-fast run over a list of hooks of mixed kinds: `runTasks` with the
kind read off each element. -/
def runSeq {Ctx W : Type} (ctx : Ctx) (event : Event) :
    List (HookKind × Task Ctx W) → RunState Ctx W → RunState Ctx W × Option GoError
  | [], rs => (rs, none)
  | kh :: rest, rs =>
    let r := kh.2.Execute ctx rs.world rs.ticket event
    let rs1 : RunState Ctx W :=
      { world := r.world, ticket := r.ticket, trace := rs.trace ++ [kh] }
    match r.err with
    | some err => (rs1, some err)
    | none => runSeq ctx event rest rs1

/-- The captured variables and the ticket once every pre-commit hook of the
ticket's state has been called. -/
abbrev preState {Ctx W : Type} (sm : StateMachine Ctx W) (ctx : Ctx) (event : Event) (w : W)
    (ticket : model.Ticket) : W × model.Ticket :=
  applyHooks ctx event (preCommitHooks sm ticket.CurrentState) (w, ticket)

/-- The captured variables and the ticket right after the commit step to
destination `d`: what the first post-commit hook is handed. -/
abbrev commitState {Ctx W : Type} (sm : StateMachine Ctx W) (ctx : Ctx) (now₁ now₂ : Time)
    (w : W) (ticket : model.Ticket) (event : Event) (d : State) : W × model.Ticket :=
  ((preState sm ctx event w ticket).1, commit d event now₁ now₂ (preState sm ctx event w ticket).2)

/-- The hook does not write the `CurrentState` field of the ticket. -/
def KeepsState {Ctx W : Type} (h : Task Ctx W) : Prop :=
  ∀ ctx w t e, (h.Execute ctx w t e).ticket.CurrentState = t.CurrentState

/-- The hook does not write the `History` field of the ticket. -/
def KeepsHistory {Ctx W : Type} (h : Task Ctx W) : Prop :=
  ∀ ctx w t e, (h.Execute ctx w t e).ticket.History = t.History

/-- The hook does not write the `ReassignCount` field of the ticket. -/
def KeepsReassignCount {Ctx W : Type} (h : Task Ctx W) : Prop :=
  ∀ ctx w t e, (h.Execute ctx w t e).ticket.ReassignCount = t.ReassignCount

/-- The hook does not write the ticket at all. -/
def KeepsTicket {Ctx W : Type} (h : Task Ctx W) : Prop :=
  ∀ ctx w t e, (h.Execute ctx w t e).ticket = t

/-- The thirteen entries of the built-in table as the specification lists
them: source state, event, destination state. -/
def builtinTable : List (State × Event × State) :=
  [ (StateNew, EventSubmit, StatePending),
    (StatePending, EventAssign, StateInitialReview),
    (StatePending, EventCancel, StateCanceled),
    (StateInitialReview, EventApproveInitial, StateInProgress),
    (StateInitialReview, EventRejectInitial, StateNew),
    (StateInitialReview, EventDenyInitial, StateCanceled),
    (StateInProgress, EventSubmitFinal, StateFinalApproval),
    (StateInProgress, EventReassign, StateInProgress),
    (StateInProgress, EventHold, StateInProgress),
    (StateInProgress, EventResume, StateInProgress),
    (StateFinalApproval, EventApproveFinal, StateCompleted),
    (StateFinalApproval, EventRejectFinal, StateInProgress),
    (StateCompleted, EventArchive, StateClosed) ]

end workflow

/-! ## The log, the store and the service

`log.Printf` appends the formatted message to the output of the process-wide
logger, modelled as the list of the messages written so far (without the
time prefix the logger puts before each).  The service hooks capture nothing
else, so their world is that list.

`MockStore` keeps `*model.Ticket` pointers: `GetTicket` hands out the stored
pointer itself, so what the service and the engine write through it is
written to the ticket the store holds.  Pointers are addresses into a heap of
tickets.  `TicketService.store` is of interface type `store.TicketStore`;
`MockStore` is its one implementation. -/

namespace golog

/-- The messages written to the standard logger so far. -/
abbrev Log := List String

/-- `log.Printf` with the message already formatted. -/
def Printf (l : Log) (message : String) : Log := l ++ [message]

end golog

namespace store

/-- A non-nil `*model.Ticket`. -/
abbrev Addr := Nat

/-- The tickets behind the pointers. -/
abbrev Heap := Addr → model.Ticket

/-- The assignment `*p = t`. -/
def Heap.set (h : Heap) (p : Addr) (t : model.Ticket) : Heap :=
  fun q => if q = p then t else h q

/-- Go `MockStore`. -/
structure MockStore where
  tickets : workflow.GoMap String Addr

/-- `NewMockStore`. -/
def NewMockStore : MockStore := { tickets := workflow.GoMap.empty }

/-- `MockStore.SaveTicket`: store the pointer under the ticket's id, log, and
return `nil`. -/
def MockStore.SaveTicket {Ctx : Type} (s : MockStore) (_ctx : Ctx) (heap : Heap)
    (l : golog.Log) (ticket : Addr) : MockStore × golog.Log × Option workflow.GoError :=
  let s1 : MockStore := { tickets := s.tickets.set (heap ticket).ID ticket }
  let l1 := golog.Printf l ("保存工单: " ++ (heap ticket).ID ++ ", 当前状态: "
    ++ (heap ticket).CurrentState ++ ", 优先级: " ++ toString (heap ticket).Priority)
  (s1, l1, none)

/-- `MockStore.GetTicket`: the stored pointer, or the error "ticket not
found". -/
def MockStore.GetTicket {Ctx : Type} (s : MockStore) (_ctx : Ctx) (id : String) :
    Except workflow.GoError Addr :=
  match s.tickets id with
  | some ticket => Except.ok ticket
  | none => Except.error "ticket not found"

end store

namespace service

open workflow store

/-- Go `TicketService`: the machine and the store. -/
structure TicketService (Ctx : Type) where
  sm : StateMachine Ctx golog.Log
  store : MockStore

/-- The after-action `notifyAssign`, registered on `Pending`. -/
def notifyAssign {Ctx : Type} : Task Ctx golog.Log :=
  { Name := "NotifyAssign",
    Execute := fun _ l ticket event =>
      if event = EventAssign then
        { world := golog.Printf l ("通知: 工单 " ++ ticket.ID ++ " 被审批人 "
            ++ ticket.AssigneeID ++ " 领取"),
          ticket := ticket, err := none }
      else { world := l, ticket := ticket, err := none } }

/-- The exit-action `onExitPending`, registered on `Pending`. -/
def onExitPending {Ctx : Type} : Task Ctx golog.Log :=
  { Name := "OnExitPending",
    Execute := fun _ l ticket _ =>
      { world := golog.Printf l ("退出 Pending: 工单 " ++ ticket.ID ++ " 被领取或取消"),
        ticket := ticket, err := none } }

/-- The after-action `notifyInitialReview`, registered on `InitialReview`. -/
def notifyInitialReview {Ctx : Type} : Task Ctx golog.Log :=
  { Name := "NotifyInitialReview",
    Execute := fun _ l ticket event =>
      if event = EventApproveInitial then
        { world := golog.Printf l ("通知: 工单 " ++ ticket.ID ++ " 初审通过，进入处理流程"),
          ticket := ticket, err := none }
      else if event = EventRejectInitial then
        { world := golog.Printf l ("通知: 工单 " ++ ticket.ID ++ " 初审被打回，需补充材料"),
          ticket := ticket, err := none }
      else { world := l, ticket := ticket, err := none } }

/-- The enter-action `onEnterInProgress`, registered on `InProgress`. -/
def onEnterInProgress {Ctx : Type} : Task Ctx golog.Log :=
  { Name := "OnEnterInProgress",
    Execute := fun _ l ticket _ =>
      { world := golog.Printf l ("进入 InProgress: 工单 " ++ ticket.ID ++ " 开始处理"),
        ticket := ticket, err := none } }

/-- The before-action `checkInProgress`, registered on `InProgress`. -/
def checkInProgress {Ctx : Type} : Task Ctx golog.Log :=
  { Name := "CheckInProgress",
    Execute := fun _ l ticket event =>
      { world := golog.Printf l ("检查: 工单 " ++ ticket.ID ++ " 在 InProgress 执行 " ++ event),
        ticket := ticket, err := none } }

/-- The after-action `logReassign`, registered on `InProgress`. -/
def logReassign {Ctx : Type} : Task Ctx golog.Log :=
  { Name := "LogReassign",
    Execute := fun _ l ticket event =>
      if event = EventReassign then
        { world := golog.Printf l ("日志: 工单 " ++ ticket.ID ++ " 被转交给 "
            ++ ticket.AssigneeID),
          ticket := ticket, err := none }
      else { world := l, ticket := ticket, err := none } }

/-- The after-action `updatePriority`, registered on `InProgress`: on
`Reassign` and `Resume`, set the priority to the initial priority plus the
reassign counter (a Go `int` sum) when it is not that already. -/
def updatePriority {Ctx : Type} : Task Ctx golog.Log :=
  { Name := "UpdatePriority",
    Execute := fun _ l ticket event =>
      if event = EventReassign ∨ event = EventResume then
        let newPriority := wrapInt (ticket.InitialPriority + ticket.ReassignCount)
        if newPriority ≠ ticket.Priority then
          let ticket1 := { ticket with Priority := newPriority }
          { world := golog.Printf l ("任务: 工单 " ++ ticket1.ID ++ " 优先级更新为 "
              ++ toString ticket1.Priority ++ " (转交次数: "
              ++ toString ticket1.ReassignCount ++ ")"),
            ticket := ticket1, err := none }
        else { world := l, ticket := ticket, err := none }
      else { world := l, ticket := ticket, err := none } }

/-- The guard `guardFinalApproval`, registered on `FinalApproval`: only
"admin" may trigger `ApproveFinal`. -/
def guardFinalApproval {Ctx : Type} : Task Ctx golog.Log :=
  { Name := "GuardFinalApproval",
    Execute := fun _ l ticket event =>
      if event = EventApproveFinal ∧ ticket.AssigneeID ≠ "admin" then
        { world := l, ticket := ticket, err := some "只有管理员可以最终审批" }
      else { world := l, ticket := ticket, err := none } }

/-- The after-action `notifyFinalApproval`, registered on `FinalApproval`. -/
def notifyFinalApproval {Ctx : Type} : Task Ctx golog.Log :=
  { Name := "NotifyFinalApproval",
    Execute := fun _ l ticket event =>
      if event = EventApproveFinal then
        { world := golog.Printf l ("通知: 工单 " ++ ticket.ID ++ " 最终审批通过"),
          ticket := ticket, err := none }
      else { world := l, ticket := ticket, err := none } }

/-- `TicketService.registerTasks`: the four `RegisterTasks` calls, with the
arguments in the order before, after, onEnter, onExit, guards. -/
def registerTasks {Ctx : Type} (ts : TicketService Ctx) : TicketService Ctx :=
  let sm1 := RegisterTasks ts.sm StatePending [] [notifyAssign] [] [onExitPending] []
  let sm2 := RegisterTasks sm1 StateInitialReview [] [notifyInitialReview] [] [] []
  let sm3 := RegisterTasks sm2 StateInProgress [checkInProgress] [logReassign, updatePriority]
    [onEnterInProgress] [] []
  let sm4 := RegisterTasks sm3 StateFinalApproval [] [notifyFinalApproval] [] []
    [guardFinalApproval]
  { ts with sm := sm4 }

/-- `NewTicketService`. -/
def NewTicketService (Ctx : Type) (store : MockStore) : TicketService Ctx :=
  registerTasks { sm := NewStateMachine Ctx golog.Log, store := store }

/-- What a `TransitionTicket` call returns and leaves behind: the returned
error, the tickets behind the pointers, the store, the log, and the ghost
flag `saved` that tells whether `SaveTicket` was called. -/
structure CallResult where
  err : Option GoError
  heap : Heap
  store : MockStore
  log : golog.Log
  saved : Bool

/-- `TicketService.TransitionTicket`.  The three readings of `time.Now()` are
`now₁` and `now₂` (inside `Transition`) and `now₃`. -/
def TransitionTicket {Ctx : Type} (ts : TicketService Ctx) (ctx : Ctx) (now₁ now₂ now₃ : Time)
    (heap : Heap) (l : golog.Log) (ticketID : String) (event : Event) (triggeredBy : String) :
    CallResult :=
  match ts.store.GetTicket ctx ticketID with
  | Except.error err =>
    { err := some err, heap := heap, store := ts.store, log := l, saved := false }
  | Except.ok ticket =>
    let heap1 := heap.set ticket { heap ticket with AssigneeID := triggeredBy }
    let out := Transition ts.sm ctx now₁ now₂ l (heap1 ticket) event
    let heap2 := heap1.set ticket out.ticket
    match out.err with
    | some err =>
      { err := some err, heap := heap2, store := ts.store, log := out.world, saved := false }
    | none =>
      let heap3 := heap2.set ticket { heap2 ticket with UpdatedAt := now₃ }
      match ts.store.SaveTicket ctx heap3 out.world ticket with
      | (store1, l1, err) =>
        { err := err, heap := heap3, store := store1, log := l1, saved := true }

/-- The machine every service runs: the one `NewTicketService` builds (the
store plays no part in it). -/
def serviceMachine (Ctx : Type) : StateMachine Ctx golog.Log :=
  (NewTicketService Ctx NewMockStore).sm

/-- The ticket an accepted transition of the service machine leaves, in closed
form: the committed ticket, with the priority recomputed by `updatePriority`
when the destination is `InProgress` and the event is `Reassign` or
`Resume`. -/
def serviceTicket (d : State) (event : Event) (now₁ now₂ : Time) (t : model.Ticket) :
    model.Ticket :=
  if d = StateInProgress ∧ (event = EventReassign ∨ event = EventResume) then
    { commit d event now₁ now₂ t with
      Priority := wrapInt ((commit d event now₁ now₂ t).InitialPriority
        + (commit d event now₁ now₂ t).ReassignCount) }
  else commit d event now₁ now₂ t

/-- The state of the memory before the first call of a sequence: no error, no
save yet. -/
def startResult (heap : Heap) (store : MockStore) (l : golog.Log) : CallResult :=
  { err := none, heap := heap, store := store, log := l, saved := false }

/-- The next `TransitionTicket` call of a sequence, on the heap, store and log
the previous call left; the `k`-th call reads the clock values `now (3 * k)`,
`now (3 * k + 1)` and `now (3 * k + 2)`. -/
def nextCall {Ctx : Type} (ts : TicketService Ctx) (ctx : Ctx) (now : Nat → Time) (k : Nat)
    (ticketID : String) (r : CallResult) (event : Event) (triggeredBy : String) : CallResult :=
  TransitionTicket { ts with store := r.store } ctx (now (3 * k)) (now (3 * k + 1))
    (now (3 * k + 2)) r.heap r.log ticketID event triggeredBy

/-- The ticket of `TestTicketService_TransitionTicket`. -/
def testTicket : model.Ticket :=
  { ID := "test-ticket", Title := "Test Ticket", Description := "", Priority := 1,
    InitialPriority := 0, ReassignCount := 0, CurrentState := StateNew, CreatorID := "user123",
    AssigneeID := "", CreatedAt := 0, UpdatedAt := 0, History := [] }

/-- A heap with the test ticket behind every pointer. -/
def testHeap : Heap := fun _ => testTicket

/-- The store of the test: a new store with the test ticket, at address 0,
saved in it. -/
def testStore : MockStore := (NewMockStore.SaveTicket () testHeap [] 0).1

/-- A clock for the test: the `k`-th reading is `100 + k`. -/
def testClock : Nat → Time := fun k => 100 + k

/-- The first seven calls of the scenario on the test store: `Submit`,
`Assign`, `ApproveInitial`, `Reassign`, `Reassign`, `SubmitFinal`, and
`ApproveFinal` by "user789". -/
def testRun7 : CallResult :=
  let ts := NewTicketService Unit testStore
  let r₀ := startResult testHeap testStore []
  let r₁ := nextCall ts () testClock 1 "test-ticket" r₀ EventSubmit "user123"
  let r₂ := nextCall ts () testClock 2 "test-ticket" r₁ EventAssign "user456"
  let r₃ := nextCall ts () testClock 3 "test-ticket" r₂ EventApproveInitial "user456"
  let r₄ := nextCall ts () testClock 4 "test-ticket" r₃ EventReassign "user789"
  let r₅ := nextCall ts () testClock 5 "test-ticket" r₄ EventReassign "user999"
  let r₆ := nextCall ts () testClock 6 "test-ticket" r₅ EventSubmitFinal "user999"
  nextCall ts () testClock 7 "test-ticket" r₆ EventApproveFinal "user789"

/-- The eighth call of the scenario: `ApproveFinal` by "admin". -/
def testRun8 : CallResult :=
  nextCall (NewTicketService Unit testStore) () testClock 8 "test-ticket" testRun7
    EventApproveFinal "admin"

/-- Successive `Reassign` calls on what `r` holds: `n` of them, the `k`-th by
actor `actor k`. -/
def reassignTimes {Ctx : Type} (ts : TicketService Ctx) (ctx : Ctx) (now : Nat → Time)
    (ticketID : String) (actor : Nat → String) : Nat → CallResult → CallResult
  | 0, r => r
  | n + 1, r =>
    nextCall ts ctx now (n + 1) ticketID (reassignTimes ts ctx now ticketID actor n r)
      EventReassign (actor (n + 1))

/-- The ticket of `TestTicketService_InProgressPriorityTask` once it has
entered `InProgress`: initial priority 1, priority 1, counter 0. -/
def inProgressTicket : model.Ticket :=
  { testTicket with InitialPriority := 1, CurrentState := StateInProgress }

/-- A ticket in `InProgress` whose reassign counter is the largest `int`. -/
def overflowTicket : model.Ticket :=
  { testTicket with InitialPriority := 1, CurrentState := StateInProgress,
                    ReassignCount := maxInt }

/-- The test ticket in `FinalApproval`. -/
def finalApprovalTicket : model.Ticket :=
  { testTicket with CurrentState := StateFinalApproval }

end service

namespace workflow

/-! ## Sample hooks, tickets and machines

The captured world of the sample hooks is a call counter. -/

/-- A hook that counts its call and succeeds. -/
def okHook (name : String) : Task Unit Nat :=
  { Name := name, Execute := fun _ w t _ => { world := w + 1, ticket := t, err := none } }

/-- A hook that counts its call and fails with `msg`. -/
def failHook (name : String) (msg : GoError) : Task Unit Nat :=
  { Name := name, Execute := fun _ w t _ => { world := w + 1, ticket := t, err := some msg } }

/-- A hook that overwrites `ticket.CurrentState` with `x` and succeeds. -/
def moveHook (name : String) (x : State) : Task Unit Nat :=
  { Name := name,
    Execute := fun _ w t _ =>
      { world := w + 1, ticket := { t with CurrentState := x }, err := none } }

/-- A hook that overwrites `ticket.CurrentState` with `x` and then fails. -/
def moveFailHook (name : String) (x : State) (msg : GoError) : Task Unit Nat :=
  { Name := name,
    Execute := fun _ w t _ =>
      { world := w + 1, ticket := { t with CurrentState := x }, err := some msg } }

/-- A ticket in state `s` with reassign counter `n` and an empty history. -/
def sampleTicket (s : State) (n : Int) : model.Ticket :=
  { ID := "test-ticket", Title := "", Description := "", Priority := 0, InitialPriority := 0,
    ReassignCount := n, CurrentState := s, CreatorID := "", AssigneeID := "user123",
    CreatedAt := 0, UpdatedAt := 0, History := [] }

/-- The fresh machine with one hook of each kind on `New`. -/
def newHookedMachine : StateMachine Unit Nat :=
  RegisterTasks (NewStateMachine Unit Nat) StateNew
    [okHook "b"] [okHook "a"] [okHook "e"] [okHook "x"] [okHook "g"]

/-- The fresh machine with three guards on `FinalApproval`, the second of which
fails, and one before- and one exit-action behind them. -/
def guardedMachine : StateMachine Unit Nat :=
  RegisterTasks (NewStateMachine Unit Nat) StateFinalApproval
    [okHook "before"] [] [] [okHook "exit"]
    [okHook "g1", failHook "g2" "denied", okHook "g3"]

/-- The fresh machine with a failing second before-action on `Pending`. -/
def beforeFailMachine : StateMachine Unit Nat :=
  RegisterTasks
    (RegisterTasks (NewStateMachine Unit Nat) StatePending
      [okHook "b1", failHook "b2" "before failed", okHook "b3"] [] [] [okHook "x1"]
      [okHook "g1"])
    StateInitialReview [] [okHook "a1"] [okHook "e1"] [] []

/-- The fresh machine with a failing exit-action on `Pending`. -/
def exitFailMachine : StateMachine Unit Nat :=
  RegisterTasks
    (RegisterTasks (NewStateMachine Unit Nat) StatePending
      [okHook "b1"] [] [] [failHook "x1" "exit failed", okHook "x2"] [okHook "g1"])
    StateInitialReview [] [okHook "a1"] [okHook "e1"] [] []

/-- The machine of `TestStateMachine_Hooks`: a before-action, an exit-action
and a guard on `Pending`, an after-action and an enter-action on
`InitialReview`, all succeeding. -/
def hookedMachine : StateMachine Unit Nat :=
  RegisterTasks
    (RegisterTasks (NewStateMachine Unit Nat) StatePending
      [okHook "Before"] [] [] [okHook "OnExit"] [okHook "Guard"])
    StateInitialReview [] [okHook "After"] [okHook "OnEnter"] [] []

/-- The fresh machine with a before-action on `Pending` that overwrites the
ticket's state with `"X"`. -/
def moveMachine : StateMachine Unit Nat :=
  RegisterTasks (NewStateMachine Unit Nat) StatePending
    [moveHook "mv" "X"] [] [] [] []

/-- The machine of `TestStateMachine_OnEnterFailure`, with an after-action
behind the failing enter-action. -/
def enterFailMachine : StateMachine Unit Nat :=
  RegisterTasks (NewStateMachine Unit Nat) StateInitialReview
    [] [okHook "After"] [okHook "e1", failHook "OnEnterFail" "OnEnter failed", okHook "e3"] [] []

/-- The fresh machine with a failing after-action on `InitialReview`. -/
def afterFailMachine : StateMachine Unit Nat :=
  RegisterTasks (NewStateMachine Unit Nat) StateInitialReview
    [] [failHook "AfterFail" "After failed", okHook "a2"] [okHook "e1"] [] []

/-- The fresh machine with an enter-action on `InitialReview` that overwrites
the ticket's state with `"X"` and then fails. -/
def enterMoveFailMachine : StateMachine Unit Nat :=
  RegisterTasks (NewStateMachine Unit Nat) StateInitialReview
    [] [] [moveFailHook "mvf" "X" "OnEnter failed"] [] []

/-- A hook that succeeds and adds to the counter one plus a hundred times the
length of the history it sees: it shows whether it ran before or after the
commit. -/
def probeHook (name : String) : Task Unit Nat :=
  { Name := name,
    Execute := fun _ w t _ =>
      { world := w + 100 * t.History.length + 1, ticket := t, err := none } }

/-- The fresh machine with a probing exit-action on `Pending` and a probing
enter-action on `InitialReview`. -/
def probeMachine : StateMachine Unit Nat :=
  RegisterTasks
    (RegisterTasks (NewStateMachine Unit Nat) StatePending [] [] [] [probeHook "x"] [])
    StateInitialReview [] [] [probeHook "e"] [] []

/-- The fresh machine with one hook of each kind on `InProgress`, the node of
the three self-loop entries. -/
def selfLoopMachine : StateMachine Unit Nat :=
  RegisterTasks (NewStateMachine Unit Nat) StateInProgress
    [okHook "b"] [okHook "a"] [okHook "e"] [okHook "x"] [okHook "g"]

/-- The fresh machine with a before-action on `InProgress` that overwrites the
ticket's state with `"X"`. -/
def selfLoopMoveMachine : StateMachine Unit Nat :=
  RegisterTasks (NewStateMachine Unit Nat) StateInProgress
    [moveHook "mv" "X"] [] [] [] []

/-- The machines the package can build: `NewStateMachine`, followed by any
number of `RegisterTasks` calls. -/
inductive Built {Ctx W : Type} : StateMachine Ctx W → Prop
  | fresh : Built (NewStateMachine Ctx W)
  | register (sm : StateMachine Ctx W) (state : State)
      (before after onEnter onExit guards : List (Task Ctx W)) :
      Built sm → Built (RegisterTasks sm state before after onEnter onExit guards)

/-- The eight state constants. -/
def eightStates : List State :=
  [StateNew, StatePending, StateInitialReview, StateInProgress, StateFinalApproval,
    StateCompleted, StateClosed, StateCanceled]

/-- The thirteen event constants. -/
def thirteenEvents : List Event :=
  [EventSubmit, EventAssign, EventApproveInitial, EventRejectInitial, EventDenyInitial,
    EventSubmitFinal, EventApproveFinal, EventRejectFinal, EventArchive, EventCancel,
    EventReassign, EventHold, EventResume]

/-- State `t` is reachable from state `s` by a sequence of events that are
valid one after the other. -/
inductive Reachable {Ctx W : Type} (sm : StateMachine Ctx W) : State → State → Prop
  | refl (s : State) : Reachable sm s s
  | step (s : State) (e : Event) (d t : State) :
      lookupTransition sm s e = some d → Reachable sm d t → Reachable sm s t

/-- One call of a sequence of `Transition` calls on the same ticket: the
context, the two clock readings and the event. -/
structure Call (Ctx : Type) where
  ctx : Ctx
  now₁ : Time
  now₂ : Time
  event : Event

/-- Whether the call reaches the commit step: the table has an entry and no
guard, before-action or exit-action fails. -/
def reachesCommit {Ctx W : Type} (sm : StateMachine Ctx W) (c : Call Ctx)
    (s : W × model.Ticket) : Bool :=
  match lookupTransition sm s.2.CurrentState c.event with
  | none => false
  | some _ =>
    (runSeq c.ctx c.event (preCommitHooks sm s.2.CurrentState)
      { world := s.1, ticket := s.2, trace := [] }).2.isNone

/-- The captured variables and the ticket after a sequence of `Transition`
calls, each on what the call before it left. -/
def runCalls {Ctx W : Type} (sm : StateMachine Ctx W) :
    List (Call Ctx) → W × model.Ticket → W × model.Ticket
  | [], s => s
  | c :: rest, s =>
    runCalls sm rest
      ((Transition sm c.ctx c.now₁ c.now₂ s.1 s.2 c.event).world,
        (Transition sm c.ctx c.now₁ c.now₂ s.1 s.2 c.event).ticket)

/-- The number of calls of the sequence that reach the commit step. -/
def countCommits {Ctx W : Type} (sm : StateMachine Ctx W) :
    List (Call Ctx) → W × model.Ticket → Nat
  | [], _ => 0
  | c :: rest, s =>
    (if reachesCommit sm c s then 1 else 0)
      + countCommits sm rest
          ((Transition sm c.ctx c.now₁ c.now₂ s.1 s.2 c.event).world,
            (Transition sm c.ctx c.now₁ c.now₂ s.1 s.2 c.event).ticket)

/-- The history is chained: each record's `ToState` is the next record's
`FromState`. -/
def Chained (h : List model.History) : Prop :=
  List.Chain' (fun a b => a.ToState = b.FromState) h

/-- The last record of the history, when there is one, leads to state `cs`. -/
def EndsAt (h : List model.History) (cs : String) : Prop :=
  ∀ r, h.getLast? = some r → r.ToState = cs

/-- The fresh machine with two before-actions on `Pending`: the first
overwrites the ticket's state with `"X"` and succeeds, the second fails. -/
def moveThenFailMachine : StateMachine Unit Nat :=
  RegisterTasks (NewStateMachine Unit Nat) StatePending
    [moveHook "mv" "X", failHook "f" "before failed"] [] [] [] []

/-! ## Lemmas on the hook loops -/

theorem runTasks_eq_runSeq {Ctx W : Type} (k : HookKind) (ctx : Ctx) (event : Event)
    (hs : List (Task Ctx W)) (rs : RunState Ctx W) :
    runTasks k ctx event hs rs = runSeq ctx event (tag k hs) rs := by
  induction hs generalizing rs with
  | nil => rfl
  | cons h rest ih =>
    simp only [runTasks, tag, List.map_cons, runSeq]
    cases (h.Execute ctx rs.world rs.ticket event).err with
    | none => simpa [tag] using ih _
    | some err => rfl

theorem runNode_eq_runSeq {Ctx W : Type} (sm : StateMachine Ctx W) (s : State) (k : HookKind)
    (sel : Node Ctx W → List (Task Ctx W)) (ctx : Ctx) (event : Event) (rs : RunState Ctx W) :
    runNode sm s k sel ctx event rs = runSeq ctx event (tag k (hooksAt sm s sel)) rs := by
  unfold runNode hooksAt
  cases sm.nodes s with
  | none => rfl
  | some node => exact runTasks_eq_runSeq k ctx event (sel node) rs

theorem runSeq_append {Ctx W : Type} (ctx : Ctx) (event : Event)
    (a b : List (HookKind × Task Ctx W)) (rs : RunState Ctx W) :
    runSeq ctx event (a ++ b) rs =
      match runSeq ctx event a rs with
      | (rs1, none) => runSeq ctx event b rs1
      | (rs1, some err) => (rs1, some err) := by
  induction a generalizing rs with
  | nil => rfl
  | cons h rest ih =>
    simp only [List.cons_append, runSeq]
    cases (h.2.Execute ctx rs.world rs.ticket event).err with
    | none => exact ih _
    | some err => rfl

theorem applyHooks_append {Ctx W : Type} (ctx : Ctx) (event : Event)
    (a b : List (HookKind × Task Ctx W)) (s : W × model.Ticket) :
    applyHooks ctx event (a ++ b) s = applyHooks ctx event b (applyHooks ctx event a s) := by
  simp [applyHooks, List.foldl_append]

theorem allSucceed_append {Ctx W : Type} (ctx : Ctx) (event : Event)
    (a b : List (HookKind × Task Ctx W)) (s : W × model.Ticket) :
    AllSucceed ctx event (a ++ b) s ↔
      AllSucceed ctx event a s ∧ AllSucceed ctx event b (applyHooks ctx event a s) := by
  induction a generalizing s with
  | nil => simp [AllSucceed, applyHooks]
  | cons h rest ih =>
    rw [List.cons_append]
    simp only [AllSucceed]
    rw [ih]
    simp [applyHooks, and_assoc]

/-- A list of hooks that all succeed runs to its end: no error, the state of
`applyHooks`, and every hook on the trace. -/
theorem runSeq_ok {Ctx W : Type} (ctx : Ctx) (event : Event)
    (l : List (HookKind × Task Ctx W)) (rs : RunState Ctx W)
    (h : AllSucceed ctx event l (rs.world, rs.ticket)) :
    runSeq ctx event l rs =
      ({ world := (applyHooks ctx event l (rs.world, rs.ticket)).1,
         ticket := (applyHooks ctx event l (rs.world, rs.ticket)).2,
         trace := rs.trace ++ l }, none) := by
  induction l generalizing rs with
  | nil => simp [runSeq, applyHooks]
  | cons kh rest ih =>
    obtain ⟨h1, h2⟩ := h
    simp only [hookErr] at h1
    simp only [runSeq, h1]
    rw [ih _ h2]
    simp [applyHooks, applyHook]

/-- A run stops at the first hook that fails: its error is returned, the state
is the one that hook left, and the trace ends with that hook. -/
theorem runSeq_fail {Ctx W : Type} (ctx : Ctx) (event : Event)
    (pre post : List (HookKind × Task Ctx W)) (kh : HookKind × Task Ctx W) (e : GoError)
    (rs : RunState Ctx W)
    (hpre : AllSucceed ctx event pre (rs.world, rs.ticket))
    (hfail : hookErr ctx event (applyHooks ctx event pre (rs.world, rs.ticket)) kh.2 = some e) :
    runSeq ctx event (pre ++ kh :: post) rs =
      ({ world := (applyHooks ctx event (pre ++ [kh]) (rs.world, rs.ticket)).1,
         ticket := (applyHooks ctx event (pre ++ [kh]) (rs.world, rs.ticket)).2,
         trace := rs.trace ++ (pre ++ [kh]) }, some e) := by
  rw [runSeq_append, runSeq_ok ctx event pre rs hpre]
  simp only [hookErr] at hfail
  simp only [runSeq, hfail, applyHooks_append]
  simp [applyHooks, applyHook]

/-- Either every hook of the list succeeds, or the list splits at a first
failing hook. -/
theorem allSucceed_or_first_failure {Ctx W : Type} (ctx : Ctx) (event : Event)
    (l : List (HookKind × Task Ctx W)) (s : W × model.Ticket) :
    AllSucceed ctx event l s ∨
      ∃ pre kh post e, l = pre ++ kh :: post ∧ AllSucceed ctx event pre s ∧
        hookErr ctx event (applyHooks ctx event pre s) kh.2 = some e := by
  induction l generalizing s with
  | nil => exact Or.inl trivial
  | cons kh rest ih =>
    cases hk : hookErr ctx event s kh.2 with
    | some e => exact Or.inr ⟨[], kh, rest, e, rfl, trivial, by simpa [applyHooks] using hk⟩
    | none =>
      rcases ih (applyHook ctx event s kh.2) with h | ⟨pre, kh2, post, e, hl, hp, hf⟩
      · exact Or.inl ⟨hk, h⟩
      · refine Or.inr ⟨kh :: pre, kh2, post, e, by simp [hl], ⟨hk, hp⟩, ?_⟩
        simpa [applyHooks] using hf

/-- Whatever its outcome, a run leaves the state that some initial part of the
list produces, and exactly that part on the trace. -/
theorem runSeq_ran {Ctx W : Type} (ctx : Ctx) (event : Event)
    (l : List (HookKind × Task Ctx W)) (rs : RunState Ctx W) :
    ∃ ran rest, l = ran ++ rest ∧
      (runSeq ctx event l rs).1 =
        { world := (applyHooks ctx event ran (rs.world, rs.ticket)).1,
          ticket := (applyHooks ctx event ran (rs.world, rs.ticket)).2,
          trace := rs.trace ++ ran } := by
  rcases allSucceed_or_first_failure ctx event l (rs.world, rs.ticket) with
    h | ⟨pre, kh, post, e, hl, hp, hf⟩
  · exact ⟨l, [], by simp, by rw [runSeq_ok ctx event l rs h]⟩
  · refine ⟨pre ++ [kh], post, by simp [hl], ?_⟩
    rw [hl, runSeq_fail ctx event pre post kh e rs hp hf]

/-- `Transition` as one run over the pre-commit hooks, the commit, and one run
over the post-commit hooks. -/
theorem Transition_pipeline {Ctx W : Type} (sm : StateMachine Ctx W) (ctx : Ctx)
    (now₁ now₂ : Time) (w : W) (ticket : model.Ticket) (event : Event) :
    Transition sm ctx now₁ now₂ w ticket event =
      match lookupTransition sm ticket.CurrentState event with
      | none =>
        { state := ticket.CurrentState, err := some "invalid transition", ticket := ticket,
          world := w, trace := [] }
      | some d =>
        match runSeq ctx event (preCommitHooks sm ticket.CurrentState)
            { world := w, ticket := ticket, trace := [] } with
        | (rs, some err) =>
          { state := ticket.CurrentState, err := some err, ticket := rs.ticket,
            world := rs.world, trace := rs.trace }
        | (rs, none) =>
          { state := d,
            err := (runSeq ctx event (postCommitHooks sm d)
              { rs with ticket := commit d event now₁ now₂ rs.ticket }).2,
            ticket := (runSeq ctx event (postCommitHooks sm d)
              { rs with ticket := commit d event now₁ now₂ rs.ticket }).1.ticket,
            world := (runSeq ctx event (postCommitHooks sm d)
              { rs with ticket := commit d event now₁ now₂ rs.ticket }).1.world,
            trace := (runSeq ctx event (postCommitHooks sm d)
              { rs with ticket := commit d event now₁ now₂ rs.ticket }).1.trace } := by
  unfold Transition
  simp only [runNode_eq_runSeq, preCommitHooks, postCommitHooks, runSeq_append]
  cases hl : lookupTransition sm ticket.CurrentState event with
  | none => rfl
  | some d =>
    rcases h1 : runSeq ctx event (tag HookKind.guard (hooksAt sm ticket.CurrentState
      (fun n => n.Guards))) { world := w, ticket := ticket, trace := [] } with ⟨rs1, _ | e1⟩
    · rcases h2 : runSeq ctx event (tag HookKind.before (hooksAt sm ticket.CurrentState
        (fun n => n.BeforeTasks))) rs1 with ⟨rs2, _ | e2⟩
      · rcases h3 : runSeq ctx event (tag HookKind.exit (hooksAt sm ticket.CurrentState
          (fun n => n.OnExit))) rs2 with ⟨rs3, _ | e3⟩
        · rcases h4 : runSeq ctx event (tag HookKind.enter (hooksAt sm d
            (fun n => n.OnEnter))) { rs3 with ticket := commit d event now₁ now₂ rs3.ticket }
            with ⟨rs5, _ | e5⟩
          · rcases h5 : runSeq ctx event (tag HookKind.after (hooksAt sm d
              (fun n => n.AfterTasks))) rs5 with ⟨rs6, _ | e6⟩ <;> simp [h1, h2, h3, h4, h5]
          · simp [h1, h2, h3, h4]
        · simp [h1, h2, h3]
      · simp [h1, h2]
    · simp [h1]

/-- The call rejected by the table. -/
theorem Transition_of_lookup_none {Ctx W : Type} (sm : StateMachine Ctx W) (ctx : Ctx)
    (now₁ now₂ : Time) (w : W) (ticket : model.Ticket) (event : Event)
    (hl : lookupTransition sm ticket.CurrentState event = none) :
    Transition sm ctx now₁ now₂ w ticket event =
      { state := ticket.CurrentState, err := some "invalid transition", ticket := ticket,
        world := w, trace := [] } := by
  rw [Transition_pipeline, hl]

/-- The call rejected by a pre-commit hook: the pipeline stops at the first
hook that fails. -/
theorem Transition_of_pre_failure {Ctx W : Type} (sm : StateMachine Ctx W) (ctx : Ctx)
    (now₁ now₂ : Time) (w : W) (ticket : model.Ticket) (event : Event) (d : State)
    (pre post : List (HookKind × Task Ctx W)) (kh : HookKind × Task Ctx W) (e : GoError)
    (hl : lookupTransition sm ticket.CurrentState event = some d)
    (hsplit : preCommitHooks sm ticket.CurrentState = pre ++ kh :: post)
    (hpre : AllSucceed ctx event pre (w, ticket))
    (hfail : hookErr ctx event (applyHooks ctx event pre (w, ticket)) kh.2 = some e) :
    Transition sm ctx now₁ now₂ w ticket event =
      { state := ticket.CurrentState, err := some e,
        ticket := (applyHooks ctx event (pre ++ [kh]) (w, ticket)).2,
        world := (applyHooks ctx event (pre ++ [kh]) (w, ticket)).1,
        trace := pre ++ [kh] } := by
  rw [Transition_pipeline, hl]
  simp only [hsplit]
  rw [runSeq_fail ctx event pre post kh e _ hpre hfail]
  simp

/-- The call that reaches the commit step: the post-commit hooks run on the
committed ticket, and their outcome is the outcome of the call. -/
theorem Transition_of_pre_success {Ctx W : Type} (sm : StateMachine Ctx W) (ctx : Ctx)
    (now₁ now₂ : Time) (w : W) (ticket : model.Ticket) (event : Event) (d : State)
    (hl : lookupTransition sm ticket.CurrentState event = some d)
    (hpre : AllSucceed ctx event (preCommitHooks sm ticket.CurrentState) (w, ticket)) :
    Transition sm ctx now₁ now₂ w ticket event =
      { state := d,
        err := (runSeq ctx event (postCommitHooks sm d)
          { world := (preState sm ctx event w ticket).1,
            ticket := commit d event now₁ now₂
              (preState sm ctx event w ticket).2,
            trace := preCommitHooks sm ticket.CurrentState }).2,
        ticket := (runSeq ctx event (postCommitHooks sm d)
          { world := (preState sm ctx event w ticket).1,
            ticket := commit d event now₁ now₂
              (preState sm ctx event w ticket).2,
            trace := preCommitHooks sm ticket.CurrentState }).1.ticket,
        world := (runSeq ctx event (postCommitHooks sm d)
          { world := (preState sm ctx event w ticket).1,
            ticket := commit d event now₁ now₂
              (preState sm ctx event w ticket).2,
            trace := preCommitHooks sm ticket.CurrentState }).1.world,
        trace := (runSeq ctx event (postCommitHooks sm d)
          { world := (preState sm ctx event w ticket).1,
            ticket := commit d event now₁ now₂
              (preState sm ctx event w ticket).2,
            trace := preCommitHooks sm ticket.CurrentState }).1.trace } := by
  rw [Transition_pipeline, hl]
  simp only
  rw [runSeq_ok ctx event _ _ hpre]
  simp

/-- A field that no hook of the list writes is the same after the hooks ran. -/
theorem applyHooks_keeps {Ctx W α : Type} (f : model.Ticket → α) (ctx : Ctx) (event : Event)
    (l : List (HookKind × Task Ctx W)) (s : W × model.Ticket)
    (hk : ∀ kh ∈ l, ∀ c w t e, f (kh.2.Execute c w t e).ticket = f t) :
    f (applyHooks ctx event l s).2 = f s.2 := by
  induction l generalizing s with
  | nil => rfl
  | cons kh rest ih =>
    have h1 := ih (applyHook ctx event s kh.2) (fun x hx => hk x (List.mem_cons_of_mem _ hx))
    have h2 := hk kh (List.mem_cons_self _ _) ctx s.1 s.2 event
    simp only [applyHooks, List.foldl_cons] at h1 ⊢
    rw [h1]
    exact h2

/-- A failing hook whose kind is not the kind of the first list sits after the
whole first list. -/
theorem tag_prefix_of_split {Ctx W : Type} (k : HookKind) (hs : List (Task Ctx W))
    (tail pre post : List (HookKind × Task Ctx W)) (kh : HookKind × Task Ctx W)
    (hsplit : tag k hs ++ tail = pre ++ kh :: post) (hne : kh.1 ≠ k) :
    ∃ mid, pre = tag k hs ++ mid ∧ tail = mid ++ kh :: post := by
  rcases List.append_eq_append_iff.mp hsplit with ⟨a, h1, h2⟩ | ⟨c, h1, h2⟩
  · exact ⟨a, h1, h2⟩
  · cases c with
    | nil => exact ⟨[], by simpa using h1.symm, by simpa using h2.symm⟩
    | cons x c2 =>
      exfalso
      simp only [List.cons_append, List.cons.injEq] at h2
      have hx : kh ∈ tag k hs := by
        rw [h1, h2.1]
        simp
      simp only [tag, List.mem_map] at hx
      obtain ⟨t, _, ht⟩ := hx
      exact hne (by rw [← ht])

/-- A failing hook whose kind occurs in the first list only sits inside the
first list. -/
theorem split_inside_tag {Ctx W : Type} (k : HookKind) (hs : List (Task Ctx W))
    (tail pre post : List (HookKind × Task Ctx W)) (kh : HookKind × Task Ctx W)
    (hsplit : tag k hs ++ tail = pre ++ kh :: post) (hnot : ∀ x ∈ tail, x.1 ≠ kh.1) :
    ∃ more, tag k hs = pre ++ kh :: more := by
  rcases List.append_eq_append_iff.mp hsplit with ⟨a, _, h2⟩ | ⟨c, h1, h2⟩
  · exact absurd rfl (hnot kh (by rw [h2]; simp))
  · cases c with
    | nil => exact absurd rfl (hnot kh (by simp at h2; rw [← h2]; simp))
    | cons x c2 =>
      simp only [List.cons_append, List.cons.injEq] at h2
      exact ⟨c2, by rw [h1, h2.1]⟩

theorem mem_tag_kind {Ctx W : Type} (k : HookKind) (hs : List (Task Ctx W))
    (x : HookKind × Task Ctx W) (hx : x ∈ tag k hs) : x.1 = k := by
  simp only [tag, List.mem_map] at hx
  obtain ⟨t, _, ht⟩ := hx
  rw [← ht]

theorem mem_preCommitHooks_kind {Ctx W : Type} (sm : StateMachine Ctx W) (s : State)
    (x : HookKind × Task Ctx W) (hx : x ∈ preCommitHooks sm s) :
    x.1 = HookKind.guard ∨ x.1 = HookKind.before ∨ x.1 = HookKind.exit := by
  simp only [preCommitHooks, List.mem_append] at hx
  rcases hx with (h | h) | h
  · exact Or.inl (mem_tag_kind _ _ _ h)
  · exact Or.inr (Or.inl (mem_tag_kind _ _ _ h))
  · exact Or.inr (Or.inr (mem_tag_kind _ _ _ h))

theorem mem_postCommitHooks_kind {Ctx W : Type} (sm : StateMachine Ctx W) (s : State)
    (x : HookKind × Task Ctx W) (hx : x ∈ postCommitHooks sm s) :
    x.1 = HookKind.enter ∨ x.1 = HookKind.after := by
  simp only [postCommitHooks, List.mem_append] at hx
  rcases hx with h | h
  · exact Or.inl (mem_tag_kind _ _ _ h)
  · exact Or.inr (mem_tag_kind _ _ _ h)

/-! ## Lemmas on the commit step and the committed calls -/

theorem commit_CurrentState (d : State) (event : Event) (now₁ now₂ : Time) (t : model.Ticket) :
    (commit d event now₁ now₂ t).CurrentState = d := by
  unfold commit
  split_ifs <;> rfl

theorem commit_History (d : State) (event : Event) (now₁ now₂ : Time) (t : model.Ticket) :
    (commit d event now₁ now₂ t).History =
      t.History ++ [{ FromState := t.CurrentState, ToState := d, Event := event,
                      Timestamp := now₂, TriggeredBy := t.AssigneeID }] := by
  unfold commit
  split_ifs <;> rfl

theorem commit_ReassignCount (d : State) (event : Event) (now₁ now₂ : Time) (t : model.Ticket) :
    (commit d event now₁ now₂ t).ReassignCount =
      if event = EventReassign then wrapInt (t.ReassignCount + 1) else t.ReassignCount := by
  unfold commit
  split_ifs <;> rfl

theorem wrapInt_of_inRange (x : Int) (h1 : minInt ≤ x) (h2 : x ≤ maxInt) : wrapInt x = x := by
  unfold wrapInt
  simp only [minInt, maxInt] at h1 h2
  omega

/-- The committed call on which a post-commit hook fails: the pipeline stops
at the first such hook, after the commit. -/
theorem Transition_of_post_failure {Ctx W : Type} (sm : StateMachine Ctx W) (ctx : Ctx)
    (now₁ now₂ : Time) (w : W) (ticket : model.Ticket) (event : Event) (d : State)
    (ran rest : List (HookKind × Task Ctx W)) (kh : HookKind × Task Ctx W) (e : GoError)
    (hl : lookupTransition sm ticket.CurrentState event = some d)
    (hpre : AllSucceed ctx event (preCommitHooks sm ticket.CurrentState) (w, ticket))
    (hsplit : postCommitHooks sm d = ran ++ kh :: rest)
    (hran : AllSucceed ctx event ran
      (commitState sm ctx now₁ now₂ w ticket event d))
    (hfail : hookErr ctx event (applyHooks ctx event ran
      (commitState sm ctx now₁ now₂ w ticket event d)) kh.2
      = some e) :
    Transition sm ctx now₁ now₂ w ticket event =
      { state := d, err := some e,
        ticket := (applyHooks ctx event (ran ++ [kh])
          (commitState sm ctx now₁ now₂ w ticket event d)).2,
        world := (applyHooks ctx event (ran ++ [kh])
          (commitState sm ctx now₁ now₂ w ticket event d)).1,
        trace := preCommitHooks sm ticket.CurrentState ++ (ran ++ [kh]) } := by
  rw [Transition_of_pre_success sm ctx now₁ now₂ w ticket event d hl hpre]
  simp only [hsplit]
  rw [runSeq_fail ctx event ran rest kh e _ hran hfail]

/-- The call on which every hook succeeds. -/
theorem Transition_of_all_success {Ctx W : Type} (sm : StateMachine Ctx W) (ctx : Ctx)
    (now₁ now₂ : Time) (w : W) (ticket : model.Ticket) (event : Event) (d : State)
    (hl : lookupTransition sm ticket.CurrentState event = some d)
    (hpre : AllSucceed ctx event (preCommitHooks sm ticket.CurrentState) (w, ticket))
    (hpost : AllSucceed ctx event (postCommitHooks sm d)
      (commitState sm ctx now₁ now₂ w ticket event d)) :
    Transition sm ctx now₁ now₂ w ticket event =
      { state := d, err := none,
        ticket := (applyHooks ctx event (postCommitHooks sm d)
          (commitState sm ctx now₁ now₂ w ticket event d)).2,
        world := (applyHooks ctx event (postCommitHooks sm d)
          (commitState sm ctx now₁ now₂ w ticket event d)).1,
        trace := preCommitHooks sm ticket.CurrentState ++ postCommitHooks sm d } := by
  rw [Transition_of_pre_success sm ctx now₁ now₂ w ticket event d hl hpre]
  rw [runSeq_ok ctx event _ _ hpost]

/-- The committed call, whatever the post-commit hooks do: the destination is
returned and the ticket is the committed ticket as the post-commit hooks that
ran left it. -/
theorem Transition_of_commit {Ctx W : Type} (sm : StateMachine Ctx W) (ctx : Ctx)
    (now₁ now₂ : Time) (w : W) (ticket : model.Ticket) (event : Event) (d : State)
    (hl : lookupTransition sm ticket.CurrentState event = some d)
    (hpre : AllSucceed ctx event (preCommitHooks sm ticket.CurrentState) (w, ticket)) :
    ∃ ran rest, postCommitHooks sm d = ran ++ rest ∧
      (Transition sm ctx now₁ now₂ w ticket event).state = d ∧
      (Transition sm ctx now₁ now₂ w ticket event).trace
        = preCommitHooks sm ticket.CurrentState ++ ran ∧
      ((Transition sm ctx now₁ now₂ w ticket event).world,
        (Transition sm ctx now₁ now₂ w ticket event).ticket)
        = applyHooks ctx event ran
            (commitState sm ctx now₁ now₂ w ticket event d) := by
  rw [Transition_of_pre_success sm ctx now₁ now₂ w ticket event d hl hpre]
  obtain ⟨ran, rest, h1, h2⟩ := runSeq_ran ctx event (postCommitHooks sm d)
    { world := (preState sm ctx event w ticket).1,
      ticket := commit d event now₁ now₂
        (preState sm ctx event w ticket).2,
      trace := preCommitHooks sm ticket.CurrentState }
  exact ⟨ran, rest, h1, rfl, by rw [h2], by rw [h2]⟩

/-- The rejected call with a table entry: the source is returned and the
ticket is the call-time ticket as the pre-commit hooks that ran left it. -/
theorem Transition_of_reject {Ctx W : Type} (sm : StateMachine Ctx W) (ctx : Ctx)
    (now₁ now₂ : Time) (w : W) (ticket : model.Ticket) (event : Event) (d : State)
    (hl : lookupTransition sm ticket.CurrentState event = some d)
    (hpre : ¬ AllSucceed ctx event (preCommitHooks sm ticket.CurrentState) (w, ticket)) :
    ∃ ran rest, preCommitHooks sm ticket.CurrentState = ran ++ rest ∧
      (Transition sm ctx now₁ now₂ w ticket event).state = ticket.CurrentState ∧
      (Transition sm ctx now₁ now₂ w ticket event).err ≠ none ∧
      (Transition sm ctx now₁ now₂ w ticket event).trace = ran ∧
      ((Transition sm ctx now₁ now₂ w ticket event).world,
        (Transition sm ctx now₁ now₂ w ticket event).ticket)
        = applyHooks ctx event ran (w, ticket) := by
  rcases allSucceed_or_first_failure ctx event (preCommitHooks sm ticket.CurrentState)
    (w, ticket) with h | ⟨pre, kh, post, e, hsplit, hp, hf⟩
  · exact absurd h hpre
  · rw [Transition_of_pre_failure sm ctx now₁ now₂ w ticket event d pre post kh e hl hsplit hp hf]
    exact ⟨pre ++ [kh], post, by simp [hsplit], rfl, by simp, rfl, rfl⟩

/-! ## The rejected calls -/

/-- C1: when the table has no entry for the ticket's state and the event,
`Transition` returns the ticket's state with the error "invalid transition",
calls no hook of any kind, and leaves the ticket (every field of it) and the
variables captured by the hooks as they were. -/
theorem Transition_invalid_untouched {Ctx W : Type} (sm : StateMachine Ctx W) (ctx : Ctx)
    (now₁ now₂ : Time) (w : W) (ticket : model.Ticket) (event : Event)
    (hl : lookupTransition sm ticket.CurrentState event = none) :
    (Transition sm ctx now₁ now₂ w ticket event).state = ticket.CurrentState ∧
    (Transition sm ctx now₁ now₂ w ticket event).err = some "invalid transition" ∧
    (Transition sm ctx now₁ now₂ w ticket event).trace = [] ∧
    (Transition sm ctx now₁ now₂ w ticket event).ticket = ticket ∧
    (Transition sm ctx now₁ now₂ w ticket event).world = w := by
  rw [Transition_of_lookup_none sm ctx now₁ now₂ w ticket event hl]
  exact ⟨rfl, rfl, rfl, rfl, rfl⟩

/-- Witness of C1: `Cancel` on a ticket in `New`, on a machine that has a
hook of each kind registered on `New`; the call counter stays at 0. -/
theorem Transition_invalid_untouched_witness :
    lookupTransition newHookedMachine (sampleTicket StateNew 4).CurrentState EventCancel = none ∧
    (Transition newHookedMachine () 10 11 0 (sampleTicket StateNew 4) EventCancel).state = "New" ∧
    (Transition newHookedMachine () 10 11 0 (sampleTicket StateNew 4) EventCancel).err
      = some "invalid transition" ∧
    (Transition newHookedMachine () 10 11 0 (sampleTicket StateNew 4) EventCancel).trace = [] ∧
    (Transition newHookedMachine () 10 11 0 (sampleTicket StateNew 4) EventCancel).ticket
      = sampleTicket StateNew 4 ∧
    (Transition newHookedMachine () 10 11 0 (sampleTicket StateNew 4) EventCancel).world = 0 :=
  ⟨rfl, Transition_invalid_untouched newHookedMachine () 10 11 0 (sampleTicket StateNew 4)
    EventCancel rfl⟩

/-- C2: when the table has an entry and a guard of the source node fails, the
guards before it having succeeded, `Transition` returns the source state and
that guard's error; the hook calls made are exactly the guards up to and
including the failing one, in registration order (no later guard, no before-,
exit-, enter- or after-action); the ticket and the captured variables are
exactly what those guard calls left (the engine writes nothing), so the ticket
is unchanged when these guards do not write it. -/
theorem Transition_guard_failure {Ctx W : Type} (sm : StateMachine Ctx W) (ctx : Ctx)
    (now₁ now₂ : Time) (w : W) (ticket : model.Ticket) (event : Event) (d : State)
    (node : Node Ctx W) (pre post : List (Task Ctx W)) (g : Task Ctx W) (e : GoError)
    (hl : lookupTransition sm ticket.CurrentState event = some d)
    (hn : sm.nodes ticket.CurrentState = some node)
    (hg : node.Guards = pre ++ g :: post)
    (hpre : AllSucceed ctx event (tag HookKind.guard pre) (w, ticket))
    (hfail : hookErr ctx event (applyHooks ctx event (tag HookKind.guard pre) (w, ticket)) g
      = some e) :
    (Transition sm ctx now₁ now₂ w ticket event).state = ticket.CurrentState ∧
    (Transition sm ctx now₁ now₂ w ticket event).err = some e ∧
    (Transition sm ctx now₁ now₂ w ticket event).trace = tag HookKind.guard (pre ++ [g]) ∧
    ((Transition sm ctx now₁ now₂ w ticket event).world,
      (Transition sm ctx now₁ now₂ w ticket event).ticket)
        = applyHooks ctx event (tag HookKind.guard (pre ++ [g])) (w, ticket) ∧
    ((∀ h ∈ pre ++ [g], KeepsTicket h) →
      (Transition sm ctx now₁ now₂ w ticket event).ticket = ticket) := by
  have hsplit : preCommitHooks sm ticket.CurrentState =
      tag HookKind.guard pre ++ (HookKind.guard, g) ::
        (tag HookKind.guard post
          ++ tag HookKind.before (hooksAt sm ticket.CurrentState (fun n => n.BeforeTasks))
          ++ tag HookKind.exit (hooksAt sm ticket.CurrentState (fun n => n.OnExit))) := by
    simp [preCommitHooks, hooksAt, hn, hg, tag]
  rw [Transition_of_pre_failure sm ctx now₁ now₂ w ticket event d _ _ (HookKind.guard, g) e
    hl hsplit hpre hfail]
  have htag : tag HookKind.guard pre ++ [(HookKind.guard, g)] = tag HookKind.guard (pre ++ [g]) := by
    simp [tag]
  refine ⟨rfl, rfl, htag, by rw [htag], ?_⟩
  intro hkeep
  simp only [htag]
  refine applyHooks_keeps (fun t => t) ctx event _ (w, ticket) ?_
  intro kh hkh c w2 t e2
  simp only [tag, List.mem_map] at hkh
  obtain ⟨h, hh, rfl⟩ := hkh
  exact hkeep h hh c w2 t e2

/-- Witness of C2: `ApproveFinal` on a ticket in `FinalApproval` whose second
guard fails; two hook calls are made and the ticket is unchanged. -/
theorem Transition_guard_failure_witness :
    (Transition guardedMachine () 10 11 0 (sampleTicket StateFinalApproval 4)
      EventApproveFinal).state = "FinalApproval" ∧
    (Transition guardedMachine () 10 11 0 (sampleTicket StateFinalApproval 4)
      EventApproveFinal).err = some "denied" ∧
    (Transition guardedMachine () 10 11 0 (sampleTicket StateFinalApproval 4)
      EventApproveFinal).trace = tag HookKind.guard [okHook "g1", failHook "g2" "denied"] ∧
    (Transition guardedMachine () 10 11 0 (sampleTicket StateFinalApproval 4)
      EventApproveFinal).world = 2 ∧
    (Transition guardedMachine () 10 11 0 (sampleTicket StateFinalApproval 4)
      EventApproveFinal).ticket = sampleTicket StateFinalApproval 4 := by
  have h := Transition_guard_failure guardedMachine () 10 11 0
    (sampleTicket StateFinalApproval 4) EventApproveFinal StateCompleted
    { State := StateFinalApproval, BeforeTasks := [okHook "before"], OnExit := [okHook "exit"],
      Guards := [okHook "g1", failHook "g2" "denied", okHook "g3"] }
    [okHook "g1"] [okHook "g3"] (failHook "g2" "denied") "denied" rfl rfl rfl
    ⟨rfl, trivial⟩ rfl
  refine ⟨h.1, h.2.1, h.2.2.1, ?_, ?_⟩
  · exact (congrArg Prod.fst h.2.2.2.1).trans rfl
  · exact (congrArg Prod.snd h.2.2.2.1).trans rfl

/-- C3: when the table has an entry and the first pre-commit hook to fail is a
before-action or an exit-action of the source node (so every guard, and every
hook before it, succeeded), `Transition` returns the source state and that
hook's error; the hook calls made are exactly the pre-commit hooks up to and
including the failing one, all guards among them, and no enter- or
after-action; the commit step is not performed: the ticket and the captured
variables are exactly what those hook calls left, so `CurrentState`,
`ReassignCount` and `History` are not written by the engine, and the ticket is
unchanged when these hooks do not write it. -/
theorem Transition_before_or_exit_failure {Ctx W : Type} (sm : StateMachine Ctx W) (ctx : Ctx)
    (now₁ now₂ : Time) (w : W) (ticket : model.Ticket) (event : Event) (d : State)
    (pre post : List (HookKind × Task Ctx W)) (kh : HookKind × Task Ctx W) (e : GoError)
    (hl : lookupTransition sm ticket.CurrentState event = some d)
    (hsplit : preCommitHooks sm ticket.CurrentState = pre ++ kh :: post)
    (hkind : kh.1 = HookKind.before ∨ kh.1 = HookKind.exit)
    (hpre : AllSucceed ctx event pre (w, ticket))
    (hfail : hookErr ctx event (applyHooks ctx event pre (w, ticket)) kh.2 = some e) :
    (Transition sm ctx now₁ now₂ w ticket event).state = ticket.CurrentState ∧
    (Transition sm ctx now₁ now₂ w ticket event).err = some e ∧
    (Transition sm ctx now₁ now₂ w ticket event).trace = pre ++ [kh] ∧
    (∃ mid, pre = tag HookKind.guard (hooksAt sm ticket.CurrentState (fun n => n.Guards)) ++ mid) ∧
    (∀ x ∈ (Transition sm ctx now₁ now₂ w ticket event).trace,
      x.1 ≠ HookKind.enter ∧ x.1 ≠ HookKind.after) ∧
    ((Transition sm ctx now₁ now₂ w ticket event).world,
      (Transition sm ctx now₁ now₂ w ticket event).ticket)
        = applyHooks ctx event (pre ++ [kh]) (w, ticket) ∧
    ((∀ x ∈ pre ++ [kh], KeepsTicket x.2) →
      (Transition sm ctx now₁ now₂ w ticket event).ticket = ticket) := by
  rw [Transition_of_pre_failure sm ctx now₁ now₂ w ticket event d pre post kh e
    hl hsplit hpre hfail]
  refine ⟨rfl, rfl, rfl, ?_, ?_, rfl, ?_⟩
  · have hne : kh.1 ≠ HookKind.guard := by
      rcases hkind with h | h <;> rw [h] <;> decide
    have hs : tag HookKind.guard (hooksAt sm ticket.CurrentState (fun n => n.Guards))
        ++ (tag HookKind.before (hooksAt sm ticket.CurrentState (fun n => n.BeforeTasks))
          ++ tag HookKind.exit (hooksAt sm ticket.CurrentState (fun n => n.OnExit)))
        = pre ++ kh :: post := by
      rw [← hsplit, preCommitHooks, List.append_assoc]
    obtain ⟨mid, hmid, _⟩ := tag_prefix_of_split _ _ _ _ _ _ hs hne
    exact ⟨mid, hmid⟩
  · intro x hx
    have hx2 : x ∈ preCommitHooks sm ticket.CurrentState := by
      rw [hsplit]
      simp only [List.mem_append, List.mem_singleton] at hx
      rcases hx with h | h
      · exact List.mem_append_left _ h
      · exact List.mem_append_right _ (by rw [h]; exact List.mem_cons_self _ _)
    rcases mem_preCommitHooks_kind sm _ x hx2 with h | h | h <;> rw [h] <;> decide
  · intro hkeep
    exact applyHooks_keeps (fun t => t) ctx event _ (w, ticket)
      (fun x hx c w2 t e2 => hkeep x hx c w2 t e2)

/-- Witness of C3: `Assign` on a ticket in `Pending`, once on a machine whose
second before-action fails and once on a machine whose first exit-action
fails; the ticket is unchanged in both. -/
theorem Transition_before_or_exit_failure_witness :
    ((Transition beforeFailMachine () 10 11 0 (sampleTicket StatePending 4) EventAssign).state
        = "Pending" ∧
      (Transition beforeFailMachine () 10 11 0 (sampleTicket StatePending 4) EventAssign).err
        = some "before failed" ∧
      (Transition beforeFailMachine () 10 11 0 (sampleTicket StatePending 4) EventAssign).trace
        = [(HookKind.guard, okHook "g1"), (HookKind.before, okHook "b1"),
            (HookKind.before, failHook "b2" "before failed")] ∧
      (Transition beforeFailMachine () 10 11 0 (sampleTicket StatePending 4) EventAssign).ticket
        = sampleTicket StatePending 4) ∧
    ((Transition exitFailMachine () 10 11 0 (sampleTicket StatePending 4) EventAssign).state
        = "Pending" ∧
      (Transition exitFailMachine () 10 11 0 (sampleTicket StatePending 4) EventAssign).err
        = some "exit failed" ∧
      (Transition exitFailMachine () 10 11 0 (sampleTicket StatePending 4) EventAssign).trace
        = [(HookKind.guard, okHook "g1"), (HookKind.before, okHook "b1"),
            (HookKind.exit, failHook "x1" "exit failed")] ∧
      (Transition exitFailMachine () 10 11 0 (sampleTicket StatePending 4) EventAssign).ticket
        = sampleTicket StatePending 4) := by
  have h1 := Transition_before_or_exit_failure beforeFailMachine () 10 11 0
    (sampleTicket StatePending 4) EventAssign StateInitialReview
    [(HookKind.guard, okHook "g1"), (HookKind.before, okHook "b1")]
    [(HookKind.before, okHook "b3"), (HookKind.exit, okHook "x1")]
    (HookKind.before, failHook "b2" "before failed") "before failed"
    rfl rfl (Or.inl rfl) ⟨rfl, rfl, trivial⟩ rfl
  have h2 := Transition_before_or_exit_failure exitFailMachine () 10 11 0
    (sampleTicket StatePending 4) EventAssign StateInitialReview
    [(HookKind.guard, okHook "g1"), (HookKind.before, okHook "b1")]
    [(HookKind.exit, okHook "x2")]
    (HookKind.exit, failHook "x1" "exit failed") "exit failed"
    rfl rfl (Or.inr rfl) ⟨rfl, rfl, trivial⟩ rfl
  exact ⟨⟨h1.1, h1.2.1, h1.2.2.1, (congrArg Prod.snd h1.2.2.2.2.2.1).trans rfl⟩,
    ⟨h2.1, h2.2.1, h2.2.2.1, (congrArg Prod.snd h2.2.2.2.2.2.1).trans rfl⟩⟩

/-! ## The committed calls -/

/-- C4 fails as stated: on `moveMachine` the before-action of `Pending`
succeeds and overwrites the ticket's state with `"X"`; `Assign` on a ticket in
`Pending` then commits, and the one record it appends has `FromState = "X"`,
not the state `"Pending"` the ticket had when `Transition` was called. -/
theorem history_from_state_counterexample :
    lookupTransition moveMachine (sampleTicket StatePending 0).CurrentState EventAssign
      = some StateInitialReview ∧
    AllSucceed () EventAssign (preCommitHooks moveMachine StatePending)
      (0, sampleTicket StatePending 0) ∧
    (Transition moveMachine () 10 11 0 (sampleTicket StatePending 0) EventAssign).err = none ∧
    (Transition moveMachine () 10 11 0 (sampleTicket StatePending 0) EventAssign).ticket.History
      = [{ FromState := "X", ToState := "InitialReview", Event := "Assign", Timestamp := 11,
           TriggeredBy := "user123" }] ∧
    ¬ ∃ r : model.History,
      (Transition moveMachine () 10 11 0 (sampleTicket StatePending 0) EventAssign).ticket.History
        = (sampleTicket StatePending 0).History ++ [r] ∧
      r.FromState = (sampleTicket StatePending 0).CurrentState ∧
      r.ToState = StateInitialReview ∧ r.Event = EventAssign := by
  refine ⟨rfl, ⟨rfl, trivial⟩, rfl, rfl, ?_⟩
  rintro ⟨r, h1, h2, _⟩
  have hh : (Transition moveMachine () 10 11 0 (sampleTicket StatePending 0)
      EventAssign).ticket.History
      = [{ FromState := "X", ToState := "InitialReview", Event := "Assign", Timestamp := 11,
           TriggeredBy := "user123" }] := rfl
  rw [hh] at h1
  simp only [sampleTicket, List.nil_append, List.cons.injEq, and_true] at h1
  rw [← h1] at h2
  exact absurd h2 (by decide)

/-- C4, amended: when the lookup and every guard, before-action and
exit-action succeed, the commit step appends exactly one record to the history
as the pre-commit hooks left it, with `FromState` the ticket's `CurrentState`
as read at the commit step, after those hooks ran (the state the ticket had at
the call when they do not write `CurrentState`), `ToState` the destination,
`Event` the event; the enter- and after-actions then run on the committed
ticket and, whether they succeed or fail, the ticket is the committed ticket
as the ones that ran left it: when no hook that ran writes `History`, the
final history is the call-time history followed by that one record. -/
theorem Transition_appends_one_record {Ctx W : Type} (sm : StateMachine Ctx W) (ctx : Ctx)
    (now₁ now₂ : Time) (w : W) (ticket : model.Ticket) (event : Event) (d : State)
    (hl : lookupTransition sm ticket.CurrentState event = some d)
    (hpre : AllSucceed ctx event (preCommitHooks sm ticket.CurrentState) (w, ticket)) :
    ∃ ran rest, postCommitHooks sm d = ran ++ rest ∧
      ((Transition sm ctx now₁ now₂ w ticket event).world,
        (Transition sm ctx now₁ now₂ w ticket event).ticket)
        = applyHooks ctx event ran
            (commitState sm ctx now₁ now₂ w ticket event d) ∧
      (commit d event now₁ now₂
          (preState sm ctx event w ticket).2).History
        = (preState sm ctx event w ticket).2.History
          ++ [{ FromState :=
                  (preState sm ctx event w ticket).2.CurrentState,
                ToState := d, Event := event, Timestamp := now₂,
                TriggeredBy :=
                  (preState sm ctx event w ticket).2.AssigneeID }] ∧
      ((∀ x ∈ preCommitHooks sm ticket.CurrentState, KeepsState x.2) →
        (preState sm ctx event w ticket).2.CurrentState
          = ticket.CurrentState) ∧
      ((∀ x ∈ preCommitHooks sm ticket.CurrentState, KeepsState x.2 ∧ KeepsHistory x.2) →
        (∀ x ∈ ran, KeepsHistory x.2) →
        ∃ r : model.History,
          (Transition sm ctx now₁ now₂ w ticket event).ticket.History = ticket.History ++ [r] ∧
          r.FromState = ticket.CurrentState ∧ r.ToState = d ∧ r.Event = event) := by
  obtain ⟨ran, rest, h1, _, _, h4⟩ :=
    Transition_of_commit sm ctx now₁ now₂ w ticket event d hl hpre
  have hstate : (∀ x ∈ preCommitHooks sm ticket.CurrentState, KeepsState x.2) →
      (preState sm ctx event w ticket).2.CurrentState
        = ticket.CurrentState := fun hk =>
    applyHooks_keeps (fun t => t.CurrentState) ctx event _ (w, ticket)
      (fun x hx c w2 t e2 => hk x hx c w2 t e2)
  refine ⟨ran, rest, h1, h4, commit_History _ _ _ _ _, hstate, ?_⟩
  intro hk hkran
  have hhist : (preState sm ctx event w ticket).2.History = ticket.History :=
    applyHooks_keeps (fun t => t.History) ctx event _ (w, ticket)
      (fun x hx c w2 t e2 => (hk x hx).2 c w2 t e2)
  have hfin := applyHooks_keeps (fun t => t.History) ctx event ran
    (commitState sm ctx now₁ now₂ w ticket event d)
    (fun x hx c w2 t e2 => hkran x hx c w2 t e2)
  rw [← h4] at hfin
  simp only at hfin
  rw [commit_History, hhist] at hfin
  exact ⟨_, hfin, hstate (fun x hx => (hk x hx).1), rfl, rfl⟩

/-- Witness of C4 amended: `Assign` on a ticket in `Pending`.  On
`hookedMachine` no hook writes the ticket and the final history is the one
record from `Pending` to `InitialReview`; on `moveMachine` the record appended
by the commit has the state written by the before-action as its `FromState`. -/
theorem Transition_appends_one_record_witness :
    (∃ r : model.History,
      (Transition hookedMachine () 10 11 0 (sampleTicket StatePending 0) EventAssign).ticket.History
        = [r] ∧
      r.FromState = "Pending" ∧ r.ToState = "InitialReview" ∧ r.Event = "Assign") ∧
    (∃ ran rest, postCommitHooks moveMachine StateInitialReview = ran ++ rest ∧
      (Transition moveMachine () 10 11 0 (sampleTicket StatePending 0) EventAssign).ticket
        = (applyHooks () EventAssign ran
            (1, commit StateInitialReview EventAssign 10 11
              { sampleTicket StatePending 0 with CurrentState := "X" })).2 ∧
      (commit StateInitialReview EventAssign 10 11
          { sampleTicket StatePending 0 with CurrentState := "X" }).History
        = [{ FromState := "X", ToState := "InitialReview", Event := "Assign", Timestamp := 11,
             TriggeredBy := "user123" }]) := by
  constructor
  · obtain ⟨ran, rest, h1, _, _, _, h5⟩ := Transition_appends_one_record hookedMachine () 10 11 0
      (sampleTicket StatePending 0) EventAssign StateInitialReview rfl ⟨rfl, rfl, rfl, trivial⟩
    have hpre : ∀ x ∈ preCommitHooks hookedMachine (sampleTicket StatePending 0).CurrentState,
        KeepsState x.2 ∧ KeepsHistory x.2 := by
      intro x hx
      have hlist : preCommitHooks hookedMachine (sampleTicket StatePending 0).CurrentState
          = [(HookKind.guard, okHook "Guard"), (HookKind.before, okHook "Before"),
              (HookKind.exit, okHook "OnExit")] := rfl
      rw [hlist] at hx
      simp only [List.mem_cons, List.mem_singleton, List.not_mem_nil, or_false] at hx
      rcases hx with rfl | rfl | rfl <;> exact ⟨fun _ _ _ _ => rfl, fun _ _ _ _ => rfl⟩
    have hran : ∀ x ∈ ran, KeepsHistory x.2 := by
      intro x hx
      have hx2 : x ∈ postCommitHooks hookedMachine StateInitialReview := by
        rw [h1]
        exact List.mem_append_left _ hx
      have hlist : postCommitHooks hookedMachine StateInitialReview
          = [(HookKind.enter, okHook "OnEnter"), (HookKind.after, okHook "After")] := rfl
      rw [hlist] at hx2
      simp only [List.mem_cons, List.mem_singleton, List.not_mem_nil, or_false] at hx2
      rcases hx2 with rfl | rfl <;> exact fun _ _ _ _ => rfl
    obtain ⟨r, hr1, hr2, hr3, hr4⟩ := h5 hpre hran
    exact ⟨r, hr1, hr2, hr3, hr4⟩
  · obtain ⟨ran, rest, h1, h2, h3, _⟩ := Transition_appends_one_record moveMachine () 10 11 0
      (sampleTicket StatePending 0) EventAssign StateInitialReview rfl ⟨rfl, trivial⟩
    exact ⟨ran, rest, h1, congrArg Prod.snd h2, h3⟩

/-- C5 fails as stated: on `enterMoveFailMachine` the enter-action of
`InitialReview` overwrites the ticket's state with `"X"` and fails; `Assign` on
a ticket in `Pending` passes the pre-commit steps and returns the destination
`"InitialReview"` with a non-nil error, but the ticket's `CurrentState` after
the call is `"X"`, not the destination. -/
theorem post_commit_state_counterexample :
    lookupTransition enterMoveFailMachine (sampleTicket StatePending 0).CurrentState EventAssign
      = some StateInitialReview ∧
    AllSucceed () EventAssign (preCommitHooks enterMoveFailMachine StatePending)
      (0, sampleTicket StatePending 0) ∧
    postCommitHooks enterMoveFailMachine StateInitialReview
      = [(HookKind.enter, moveFailHook "mvf" "X" "OnEnter failed")] ∧
    (Transition enterMoveFailMachine () 10 11 0 (sampleTicket StatePending 0) EventAssign).state
      = "InitialReview" ∧
    (Transition enterMoveFailMachine () 10 11 0 (sampleTicket StatePending 0) EventAssign).err
      = some "OnEnter failed" ∧
    (Transition enterMoveFailMachine () 10 11 0
      (sampleTicket StatePending 0) EventAssign).ticket.CurrentState = "X" ∧
    (Transition enterMoveFailMachine () 10 11 0
      (sampleTicket StatePending 0) EventAssign).ticket.CurrentState ≠ StateInitialReview := by
  refine ⟨rfl, trivial, rfl, rfl, rfl, rfl, ?_⟩
  decide

/-- C5, amended: when the pre-commit steps pass and the first post-commit hook
to fail is an enter- or after-action of the destination node, `Transition`
returns the destination state with that hook's (non-nil) error, and the engine
does not roll the commit back: the ticket is the committed ticket (its
`CurrentState` the destination, its history extended by the record of this
transition) as the enter- and after-actions that ran left it.  When these
hooks do not write `CurrentState`, the ticket's `CurrentState` is the
destination; when they do not write `History`, the record of this transition
is the last record of the ticket's history. -/
theorem Transition_post_failure_keeps_commit {Ctx W : Type} (sm : StateMachine Ctx W) (ctx : Ctx)
    (now₁ now₂ : Time) (w : W) (ticket : model.Ticket) (event : Event) (d : State)
    (ran rest : List (HookKind × Task Ctx W)) (kh : HookKind × Task Ctx W) (e : GoError)
    (hl : lookupTransition sm ticket.CurrentState event = some d)
    (hpre : AllSucceed ctx event (preCommitHooks sm ticket.CurrentState) (w, ticket))
    (hsplit : postCommitHooks sm d = ran ++ kh :: rest)
    (hran : AllSucceed ctx event ran
      (commitState sm ctx now₁ now₂ w ticket event d))
    (hfail : hookErr ctx event (applyHooks ctx event ran
      (commitState sm ctx now₁ now₂ w ticket event d)) kh.2
      = some e) :
    (Transition sm ctx now₁ now₂ w ticket event).state = d ∧
    (Transition sm ctx now₁ now₂ w ticket event).err = some e ∧
    (kh.1 = HookKind.enter ∨ kh.1 = HookKind.after) ∧
    ((Transition sm ctx now₁ now₂ w ticket event).world,
      (Transition sm ctx now₁ now₂ w ticket event).ticket)
      = applyHooks ctx event (ran ++ [kh])
          (commitState sm ctx now₁ now₂ w ticket event d) ∧
    (commit d event now₁ now₂
      (preState sm ctx event w ticket).2).CurrentState
      = d ∧
    ((∀ x ∈ ran ++ [kh], KeepsState x.2) →
      (Transition sm ctx now₁ now₂ w ticket event).ticket.CurrentState = d) ∧
    ((∀ x ∈ ran ++ [kh], KeepsHistory x.2) →
      (Transition sm ctx now₁ now₂ w ticket event).ticket.History
        = (preState sm ctx event w ticket).2.History
          ++ [{ FromState :=
                  (preState sm ctx event w ticket).2.CurrentState,
                ToState := d, Event := event, Timestamp := now₂,
                TriggeredBy :=
                  (preState sm ctx event w ticket).2.AssigneeID }]) := by
  rw [Transition_of_post_failure sm ctx now₁ now₂ w ticket event d ran rest kh e
    hl hpre hsplit hran hfail]
  refine ⟨rfl, rfl, ?_, rfl, commit_CurrentState _ _ _ _ _, ?_, ?_⟩
  · exact mem_postCommitHooks_kind sm d kh (by rw [hsplit]; simp)
  · intro hk
    have h := applyHooks_keeps (fun t => t.CurrentState) ctx event (ran ++ [kh])
      (commitState sm ctx now₁ now₂ w ticket event d)
      (fun x hx c w2 t e2 => hk x hx c w2 t e2)
    simp only at h
    rw [h, commit_CurrentState]
  · intro hk
    have h := applyHooks_keeps (fun t => t.History) ctx event (ran ++ [kh])
      (commitState sm ctx now₁ now₂ w ticket event d)
      (fun x hx c w2 t e2 => hk x hx c w2 t e2)
    simp only at h
    rw [h, commit_History]

/-- Witness of C5 amended: `Assign` on a ticket in `Pending` on the machine of
`TestStateMachine_OnEnterFailure`: the destination and the enter-action's
error are returned, the ticket is in `InitialReview` and its history holds
the record of the transition. -/
theorem Transition_post_failure_keeps_commit_witness :
    (Transition enterFailMachine () 10 11 0 (sampleTicket StatePending 0) EventAssign).state
      = "InitialReview" ∧
    (Transition enterFailMachine () 10 11 0 (sampleTicket StatePending 0) EventAssign).err
      = some "OnEnter failed" ∧
    (Transition enterFailMachine () 10 11 0
      (sampleTicket StatePending 0) EventAssign).ticket.CurrentState = "InitialReview" ∧
    (Transition enterFailMachine () 10 11 0 (sampleTicket StatePending 0) EventAssign).ticket.History
      = [{ FromState := "Pending", ToState := "InitialReview", Event := "Assign",
           Timestamp := 11, TriggeredBy := "user123" }] := by
  have h := Transition_post_failure_keeps_commit enterFailMachine () 10 11 0
    (sampleTicket StatePending 0) EventAssign StateInitialReview
    [(HookKind.enter, okHook "e1")]
    [(HookKind.enter, okHook "e3"), (HookKind.after, okHook "After")]
    (HookKind.enter, failHook "OnEnterFail" "OnEnter failed") "OnEnter failed"
    rfl trivial rfl ⟨rfl, trivial⟩ rfl
  have hks : ∀ x ∈ [(HookKind.enter, okHook "e1")]
      ++ [(HookKind.enter, failHook "OnEnterFail" "OnEnter failed")], KeepsState x.2 := by
    intro x hx
    simp only [List.singleton_append, List.mem_cons, List.mem_singleton, List.not_mem_nil,
      or_false] at hx
    rcases hx with rfl | rfl <;> exact fun _ _ _ _ => rfl
  have hkh : ∀ x ∈ [(HookKind.enter, okHook "e1")]
      ++ [(HookKind.enter, failHook "OnEnterFail" "OnEnter failed")], KeepsHistory x.2 := by
    intro x hx
    simp only [List.singleton_append, List.mem_cons, List.mem_singleton, List.not_mem_nil,
      or_false] at hx
    rcases hx with rfl | rfl <;> exact fun _ _ _ _ => rfl
  exact ⟨h.1, h.2.1, h.2.2.2.2.2.1 hks, (h.2.2.2.2.2.2 hkh).trans rfl⟩

/-- C6: when the table maps the ticket's state `S` and the event to `D` and
every hook succeeds, `Transition` returns `D` with no error; the hook calls
made are, in this order and each exactly once, the guards, the
before-actions and the exit-actions of the node of `S`, then the
enter-actions and the after-actions of the node of `D`, each list in
registration order; and the resulting ticket (with the captured variables) is
the result of applying these steps in that order, with the commit between the
exit-actions and the enter-actions, so that the post-commit hooks start from
the committed ticket. -/
theorem Transition_success_order {Ctx W : Type} (sm : StateMachine Ctx W) (ctx : Ctx)
    (now₁ now₂ : Time) (w : W) (ticket : model.Ticket) (event : Event) (d : State)
    (hl : lookupTransition sm ticket.CurrentState event = some d)
    (hpre : AllSucceed ctx event (preCommitHooks sm ticket.CurrentState) (w, ticket))
    (hpost : AllSucceed ctx event (postCommitHooks sm d)
      (commitState sm ctx now₁ now₂ w ticket event d)) :
    let s1 := applyHooks ctx event
      (tag HookKind.guard (hooksAt sm ticket.CurrentState (fun n => n.Guards))) (w, ticket)
    let s2 := applyHooks ctx event
      (tag HookKind.before (hooksAt sm ticket.CurrentState (fun n => n.BeforeTasks))) s1
    let s3 := applyHooks ctx event
      (tag HookKind.exit (hooksAt sm ticket.CurrentState (fun n => n.OnExit))) s2
    let s4 := (s3.1, commit d event now₁ now₂ s3.2)
    let s5 := applyHooks ctx event (tag HookKind.enter (hooksAt sm d (fun n => n.OnEnter))) s4
    let s6 := applyHooks ctx event (tag HookKind.after (hooksAt sm d (fun n => n.AfterTasks))) s5
    (Transition sm ctx now₁ now₂ w ticket event).state = d ∧
    (Transition sm ctx now₁ now₂ w ticket event).err = none ∧
    (Transition sm ctx now₁ now₂ w ticket event).trace
      = tag HookKind.guard (hooksAt sm ticket.CurrentState (fun n => n.Guards))
        ++ tag HookKind.before (hooksAt sm ticket.CurrentState (fun n => n.BeforeTasks))
        ++ tag HookKind.exit (hooksAt sm ticket.CurrentState (fun n => n.OnExit))
        ++ tag HookKind.enter (hooksAt sm d (fun n => n.OnEnter))
        ++ tag HookKind.after (hooksAt sm d (fun n => n.AfterTasks)) ∧
    ((Transition sm ctx now₁ now₂ w ticket event).world,
      (Transition sm ctx now₁ now₂ w ticket event).ticket) = s6 := by
  intro s1 s2 s3 s4 s5 s6
  rw [Transition_of_all_success sm ctx now₁ now₂ w ticket event d hl hpre hpost]
  refine ⟨rfl, rfl, ?_, ?_⟩
  · simp only [preCommitHooks, postCommitHooks, List.append_assoc]
  · simp only [s6, s5, s4, s3, s2, s1, commitState, preState, preCommitHooks, postCommitHooks,
      applyHooks_append]

/-- Witness of C6: `Assign` on a ticket in `Pending`, on the machine of
`TestStateMachine_Hooks` (five hooks, five calls, in pipeline order) and on
`probeMachine` (the exit-action sees the history before the commit, the
enter-action the history after it). -/
theorem Transition_success_order_witness :
    ((Transition hookedMachine () 10 11 0 (sampleTicket StatePending 0) EventAssign).state
        = "InitialReview" ∧
      (Transition hookedMachine () 10 11 0 (sampleTicket StatePending 0) EventAssign).err
        = none ∧
      (Transition hookedMachine () 10 11 0 (sampleTicket StatePending 0) EventAssign).trace
        = [(HookKind.guard, okHook "Guard"), (HookKind.before, okHook "Before"),
            (HookKind.exit, okHook "OnExit"), (HookKind.enter, okHook "OnEnter"),
            (HookKind.after, okHook "After")] ∧
      (Transition hookedMachine () 10 11 0 (sampleTicket StatePending 0) EventAssign).world = 5 ∧
      (Transition hookedMachine () 10 11 0 (sampleTicket StatePending 0) EventAssign).ticket
        = { sampleTicket StatePending 0 with
            CurrentState := "InitialReview", UpdatedAt := 10,
            History := [{ FromState := "Pending", ToState := "InitialReview",
                          Event := "Assign", Timestamp := 11, TriggeredBy := "user123" }] }) ∧
    (Transition probeMachine () 10 11 0 (sampleTicket StatePending 0) EventAssign).world
      = 102 := by
  have h1 := Transition_success_order hookedMachine () 10 11 0 (sampleTicket StatePending 0)
    EventAssign StateInitialReview rfl ⟨rfl, rfl, rfl, trivial⟩ ⟨rfl, rfl, trivial⟩
  have h2 := Transition_success_order probeMachine () 10 11 0 (sampleTicket StatePending 0)
    EventAssign StateInitialReview rfl ⟨rfl, trivial⟩ ⟨rfl, trivial⟩
  exact ⟨⟨h1.1, h1.2.1, h1.2.2.1, (congrArg Prod.fst h1.2.2.2).trans rfl,
    (congrArg Prod.snd h1.2.2.2).trans rfl⟩, (congrArg Prod.fst h2.2.2.2).trans rfl⟩

/-- C7: on a committed transition, when no post-commit hook fails the
returned error is nil; when one fails, the returned error is the error of the
first failing hook in the order enter-actions then after-actions of the
destination node, and the hook calls made stop with that hook: no later hook
is called, and when the failing hook is an enter-action no after-action is
called at all.  One of the two cases always holds. -/
theorem Transition_post_commit_error {Ctx W : Type} (sm : StateMachine Ctx W) (ctx : Ctx)
    (now₁ now₂ : Time) (w : W) (ticket : model.Ticket) (event : Event) (d : State)
    (hl : lookupTransition sm ticket.CurrentState event = some d)
    (hpre : AllSucceed ctx event (preCommitHooks sm ticket.CurrentState) (w, ticket)) :
    (AllSucceed ctx event (postCommitHooks sm d)
        (commitState sm ctx now₁ now₂ w ticket event d) →
      (Transition sm ctx now₁ now₂ w ticket event).err = none ∧
      (Transition sm ctx now₁ now₂ w ticket event).trace
        = preCommitHooks sm ticket.CurrentState ++ postCommitHooks sm d) ∧
    (∀ ran kh rest e, postCommitHooks sm d = ran ++ kh :: rest →
      AllSucceed ctx event ran
        (commitState sm ctx now₁ now₂ w ticket event d) →
      hookErr ctx event (applyHooks ctx event ran
        (commitState sm ctx now₁ now₂ w ticket event d)) kh.2
        = some e →
      (Transition sm ctx now₁ now₂ w ticket event).err = some e ∧
      (Transition sm ctx now₁ now₂ w ticket event).trace
        = preCommitHooks sm ticket.CurrentState ++ (ran ++ [kh]) ∧
      (kh.1 = HookKind.enter →
        ∀ x ∈ (Transition sm ctx now₁ now₂ w ticket event).trace, x.1 ≠ HookKind.after)) ∧
    (AllSucceed ctx event (postCommitHooks sm d)
        (commitState sm ctx now₁ now₂ w ticket event d) ∨
      ∃ ran kh rest e, postCommitHooks sm d = ran ++ kh :: rest ∧
        AllSucceed ctx event ran
          (commitState sm ctx now₁ now₂ w ticket event d) ∧
        hookErr ctx event (applyHooks ctx event ran
          (commitState sm ctx now₁ now₂ w ticket event d)) kh.2
          = some e) := by
  refine ⟨?_, ?_, allSucceed_or_first_failure ctx event _ _⟩
  · intro hpost
    rw [Transition_of_all_success sm ctx now₁ now₂ w ticket event d hl hpre hpost]
    exact ⟨rfl, rfl⟩
  · intro ran kh rest e hsplit hran hfail
    rw [Transition_of_post_failure sm ctx now₁ now₂ w ticket event d ran rest kh e
      hl hpre hsplit hran hfail]
    refine ⟨rfl, rfl, ?_⟩
    intro hkind x hx
    simp only [List.mem_append] at hx
    rcases hx with hx | hx
    · rcases mem_preCommitHooks_kind sm _ x hx with h | h | h <;> rw [h] <;> decide
    · obtain ⟨more, hmore⟩ := split_inside_tag HookKind.enter (hooksAt sm d (fun n => n.OnEnter))
        (tag HookKind.after (hooksAt sm d (fun n => n.AfterTasks))) ran rest kh
        (by rw [← hsplit, postCommitHooks])
        (fun y hy => by rw [mem_tag_kind _ _ y hy, hkind]; decide)
      have hx2 : x ∈ tag HookKind.enter (hooksAt sm d (fun n => n.OnEnter)) := by
        rw [hmore]
        simp only [List.mem_append, List.mem_singleton] at hx
        rcases hx with h | h
        · exact List.mem_append_left _ h
        · exact List.mem_append_right _ (by rw [h]; exact List.mem_cons_self _ _)
      rw [mem_tag_kind _ _ x hx2]
      decide

/-- Witness of C7: `Assign` on a ticket in `Pending`.  With a failing second
enter-action the error is its error and the calls stop with it (the third
enter-action and the after-action are not called); with a failing first
after-action the error is its error; with no failing hook the error is nil. -/
theorem Transition_post_commit_error_witness :
    ((Transition enterFailMachine () 10 11 0 (sampleTicket StatePending 0) EventAssign).err
        = some "OnEnter failed" ∧
      (Transition enterFailMachine () 10 11 0 (sampleTicket StatePending 0) EventAssign).trace
        = [(HookKind.enter, okHook "e1"),
            (HookKind.enter, failHook "OnEnterFail" "OnEnter failed")]) ∧
    ((Transition afterFailMachine () 10 11 0 (sampleTicket StatePending 0) EventAssign).err
        = some "After failed" ∧
      (Transition afterFailMachine () 10 11 0 (sampleTicket StatePending 0) EventAssign).trace
        = [(HookKind.enter, okHook "e1"),
            (HookKind.after, failHook "AfterFail" "After failed")]) ∧
    (Transition hookedMachine () 10 11 0 (sampleTicket StatePending 0) EventAssign).err
      = none := by
  have h1 := (Transition_post_commit_error enterFailMachine () 10 11 0
    (sampleTicket StatePending 0) EventAssign StateInitialReview rfl trivial).2.1
    [(HookKind.enter, okHook "e1")]
    (HookKind.enter, failHook "OnEnterFail" "OnEnter failed")
    [(HookKind.enter, okHook "e3"), (HookKind.after, okHook "After")]
    "OnEnter failed" rfl ⟨rfl, trivial⟩ rfl
  have h2 := (Transition_post_commit_error afterFailMachine () 10 11 0
    (sampleTicket StatePending 0) EventAssign StateInitialReview rfl trivial).2.1
    [(HookKind.enter, okHook "e1")]
    (HookKind.after, failHook "AfterFail" "After failed")
    [(HookKind.after, okHook "a2")]
    "After failed" rfl ⟨rfl, trivial⟩ rfl
  have h3 := (Transition_post_commit_error hookedMachine () 10 11 0
    (sampleTicket StatePending 0) EventAssign StateInitialReview rfl
    ⟨rfl, rfl, rfl, trivial⟩).1 ⟨rfl, rfl, trivial⟩
  exact ⟨⟨h1.1, h1.2.1⟩, ⟨h2.1, h2.2.1⟩, h3.1⟩

/-! ## The registry and the built-in table -/

/-- C8: after `RegisterTasks(state, before, after, onEnter, onExit, guards)`
the node of `state` has each of its five hook lists equal to the previous list
(empty when the state had no node: the node is then created with that state)
followed by the matching argument list in the same order: `before` on
`BeforeTasks`, `after` on `AfterTasks`, `onEnter` on `OnEnter`, `onExit` on
`OnExit`, `guards` on `Guards`; the nodes of all other states and the
transition table are unchanged. -/
theorem RegisterTasks_appends {Ctx W : Type} (sm : StateMachine Ctx W) (state : State)
    (before after onEnter onExit guards : List (Task Ctx W)) :
    (∃ node, (RegisterTasks sm state before after onEnter onExit guards).nodes state = some node ∧
      node.State = (match sm.nodes state with
        | some old => old.State
        | none => state) ∧
      node.BeforeTasks = hooksAt sm state (fun n => n.BeforeTasks) ++ before ∧
      node.AfterTasks = hooksAt sm state (fun n => n.AfterTasks) ++ after ∧
      node.OnEnter = hooksAt sm state (fun n => n.OnEnter) ++ onEnter ∧
      node.OnExit = hooksAt sm state (fun n => n.OnExit) ++ onExit ∧
      node.Guards = hooksAt sm state (fun n => n.Guards) ++ guards) ∧
    (∀ s, s ≠ state →
      (RegisterTasks sm state before after onEnter onExit guards).nodes s = sm.nodes s) ∧
    (RegisterTasks sm state before after onEnter onExit guards).transitions = sm.transitions := by
  refine ⟨?_, ?_, rfl⟩
  · simp only [RegisterTasks, GoMap.set, if_true]
    refine ⟨_, rfl, ?_⟩
    cases h : sm.nodes state <;> simp [hooksAt, h]
  · intro s hs
    simp [RegisterTasks, GoMap.set, hs]

/-- The table of the fresh machine holds exactly the thirteen listed entries. -/
theorem lookupTransition_NewStateMachine (Ctx W : Type) (s : State) (e : Event) (d : State) :
    lookupTransition (NewStateMachine Ctx W) s e = some d ↔ (s, e, d) ∈ builtinTable := by
  simp only [lookupTransition, NewStateMachine, initNodes, initTransitions, GoMap.set,
    GoMap.lit, GoMap.empty, List.foldl, builtinTable, StateNew, StatePending,
    StateInitialReview, StateInProgress, StateFinalApproval, StateCompleted, StateClosed,
    StateCanceled, EventSubmit, EventAssign, EventApproveInitial, EventRejectInitial,
    EventDenyInitial, EventSubmitFinal, EventApproveFinal, EventRejectFinal, EventArchive,
    EventCancel, EventReassign, EventHold, EventResume]
  split_ifs with h1 h2 h3 h4 h5 h6
  all_goals first | subst h1 | subst h2 | subst h3 | subst h4 | subst h5 | subst h6 | skip
  all_goals simp only [List.mem_cons, Prod.mk.injEq, List.mem_singleton, List.not_mem_nil,
    or_false, GoMap.set, GoMap.empty]
  all_goals (try split_ifs)
  all_goals (try simp_all)
  all_goals (try exact eq_comm)

/-- No hook is registered on the fresh machine. -/
theorem hooksAt_NewStateMachine (Ctx W : Type) (s : State) :
    hooksAt (NewStateMachine Ctx W) s (fun n => n.Guards) = [] ∧
    hooksAt (NewStateMachine Ctx W) s (fun n => n.BeforeTasks) = [] ∧
    hooksAt (NewStateMachine Ctx W) s (fun n => n.OnExit) = [] ∧
    hooksAt (NewStateMachine Ctx W) s (fun n => n.OnEnter) = [] ∧
    hooksAt (NewStateMachine Ctx W) s (fun n => n.AfterTasks) = [] := by
  simp only [hooksAt, NewStateMachine, initNodes, initTransitions, GoMap.set, GoMap.empty]
  split_ifs <;> exact ⟨rfl, rfl, rfl, rfl, rfl⟩

theorem preCommitHooks_NewStateMachine (Ctx W : Type) (s : State) :
    preCommitHooks (NewStateMachine Ctx W) s = [] := by
  obtain ⟨h1, h2, h3, _, _⟩ := hooksAt_NewStateMachine Ctx W s
  simp [preCommitHooks, h1, h2, h3, tag]

theorem postCommitHooks_NewStateMachine (Ctx W : Type) (s : State) :
    postCommitHooks (NewStateMachine Ctx W) s = [] := by
  obtain ⟨_, _, _, h4, h5⟩ := hooksAt_NewStateMachine Ctx W s
  simp [postCommitHooks, h4, h5, tag]

/-- On the fresh machine a call with a table entry is the bare commit. -/
theorem Transition_NewStateMachine_of_entry (Ctx W : Type) (ctx : Ctx) (now₁ now₂ : Time)
    (w : W) (ticket : model.Ticket) (event : Event) (d : State)
    (hl : lookupTransition (NewStateMachine Ctx W) ticket.CurrentState event = some d) :
    Transition (NewStateMachine Ctx W) ctx now₁ now₂ w ticket event =
      { state := d, err := none, ticket := commit d event now₁ now₂ ticket, world := w,
        trace := [] } := by
  have hpre : AllSucceed ctx event (preCommitHooks (NewStateMachine Ctx W) ticket.CurrentState)
      (w, ticket) := by
    rw [preCommitHooks_NewStateMachine]
    trivial
  rw [Transition_of_pre_success _ ctx now₁ now₂ w ticket event d hl hpre]
  simp [preCommitHooks_NewStateMachine, postCommitHooks_NewStateMachine, runSeq, applyHooks]

/-- C9: on the machine returned by `NewStateMachine`, with no hook
registered, for every ticket (its state any string) and every event: when
(state, event, destination) is one of the thirteen listed entries,
`Transition` returns that destination with no error; when (state, event) is in
none of them, it returns the error "invalid transition" and the source state;
in both cases the returned state is the ticket's `CurrentState` after the
call. -/
theorem NewStateMachine_Transition (Ctx W : Type) (ctx : Ctx) (now₁ now₂ : Time)
    (w : W) (ticket : model.Ticket) (event : Event) :
    (∀ d, (ticket.CurrentState, event, d) ∈ builtinTable →
      (Transition (NewStateMachine Ctx W) ctx now₁ now₂ w ticket event).state = d ∧
      (Transition (NewStateMachine Ctx W) ctx now₁ now₂ w ticket event).err = none) ∧
    ((∀ d, (ticket.CurrentState, event, d) ∉ builtinTable) →
      (Transition (NewStateMachine Ctx W) ctx now₁ now₂ w ticket event).err
        = some "invalid transition" ∧
      (Transition (NewStateMachine Ctx W) ctx now₁ now₂ w ticket event).state
        = ticket.CurrentState) ∧
    (Transition (NewStateMachine Ctx W) ctx now₁ now₂ w ticket event).ticket.CurrentState
      = (Transition (NewStateMachine Ctx W) ctx now₁ now₂ w ticket event).state := by
  cases hl : lookupTransition (NewStateMachine Ctx W) ticket.CurrentState event with
  | none =>
    rw [Transition_of_lookup_none _ ctx now₁ now₂ w ticket event hl]
    refine ⟨?_, fun _ => ⟨rfl, rfl⟩, rfl⟩
    intro d hd
    rw [(lookupTransition_NewStateMachine Ctx W _ _ d).mpr hd] at hl
    exact absurd hl (by simp)
  | some d0 =>
    rw [Transition_NewStateMachine_of_entry Ctx W ctx now₁ now₂ w ticket event d0 hl]
    refine ⟨?_, ?_, commit_CurrentState _ _ _ _ _⟩
    · intro d hd
      rw [(lookupTransition_NewStateMachine Ctx W _ _ d).mpr hd] at hl
      exact ⟨(Option.some.inj hl).symm, rfl⟩
    · intro hnone
      exact absurd ((lookupTransition_NewStateMachine Ctx W _ _ d0).mp hl) (hnone d0)

/-- Witness of C9: rows of `TestStateMachine_Transition`, among them the
self-loop and the invalid pair, and a state that is not one of the eight. -/
theorem NewStateMachine_Transition_witness :
    ((Transition (NewStateMachine Unit Nat) () 10 11 0 (sampleTicket StateNew 0)
        EventSubmit).state = "Pending" ∧
      (Transition (NewStateMachine Unit Nat) () 10 11 0 (sampleTicket StateNew 0)
        EventSubmit).err = none) ∧
    ((Transition (NewStateMachine Unit Nat) () 10 11 0 (sampleTicket StateInProgress 0)
        EventReassign).state = "InProgress" ∧
      (Transition (NewStateMachine Unit Nat) () 10 11 0 (sampleTicket StateInProgress 0)
        EventReassign).err = none) ∧
    ((Transition (NewStateMachine Unit Nat) () 10 11 0 (sampleTicket StateNew 0)
        EventCancel).err = some "invalid transition" ∧
      (Transition (NewStateMachine Unit Nat) () 10 11 0 (sampleTicket StateNew 0)
        EventCancel).state = "New") ∧
    ((Transition (NewStateMachine Unit Nat) () 10 11 0 (sampleTicket "Bogus" 0)
        EventSubmit).err = some "invalid transition" ∧
      (Transition (NewStateMachine Unit Nat) () 10 11 0 (sampleTicket "Bogus" 0)
        EventSubmit).state = "Bogus") := by
  have hno : ∀ (s : State) (e : Event), lookupTransition (NewStateMachine Unit Nat) s e = none →
      ∀ d, (s, e, d) ∉ builtinTable := by
    intro s e hs d hd
    rw [(lookupTransition_NewStateMachine Unit Nat s e d).mpr hd] at hs
    exact absurd hs (by simp)
  exact ⟨(NewStateMachine_Transition Unit Nat () 10 11 0 (sampleTicket StateNew 0)
      EventSubmit).1 StatePending (by decide),
    (NewStateMachine_Transition Unit Nat () 10 11 0 (sampleTicket StateInProgress 0)
      EventReassign).1 StateInProgress (by decide),
    (NewStateMachine_Transition Unit Nat () 10 11 0 (sampleTicket StateNew 0)
      EventCancel).2.1 (hno _ _ rfl),
    (NewStateMachine_Transition Unit Nat () 10 11 0 (sampleTicket "Bogus" 0)
      EventSubmit).2.1 (hno _ _ rfl)⟩

/-! ## The reassign counter -/

/-- C10 fails as stated: `ReassignCount` is a Go `int`, and `ReassignCount++`
wraps.  On the fresh machine, `Reassign` on a ticket in `InProgress` whose
counter is the largest `int`, 2^63 - 1, commits and leaves the counter at the
smallest `int`, -2^63, which is not the old value plus one. -/
theorem reassign_overflow_counterexample :
    lookupTransition (NewStateMachine Unit Nat)
      (sampleTicket StateInProgress maxInt).CurrentState EventReassign = some StateInProgress ∧
    (Transition (NewStateMachine Unit Nat) () 10 11 0 (sampleTicket StateInProgress maxInt)
      EventReassign).err = none ∧
    (Transition (NewStateMachine Unit Nat) () 10 11 0 (sampleTicket StateInProgress maxInt)
      EventReassign).ticket.ReassignCount = -9223372036854775808 ∧
    (Transition (NewStateMachine Unit Nat) () 10 11 0 (sampleTicket StateInProgress maxInt)
      EventReassign).ticket.ReassignCount
      ≠ (sampleTicket StateInProgress maxInt).ReassignCount + 1 := by
  refine ⟨rfl, rfl, rfl, ?_⟩
  decide

/-- C10, amended: the commit step adds one to `ReassignCount` in wrapping
64-bit arithmetic when the event is `Reassign` (exactly one when the counter
is below the largest `int`; from the largest `int` it goes to the smallest)
and leaves it as it was for every other event, `Hold` and `Resume` included.
On a committed call the ticket is the committed ticket as the post-commit
hooks that ran left it, so with hooks that do not write the counter the
counter after the call is the counter of the commit step.  On a rejected call
(no table entry, or a failing pre-commit hook) the ticket is the call-time
ticket as the pre-commit hooks that ran left it: the engine does not change
the counter. -/
theorem Transition_reassign_count {Ctx W : Type} (sm : StateMachine Ctx W) (ctx : Ctx)
    (now₁ now₂ : Time) (w : W) (ticket : model.Ticket) (event : Event) :
    (∀ d t, (commit d event now₁ now₂ t).ReassignCount
      = if event = EventReassign then wrapInt (t.ReassignCount + 1) else t.ReassignCount) ∧
    (∀ x : Int, minInt ≤ x → x < maxInt → wrapInt (x + 1) = x + 1) ∧
    wrapInt (maxInt + 1) = minInt ∧
    (∀ d, lookupTransition sm ticket.CurrentState event = some d →
      AllSucceed ctx event (preCommitHooks sm ticket.CurrentState) (w, ticket) →
      ∃ ran rest, postCommitHooks sm d = ran ++ rest ∧
        ((Transition sm ctx now₁ now₂ w ticket event).world,
          (Transition sm ctx now₁ now₂ w ticket event).ticket)
          = applyHooks ctx event ran
              (commitState sm ctx now₁ now₂ w ticket event d) ∧
        ((∀ x ∈ preCommitHooks sm ticket.CurrentState, KeepsReassignCount x.2) →
          (∀ x ∈ ran, KeepsReassignCount x.2) →
          (Transition sm ctx now₁ now₂ w ticket event).ticket.ReassignCount
            = if event = EventReassign then wrapInt (ticket.ReassignCount + 1)
              else ticket.ReassignCount)) ∧
    (lookupTransition sm ticket.CurrentState event = none →
      (Transition sm ctx now₁ now₂ w ticket event).ticket = ticket) ∧
    (∀ d, lookupTransition sm ticket.CurrentState event = some d →
      ¬ AllSucceed ctx event (preCommitHooks sm ticket.CurrentState) (w, ticket) →
      ∃ ran rest, preCommitHooks sm ticket.CurrentState = ran ++ rest ∧
        (Transition sm ctx now₁ now₂ w ticket event).state = ticket.CurrentState ∧
        (Transition sm ctx now₁ now₂ w ticket event).err ≠ none ∧
        ((Transition sm ctx now₁ now₂ w ticket event).world,
          (Transition sm ctx now₁ now₂ w ticket event).ticket)
          = applyHooks ctx event ran (w, ticket) ∧
        ((∀ x ∈ ran, KeepsReassignCount x.2) →
          (Transition sm ctx now₁ now₂ w ticket event).ticket.ReassignCount
            = ticket.ReassignCount)) := by
  refine ⟨fun d t => commit_ReassignCount d event now₁ now₂ t, ?_, by decide, ?_, ?_, ?_⟩
  · intro x h1 h2
    apply wrapInt_of_inRange
    · simp only [minInt] at h1 ⊢
      omega
    · simp only [maxInt] at h2 ⊢
      omega
  · intro d hl hpre
    obtain ⟨ran, rest, h1, _, _, h4⟩ :=
      Transition_of_commit sm ctx now₁ now₂ w ticket event d hl hpre
    refine ⟨ran, rest, h1, h4, ?_⟩
    intro hk hkran
    have hp : (preState sm ctx event w ticket).2.ReassignCount = ticket.ReassignCount :=
      applyHooks_keeps (fun t => t.ReassignCount) ctx event _ (w, ticket)
        (fun x hx c w2 t e2 => hk x hx c w2 t e2)
    have hfin := applyHooks_keeps (fun t => t.ReassignCount) ctx event ran
      (commitState sm ctx now₁ now₂ w ticket event d)
      (fun x hx c w2 t e2 => hkran x hx c w2 t e2)
    rw [← h4] at hfin
    simp only at hfin
    rw [hfin, commit_ReassignCount, hp]
  · intro hl
    rw [Transition_of_lookup_none sm ctx now₁ now₂ w ticket event hl]
  · intro d hl hpre
    obtain ⟨ran, rest, h1, h2, h3, _, h5⟩ :=
      Transition_of_reject sm ctx now₁ now₂ w ticket event d hl hpre
    refine ⟨ran, rest, h1, h2, h3, h5, ?_⟩
    intro hk
    have hfin := applyHooks_keeps (fun t => t.ReassignCount) ctx event ran (w, ticket)
      (fun x hx c w2 t e2 => hk x hx c w2 t e2)
    rw [← h5] at hfin
    exact hfin

/-- Witness of C10 amended, on the machine of `TestStateMachine_Hooks` with a
ticket whose counter is 4: the commit step of `Reassign` yields 5, that of
`Hold` yields 4; a committed `Assign` leaves 4; an invalid `Cancel` on `New`
leaves the ticket as it was. -/
theorem Transition_reassign_count_witness :
    (commit StateInProgress EventReassign 10 11 (sampleTicket StateInProgress 4)).ReassignCount
      = 5 ∧
    (commit StateInProgress EventHold 10 11 (sampleTicket StateInProgress 4)).ReassignCount
      = 4 ∧
    (∃ ran rest, postCommitHooks hookedMachine StateInitialReview = ran ++ rest ∧
      (Transition hookedMachine () 10 11 0 (sampleTicket StatePending 4) EventAssign).ticket
        = (applyHooks () EventAssign ran
            (3, commit StateInitialReview EventAssign 10 11 (sampleTicket StatePending 4))).2) ∧
    (Transition hookedMachine () 10 11 0 (sampleTicket StateNew 4) EventCancel).ticket
      = sampleTicket StateNew 4 := by
  have h1 := (Transition_reassign_count hookedMachine () 10 11 0
    (sampleTicket StateInProgress 4) EventReassign).1 StateInProgress
    (sampleTicket StateInProgress 4)
  have h2 := (Transition_reassign_count hookedMachine () 10 11 0
    (sampleTicket StateInProgress 4) EventHold).1 StateInProgress
    (sampleTicket StateInProgress 4)
  obtain ⟨ran, rest, h3, h4, _⟩ := (Transition_reassign_count hookedMachine () 10 11 0
    (sampleTicket StatePending 4) EventAssign).2.2.2.1 StateInitialReview rfl
    ⟨rfl, rfl, rfl, trivial⟩
  have h5 := (Transition_reassign_count hookedMachine () 10 11 0
    (sampleTicket StateNew 4) EventCancel).2.2.2.2.1 rfl
  exact ⟨h1.trans (by decide), h2.trans (by decide), ⟨ran, rest, h3, congrArg Prod.snd h4⟩, h5⟩

/-! ## Self-loops -/

/-- C11 fails as stated: on `selfLoopMoveMachine` the before-action of
`InProgress` succeeds and overwrites the ticket's state with `"X"`; the
self-loop `Hold` on a ticket in `InProgress` then succeeds, and the one record
it appends has `FromState = "X"` and `ToState = "InProgress"`, so `FromState`
and `ToState` are not both that state. -/
theorem self_loop_from_state_counterexample :
    lookupTransition selfLoopMoveMachine (sampleTicket StateInProgress 0).CurrentState EventHold
      = some StateInProgress ∧
    (Transition selfLoopMoveMachine () 10 11 0 (sampleTicket StateInProgress 0) EventHold).err
      = none ∧
    (Transition selfLoopMoveMachine () 10 11 0
      (sampleTicket StateInProgress 0) EventHold).ticket.History
      = [{ FromState := "X", ToState := "InProgress", Event := "Hold", Timestamp := 11,
           TriggeredBy := "user123" }] ∧
    ¬ ∃ r : model.History,
      (Transition selfLoopMoveMachine () 10 11 0
        (sampleTicket StateInProgress 0) EventHold).ticket.History
        = (sampleTicket StateInProgress 0).History ++ [r] ∧
      r.FromState = StateInProgress ∧ r.ToState = StateInProgress := by
  refine ⟨rfl, rfl, rfl, ?_⟩
  rintro ⟨r, h1, h2, _⟩
  have hh : (Transition selfLoopMoveMachine () 10 11 0 (sampleTicket StateInProgress 0)
      EventHold).ticket.History
      = [{ FromState := "X", ToState := "InProgress", Event := "Hold", Timestamp := 11,
           TriggeredBy := "user123" }] := rfl
  rw [hh] at h1
  simp only [sampleTicket, List.nil_append, List.cons.injEq, and_true] at h1
  rw [← h1] at h2
  exact absurd h2 (by decide)

/-- C11, amended: the entries of the built-in table whose source and
destination are the same state are `Reassign`, `Hold` and `Resume` on
`InProgress`.  On any machine, when the table maps the ticket's state `S` and
the event to `S` itself and every hook succeeds, `Transition` returns `S` with
no error; the hook calls made are the guards, the before-actions and the
exit-actions and then the enter-actions and the after-actions of the one node
of `S`, in that order; the commit step sets `CurrentState` to `S` and appends
exactly one record, with `ToState = S` and `FromState` the ticket's
`CurrentState` as read at the commit step.  When the hooks of the node do not
write `CurrentState` or `History`, that record has `FromState = ToState = S`,
it is the one record added to the call-time history, and the ticket's
`CurrentState` after the call is `S`. -/
theorem Transition_self_loop {Ctx W : Type} (sm : StateMachine Ctx W) (ctx : Ctx)
    (now₁ now₂ : Time) (w : W) (ticket : model.Ticket) (event : Event)
    (hl : lookupTransition sm ticket.CurrentState event = some ticket.CurrentState)
    (hpre : AllSucceed ctx event (preCommitHooks sm ticket.CurrentState) (w, ticket))
    (hpost : AllSucceed ctx event (postCommitHooks sm ticket.CurrentState)
      (commitState sm ctx now₁ now₂ w ticket event ticket.CurrentState)) :
    (∀ s e, (s, e, s) ∈ builtinTable ↔
      s = StateInProgress ∧ (e = EventReassign ∨ e = EventHold ∨ e = EventResume)) ∧
    (Transition sm ctx now₁ now₂ w ticket event).state = ticket.CurrentState ∧
    (Transition sm ctx now₁ now₂ w ticket event).err = none ∧
    (Transition sm ctx now₁ now₂ w ticket event).trace
      = tag HookKind.guard (hooksAt sm ticket.CurrentState (fun n => n.Guards))
        ++ tag HookKind.before (hooksAt sm ticket.CurrentState (fun n => n.BeforeTasks))
        ++ tag HookKind.exit (hooksAt sm ticket.CurrentState (fun n => n.OnExit))
        ++ tag HookKind.enter (hooksAt sm ticket.CurrentState (fun n => n.OnEnter))
        ++ tag HookKind.after (hooksAt sm ticket.CurrentState (fun n => n.AfterTasks)) ∧
    ((Transition sm ctx now₁ now₂ w ticket event).world,
      (Transition sm ctx now₁ now₂ w ticket event).ticket)
      = applyHooks ctx event (postCommitHooks sm ticket.CurrentState)
          (commitState sm ctx now₁ now₂ w ticket event ticket.CurrentState) ∧
    (commitState sm ctx now₁ now₂ w ticket event ticket.CurrentState).2.CurrentState
      = ticket.CurrentState ∧
    (commitState sm ctx now₁ now₂ w ticket event ticket.CurrentState).2.History
      = (preState sm ctx event w ticket).2.History
        ++ [{ FromState := (preState sm ctx event w ticket).2.CurrentState,
              ToState := ticket.CurrentState, Event := event, Timestamp := now₂,
              TriggeredBy := (preState sm ctx event w ticket).2.AssigneeID }] ∧
    ((∀ x ∈ preCommitHooks sm ticket.CurrentState ++ postCommitHooks sm ticket.CurrentState,
        KeepsState x.2 ∧ KeepsHistory x.2) →
      (Transition sm ctx now₁ now₂ w ticket event).ticket.CurrentState = ticket.CurrentState ∧
      ∃ r : model.History,
        (Transition sm ctx now₁ now₂ w ticket event).ticket.History = ticket.History ++ [r] ∧
        r.FromState = ticket.CurrentState ∧ r.ToState = ticket.CurrentState ∧
        r.Event = event) := by
  rw [Transition_of_all_success sm ctx now₁ now₂ w ticket event _ hl hpre hpost]
  refine ⟨?_, rfl, rfl, ?_, rfl, commit_CurrentState _ _ _ _ _, commit_History _ _ _ _ _, ?_⟩
  · intro s e
    simp only [builtinTable, List.mem_cons, Prod.mk.injEq, List.mem_singleton, List.not_mem_nil,
      or_false, StateNew, StatePending, StateInitialReview, StateInProgress, StateFinalApproval,
      StateCompleted, StateClosed, StateCanceled, EventReassign, EventHold, EventResume]
    constructor
    · rintro (h | h | h | h | h | h | h | h | h | h | h | h | h)
      all_goals first
        | exact ⟨h.1, Or.inl h.2.1⟩
        | exact ⟨h.1, Or.inr (Or.inl h.2.1)⟩
        | exact ⟨h.1, Or.inr (Or.inr h.2.1)⟩
        | (exfalso; obtain ⟨h1, _, h3⟩ := h; rw [h1] at h3; revert h3; decide)
    · rintro ⟨rfl, h | h | h⟩ <;> simp [h]
  · simp only [preCommitHooks, postCommitHooks, List.append_assoc]
  · intro hk
    have hstate : (preState sm ctx event w ticket).2.CurrentState = ticket.CurrentState :=
      applyHooks_keeps (fun t => t.CurrentState) ctx event _ (w, ticket)
        (fun x hx c w2 t e2 => (hk x (List.mem_append_left _ hx)).1 c w2 t e2)
    have hhist : (preState sm ctx event w ticket).2.History = ticket.History :=
      applyHooks_keeps (fun t => t.History) ctx event _ (w, ticket)
        (fun x hx c w2 t e2 => (hk x (List.mem_append_left _ hx)).2 c w2 t e2)
    have h1 := applyHooks_keeps (fun t => t.CurrentState) ctx event
      (postCommitHooks sm ticket.CurrentState)
      (commitState sm ctx now₁ now₂ w ticket event ticket.CurrentState)
      (fun x hx c w2 t e2 => (hk x (List.mem_append_right _ hx)).1 c w2 t e2)
    have h2 := applyHooks_keeps (fun t => t.History) ctx event
      (postCommitHooks sm ticket.CurrentState)
      (commitState sm ctx now₁ now₂ w ticket event ticket.CurrentState)
      (fun x hx c w2 t e2 => (hk x (List.mem_append_right _ hx)).2 c w2 t e2)
    simp only at h1 h2
    rw [commit_CurrentState] at h1
    rw [commit_History, hhist, hstate] at h2
    exact ⟨h1, _, h2, rfl, rfl, rfl⟩

/-- Witness of C11 amended: the self-loop `Hold` on a ticket in `InProgress`
on `selfLoopMachine`: five hook calls in pipeline order on the one node, one
record from `InProgress` to `InProgress`, and the ticket still in
`InProgress`. -/
theorem Transition_self_loop_witness :
    (Transition selfLoopMachine () 10 11 0 (sampleTicket StateInProgress 0) EventHold).state
      = "InProgress" ∧
    (Transition selfLoopMachine () 10 11 0 (sampleTicket StateInProgress 0) EventHold).err
      = none ∧
    (Transition selfLoopMachine () 10 11 0 (sampleTicket StateInProgress 0) EventHold).trace
      = [(HookKind.guard, okHook "g"), (HookKind.before, okHook "b"),
          (HookKind.exit, okHook "x"), (HookKind.enter, okHook "e"),
          (HookKind.after, okHook "a")] ∧
    (Transition selfLoopMachine () 10 11 0 (sampleTicket StateInProgress 0) EventHold).ticket
      = { sampleTicket StateInProgress 0 with
          UpdatedAt := 10,
          History := [{ FromState := "InProgress", ToState := "InProgress", Event := "Hold",
                        Timestamp := 11, TriggeredBy := "user123" }] } := by
  have h := Transition_self_loop selfLoopMachine () 10 11 0 (sampleTicket StateInProgress 0)
    EventHold rfl ⟨rfl, rfl, rfl, trivial⟩ ⟨rfl, rfl, trivial⟩
  exact ⟨h.2.1, h.2.2.1, h.2.2.2.1, (congrArg Prod.snd h.2.2.2.2.1).trans rfl⟩

end workflow

namespace service

open workflow store

/-! ## The hooks of the service -/

theorem updatePriority_err {Ctx : Type} (ctx : Ctx) (l : golog.Log) (t : model.Ticket)
    (e : Event) : ((updatePriority : Task Ctx golog.Log).Execute ctx l t e).err = none := by
  simp only [updatePriority]
  split_ifs <;> rfl

theorem updatePriority_ticket {Ctx : Type} (ctx : Ctx) (l : golog.Log) (t : model.Ticket)
    (e : Event) :
    ((updatePriority : Task Ctx golog.Log).Execute ctx l t e).ticket =
      if e = EventReassign ∨ e = EventResume then
        { t with Priority := wrapInt (t.InitialPriority + t.ReassignCount) }
      else t := by
  simp only [updatePriority]
  split_ifs with h1 h2
  · rfl
  · have h3 : wrapInt (t.InitialPriority + t.ReassignCount) = t.Priority := not_not.mp h2
    rw [h3]
  · rfl

theorem preCommitHooks_InProgress (Ctx : Type) :
    preCommitHooks (serviceMachine Ctx) StateInProgress
      = [(HookKind.before, checkInProgress)] := rfl

theorem postCommitHooks_InProgress (Ctx : Type) :
    postCommitHooks (serviceMachine Ctx) StateInProgress
      = [(HookKind.enter, onEnterInProgress), (HookKind.after, logReassign),
          (HookKind.after, updatePriority)] := rfl

theorem preCommitHooks_FinalApproval (Ctx : Type) :
    preCommitHooks (serviceMachine Ctx) StateFinalApproval
      = [(HookKind.guard, guardFinalApproval)] := rfl

theorem postCommitHooks_Completed (Ctx : Type) :
    postCommitHooks (serviceMachine Ctx) StateCompleted = [] := rfl

/-- The table of the service machine is the built-in table. -/
theorem lookupTransition_serviceMachine (Ctx : Type) (s : State) (e : Event) (d : State) :
    lookupTransition (serviceMachine Ctx) s e = some d ↔ (s, e, d) ∈ builtinTable :=
  lookupTransition_NewStateMachine Ctx golog.Log s e d

/-- The three self-loops on the service machine. -/
theorem serviceMachine_selfLoop {Ctx : Type} (ctx : Ctx) (now₁ now₂ : Time) (l : golog.Log)
    (t : model.Ticket) (event : Event) (hs : t.CurrentState = StateInProgress)
    (he : event = EventReassign ∨ event = EventHold ∨ event = EventResume) :
    (Transition (serviceMachine Ctx) ctx now₁ now₂ l t event).state = StateInProgress ∧
    (Transition (serviceMachine Ctx) ctx now₁ now₂ l t event).err = none ∧
    (Transition (serviceMachine Ctx) ctx now₁ now₂ l t event).ticket
      = serviceTicket StateInProgress event now₁ now₂ t := by
  have hl : lookupTransition (serviceMachine Ctx) t.CurrentState event = some StateInProgress := by
    rw [hs]
    rcases he with rfl | rfl | rfl <;> rfl
  have hpre : AllSucceed ctx event (preCommitHooks (serviceMachine Ctx) t.CurrentState) (l, t) := by
    rw [hs, preCommitHooks_InProgress]
    exact ⟨rfl, trivial⟩
  have hps : (preState (serviceMachine Ctx) ctx event l t).2 = t := by
    simp only [preState, hs, preCommitHooks_InProgress]
    rfl
  have hpost : AllSucceed ctx event (postCommitHooks (serviceMachine Ctx) StateInProgress)
      (commitState (serviceMachine Ctx) ctx now₁ now₂ l t event StateInProgress) := by
    rw [postCommitHooks_InProgress]
    rcases he with rfl | rfl | rfl <;> exact ⟨rfl, rfl, updatePriority_err _ _ _ _, trivial⟩
  rw [Transition_of_all_success (serviceMachine Ctx) ctx now₁ now₂ l t event
    StateInProgress hl hpre hpost]
  refine ⟨rfl, rfl, ?_⟩
  simp only [postCommitHooks_InProgress, commitState, hps]
  rcases he with rfl | rfl | rfl <;> exact (updatePriority_ticket ctx _ _ _).trans rfl

/-- The final approval by "admin" on the service machine. -/
theorem serviceMachine_approveFinal {Ctx : Type} (ctx : Ctx) (now₁ now₂ : Time) (l : golog.Log)
    (t : model.Ticket) (hs : t.CurrentState = StateFinalApproval)
    (ha : t.AssigneeID = "admin") :
    (Transition (serviceMachine Ctx) ctx now₁ now₂ l t EventApproveFinal).state
      = StateCompleted ∧
    (Transition (serviceMachine Ctx) ctx now₁ now₂ l t EventApproveFinal).err = none ∧
    (Transition (serviceMachine Ctx) ctx now₁ now₂ l t EventApproveFinal).ticket
      = serviceTicket StateCompleted EventApproveFinal now₁ now₂ t := by
  have hl : lookupTransition (serviceMachine Ctx) t.CurrentState EventApproveFinal
      = some StateCompleted := by
    rw [hs]
    rfl
  have hg : hookErr ctx EventApproveFinal (l, t) (guardFinalApproval : Task Ctx golog.Log) = none := by
    simp [hookErr, guardFinalApproval, ha]
  have hpre : AllSucceed ctx EventApproveFinal
      (preCommitHooks (serviceMachine Ctx) t.CurrentState) (l, t) := by
    rw [hs, preCommitHooks_FinalApproval]
    exact ⟨hg, trivial⟩
  have hps : (preState (serviceMachine Ctx) ctx EventApproveFinal l t).2 = t := by
    simp only [preState, hs, preCommitHooks_FinalApproval]
    simp [applyHooks, applyHook, guardFinalApproval, ha]
  have hpost : AllSucceed ctx EventApproveFinal (postCommitHooks (serviceMachine Ctx) StateCompleted)
      (commitState (serviceMachine Ctx) ctx now₁ now₂ l t EventApproveFinal StateCompleted) := by
    rw [postCommitHooks_Completed]
    trivial
  rw [Transition_of_all_success (serviceMachine Ctx) ctx now₁ now₂ l t EventApproveFinal
    StateCompleted hl hpre hpost]
  refine ⟨rfl, rfl, ?_⟩
  simp only [postCommitHooks_Completed, commitState, hps]
  rfl

/-- Every transition of the table that the guard does not veto is accepted by
the service machine, and leaves the ticket of `serviceTicket`. -/
theorem serviceMachine_accept {Ctx : Type} (ctx : Ctx) (now₁ now₂ : Time) (l : golog.Log)
    (t : model.Ticket) (event : Event) (d : State)
    (h : (t.CurrentState, event, d) ∈ builtinTable)
    (hg : ¬ (event = EventApproveFinal ∧ t.AssigneeID ≠ "admin")) :
    (Transition (serviceMachine Ctx) ctx now₁ now₂ l t event).state = d ∧
    (Transition (serviceMachine Ctx) ctx now₁ now₂ l t event).err = none ∧
    (Transition (serviceMachine Ctx) ctx now₁ now₂ l t event).ticket
      = serviceTicket d event now₁ now₂ t := by
  obtain ⟨id, title, desc, prio, ip, rc, cs, creator, assignee, created, updated, hist⟩ := t
  simp only [builtinTable, List.mem_cons, Prod.mk.injEq, List.mem_singleton, List.not_mem_nil,
    or_false] at h
  rcases h with h | h | h | h | h | h | h | h | h | h | h | h | h
  all_goals obtain ⟨rfl, rfl, rfl⟩ := h
  all_goals first
    | exact ⟨rfl, rfl, rfl⟩
    | skip
  · exact serviceMachine_selfLoop ctx now₁ now₂ l _ _ rfl (Or.inl rfl)
  · exact serviceMachine_selfLoop ctx now₁ now₂ l _ _ rfl (Or.inr (Or.inr rfl))
  · exact serviceMachine_approveFinal ctx now₁ now₂ l _ rfl (by simpa using hg)

/-- The veto of the guard on the service machine: `ApproveFinal` on a ticket
in `FinalApproval` whose assignee is not "admin". -/
theorem serviceMachine_veto {Ctx : Type} (ctx : Ctx) (now₁ now₂ : Time) (l : golog.Log)
    (t : model.Ticket) (hs : t.CurrentState = StateFinalApproval)
    (ha : t.AssigneeID ≠ "admin") :
    Transition (serviceMachine Ctx) ctx now₁ now₂ l t EventApproveFinal =
      { state := StateFinalApproval, err := some "只有管理员可以最终审批", ticket := t,
        world := l, trace := [(HookKind.guard, guardFinalApproval)] } := by
  have hl : lookupTransition (serviceMachine Ctx) t.CurrentState EventApproveFinal
      = some StateCompleted := by
    rw [hs]
    rfl
  have hsplit : preCommitHooks (serviceMachine Ctx) t.CurrentState
      = [] ++ (HookKind.guard, guardFinalApproval) :: [] := by
    rw [hs, preCommitHooks_FinalApproval]
    rfl
  have hfail : hookErr ctx EventApproveFinal
      (applyHooks ctx EventApproveFinal [] (l, t)) ((HookKind.guard, guardFinalApproval) : HookKind × Task Ctx golog.Log).2
      = some "只有管理员可以最终审批" := by
    simp [hookErr, applyHooks, guardFinalApproval, ha]
  rw [Transition_of_pre_failure (serviceMachine Ctx) ctx now₁ now₂ l t EventApproveFinal
    StateCompleted [] [] (HookKind.guard, guardFinalApproval) _ hl hsplit trivial hfail]
  simp [applyHooks, applyHook, guardFinalApproval, ha, hs]

/-! ## The service call -/

theorem Heap_set_same (h : Heap) (p : Addr) (t : model.Ticket) : (h.set p t) p = t := by
  simp [Heap.set]

theorem Heap_set_other (h : Heap) (p q : Addr) (t : model.Ticket) (hq : q ≠ p) :
    (h.set p t) q = h q := by
  simp [Heap.set, hq]

/-- The call on an id the store does not hold. -/
theorem TransitionTicket_of_not_found {Ctx : Type} (ts : TicketService Ctx) (ctx : Ctx)
    (now₁ now₂ now₃ : Time) (heap : Heap) (l : golog.Log) (ticketID : String) (event : Event)
    (triggeredBy : String) (hid : ts.store.tickets ticketID = none) :
    TransitionTicket ts ctx now₁ now₂ now₃ heap l ticketID event triggeredBy =
      { err := some "ticket not found", heap := heap, store := ts.store, log := l,
        saved := false } := by
  simp [TransitionTicket, MockStore.GetTicket, hid]

/-- The call on an id the store holds, when `Transition` returns an error:
the error is passed on, the ticket behind the pointer is the one `Transition`
left, nothing is saved. -/
theorem TransitionTicket_of_error {Ctx : Type} (ts : TicketService Ctx) (ctx : Ctx)
    (now₁ now₂ now₃ : Time) (heap : Heap) (l : golog.Log) (ticketID : String) (event : Event)
    (triggeredBy : String) (p : Addr) (e : GoError)
    (hid : ts.store.tickets ticketID = some p)
    (herr : (Transition ts.sm ctx now₁ now₂ l { heap p with AssigneeID := triggeredBy }
      event).err = some e) :
    (TransitionTicket ts ctx now₁ now₂ now₃ heap l ticketID event triggeredBy).err = some e ∧
    (TransitionTicket ts ctx now₁ now₂ now₃ heap l ticketID event triggeredBy).saved = false ∧
    (TransitionTicket ts ctx now₁ now₂ now₃ heap l ticketID event triggeredBy).store = ts.store ∧
    (TransitionTicket ts ctx now₁ now₂ now₃ heap l ticketID event triggeredBy).heap p
      = (Transition ts.sm ctx now₁ now₂ l { heap p with AssigneeID := triggeredBy }
          event).ticket ∧
    (∀ q, q ≠ p →
      (TransitionTicket ts ctx now₁ now₂ now₃ heap l ticketID event triggeredBy).heap q
        = heap q) := by
  simp only [TransitionTicket, MockStore.GetTicket, hid, Heap_set_same, herr, true_and]
  intro q hq
  simp [Heap.set, hq]

/-- The call on an id the store holds, when `Transition` returns no error:
the update time is stamped on the ticket `Transition` left and the pointer is
saved under that ticket's id. -/
theorem TransitionTicket_of_success {Ctx : Type} (ts : TicketService Ctx) (ctx : Ctx)
    (now₁ now₂ now₃ : Time) (heap : Heap) (l : golog.Log) (ticketID : String) (event : Event)
    (triggeredBy : String) (p : Addr)
    (hid : ts.store.tickets ticketID = some p)
    (herr : (Transition ts.sm ctx now₁ now₂ l { heap p with AssigneeID := triggeredBy }
      event).err = none) :
    (TransitionTicket ts ctx now₁ now₂ now₃ heap l ticketID event triggeredBy).err = none ∧
    (TransitionTicket ts ctx now₁ now₂ now₃ heap l ticketID event triggeredBy).saved = true ∧
    (TransitionTicket ts ctx now₁ now₂ now₃ heap l ticketID event triggeredBy).store.tickets
      = ts.store.tickets.set
          (Transition ts.sm ctx now₁ now₂ l { heap p with AssigneeID := triggeredBy }
            event).ticket.ID p ∧
    (TransitionTicket ts ctx now₁ now₂ now₃ heap l ticketID event triggeredBy).heap p
      = { (Transition ts.sm ctx now₁ now₂ l { heap p with AssigneeID := triggeredBy }
          event).ticket with UpdatedAt := now₃ } ∧
    (∀ q, q ≠ p →
      (TransitionTicket ts ctx now₁ now₂ now₃ heap l ticketID event triggeredBy).heap q
        = heap q) := by
  simp only [TransitionTicket, MockStore.GetTicket, MockStore.SaveTicket, hid, Heap_set_same,
    herr, true_and]
  intro q hq
  simp [Heap.set, hq]

/-- The pointer stays under the id it was found under. -/
theorem tickets_set_same_value (m : GoMap String Addr) (k k2 : String) (p : Addr)
    (h : m k = some p) : (m.set k2 p) k = some p := by
  simp only [GoMap.set]
  split_ifs
  · rfl
  · exact h

theorem serviceTicket_CurrentState (d : State) (event : Event) (now₁ now₂ : Time)
    (t : model.Ticket) : (serviceTicket d event now₁ now₂ t).CurrentState = d := by
  unfold serviceTicket
  split_ifs <;> exact commit_CurrentState d event now₁ now₂ t

theorem serviceTicket_History (d : State) (event : Event) (now₁ now₂ : Time)
    (t : model.Ticket) :
    (serviceTicket d event now₁ now₂ t).History =
      t.History ++ [{ FromState := t.CurrentState, ToState := d, Event := event,
                      Timestamp := now₂, TriggeredBy := t.AssigneeID }] := by
  unfold serviceTicket
  split_ifs <;> exact commit_History d event now₁ now₂ t

theorem serviceTicket_ReassignCount (d : State) (event : Event) (now₁ now₂ : Time)
    (t : model.Ticket) :
    (serviceTicket d event now₁ now₂ t).ReassignCount =
      if event = EventReassign then wrapInt (t.ReassignCount + 1) else t.ReassignCount := by
  unfold serviceTicket
  split_ifs <;> simp_all [commit_ReassignCount]

theorem commit_InitialPriority (d : State) (event : Event) (now₁ now₂ : Time)
    (t : model.Ticket) : (commit d event now₁ now₂ t).InitialPriority = t.InitialPriority := by
  unfold commit
  split_ifs <;> rfl

theorem commit_Priority (d : State) (event : Event) (now₁ now₂ : Time)
    (t : model.Ticket) : (commit d event now₁ now₂ t).Priority = t.Priority := by
  unfold commit
  split_ifs <;> rfl

theorem commit_ID (d : State) (event : Event) (now₁ now₂ : Time)
    (t : model.Ticket) : (commit d event now₁ now₂ t).ID = t.ID := by
  unfold commit
  split_ifs <;> rfl

theorem serviceTicket_InitialPriority (d : State) (event : Event) (now₁ now₂ : Time)
    (t : model.Ticket) :
    (serviceTicket d event now₁ now₂ t).InitialPriority = t.InitialPriority := by
  unfold serviceTicket
  split_ifs <;> exact commit_InitialPriority d event now₁ now₂ t

theorem serviceTicket_ID (d : State) (event : Event) (now₁ now₂ : Time)
    (t : model.Ticket) : (serviceTicket d event now₁ now₂ t).ID = t.ID := by
  unfold serviceTicket
  split_ifs <;> exact commit_ID d event now₁ now₂ t

theorem serviceTicket_Priority (d : State) (event : Event) (now₁ now₂ : Time)
    (t : model.Ticket) :
    (serviceTicket d event now₁ now₂ t).Priority =
      if d = StateInProgress ∧ (event = EventReassign ∨ event = EventResume) then
        wrapInt (t.InitialPriority
          + (if event = EventReassign then wrapInt (t.ReassignCount + 1) else t.ReassignCount))
      else t.Priority := by
  unfold serviceTicket
  split_ifs with h1 h2
  · show wrapInt ((commit d event now₁ now₂ t).InitialPriority
      + (commit d event now₁ now₂ t).ReassignCount) = _
    rw [commit_InitialPriority, commit_ReassignCount, if_pos h2]
  · show wrapInt ((commit d event now₁ now₂ t).InitialPriority
      + (commit d event now₁ now₂ t).ReassignCount) = _
    rw [commit_InitialPriority, commit_ReassignCount, if_neg h2]
  · exact commit_Priority d event now₁ now₂ t

/-- An accepted call of a service that runs the service machine: no error, the
ticket saved, and the fields of the ticket behind the pointer. -/
theorem TransitionTicket_accept {Ctx : Type} (ts : TicketService Ctx) (ctx : Ctx)
    (now₁ now₂ now₃ : Time) (heap : Heap) (l : golog.Log) (ticketID : String) (event : Event)
    (triggeredBy : String) (p : Addr) (d : State)
    (hsm : ts.sm = serviceMachine Ctx)
    (hid : ts.store.tickets ticketID = some p)
    (hmem : ((heap p).CurrentState, event, d) ∈ builtinTable)
    (hg : ¬ (event = EventApproveFinal ∧ triggeredBy ≠ "admin")) :
    (TransitionTicket ts ctx now₁ now₂ now₃ heap l ticketID event triggeredBy).err = none ∧
    (TransitionTicket ts ctx now₁ now₂ now₃ heap l ticketID event triggeredBy).saved = true ∧
    (TransitionTicket ts ctx now₁ now₂ now₃ heap l ticketID event triggeredBy).store.tickets
      ticketID = some p ∧
    (TransitionTicket ts ctx now₁ now₂ now₃ heap l ticketID event triggeredBy).heap p
      = { serviceTicket d event now₁ now₂ { heap p with AssigneeID := triggeredBy } with
          UpdatedAt := now₃ } ∧
    (∀ q, q ≠ p →
      (TransitionTicket ts ctx now₁ now₂ now₃ heap l ticketID event triggeredBy).heap q
        = heap q) := by
  obtain ⟨_, h2, h3⟩ := serviceMachine_accept ctx now₁ now₂ l
    { heap p with AssigneeID := triggeredBy } event d hmem hg
  rw [← hsm] at h2 h3
  obtain ⟨k1, k2, k3, k4, k5⟩ := TransitionTicket_of_success ts ctx now₁ now₂ now₃ heap l
    ticketID event triggeredBy p hid h2
  refine ⟨k1, k2, ?_, ?_, k5⟩
  · rw [k3]
    exact tickets_set_same_value _ _ _ _ hid
  · rw [k4, h3]

/-- A vetoed call of a service that runs the service machine: the guard's
error, nothing saved, and the ticket behind the pointer changed in its
assignee only. -/
theorem TransitionTicket_veto {Ctx : Type} (ts : TicketService Ctx) (ctx : Ctx)
    (now₁ now₂ now₃ : Time) (heap : Heap) (l : golog.Log) (ticketID : String)
    (triggeredBy : String) (p : Addr)
    (hsm : ts.sm = serviceMachine Ctx)
    (hid : ts.store.tickets ticketID = some p)
    (hs : (heap p).CurrentState = StateFinalApproval)
    (ha : triggeredBy ≠ "admin") :
    (TransitionTicket ts ctx now₁ now₂ now₃ heap l ticketID EventApproveFinal triggeredBy).err
      = some "只有管理员可以最终审批" ∧
    (TransitionTicket ts ctx now₁ now₂ now₃ heap l ticketID EventApproveFinal
      triggeredBy).saved = false ∧
    (TransitionTicket ts ctx now₁ now₂ now₃ heap l ticketID EventApproveFinal
      triggeredBy).store = ts.store ∧
    (TransitionTicket ts ctx now₁ now₂ now₃ heap l ticketID EventApproveFinal
      triggeredBy).heap p = { heap p with AssigneeID := triggeredBy } ∧
    (∀ q, q ≠ p →
      (TransitionTicket ts ctx now₁ now₂ now₃ heap l ticketID EventApproveFinal
        triggeredBy).heap q = heap q) := by
  have hv := serviceMachine_veto ctx now₁ now₂ l { heap p with AssigneeID := triggeredBy } hs ha
  rw [← hsm] at hv
  obtain ⟨k1, k2, k3, k4, k5⟩ := TransitionTicket_of_error ts ctx now₁ now₂ now₃ heap l
    ticketID EventApproveFinal triggeredBy p _ hid (by rw [hv])
  refine ⟨k1, k2, k3, ?_, k5⟩
  rw [k4, hv]

/-- One accepted call of a sequence: what it leaves, from what the previous
call left. -/
theorem nextCall_accept {Ctx : Type} (ts : TicketService Ctx) (ctx : Ctx) (now : Nat → Time)
    (k : Nat) (ticketID : String) (r : CallResult) (event : Event) (triggeredBy : String)
    (p : Addr) (d : State)
    (hsm : ts.sm = serviceMachine Ctx)
    (hid : r.store.tickets ticketID = some p)
    (hmem : ((r.heap p).CurrentState, event, d) ∈ builtinTable)
    (hg : ¬ (event = EventApproveFinal ∧ triggeredBy ≠ "admin")) :
    (nextCall ts ctx now k ticketID r event triggeredBy).err = none ∧
    (nextCall ts ctx now k ticketID r event triggeredBy).saved = true ∧
    (nextCall ts ctx now k ticketID r event triggeredBy).store.tickets ticketID = some p ∧
    ((nextCall ts ctx now k ticketID r event triggeredBy).heap p).CurrentState = d ∧
    ((nextCall ts ctx now k ticketID r event triggeredBy).heap p).History
      = (r.heap p).History
        ++ [{ FromState := (r.heap p).CurrentState, ToState := d, Event := event,
              Timestamp := now (3 * k + 1), TriggeredBy := triggeredBy }] ∧
    ((nextCall ts ctx now k ticketID r event triggeredBy).heap p).ReassignCount
      = (if event = EventReassign then wrapInt ((r.heap p).ReassignCount + 1)
          else (r.heap p).ReassignCount) ∧
    ((nextCall ts ctx now k ticketID r event triggeredBy).heap p).InitialPriority
      = (r.heap p).InitialPriority ∧
    ((nextCall ts ctx now k ticketID r event triggeredBy).heap p).Priority
      = (if d = StateInProgress ∧ (event = EventReassign ∨ event = EventResume) then
          wrapInt ((r.heap p).InitialPriority
            + (if event = EventReassign then wrapInt ((r.heap p).ReassignCount + 1)
                else (r.heap p).ReassignCount))
        else (r.heap p).Priority) := by
  have hcall := TransitionTicket_accept ({ ts with store := r.store } : TicketService Ctx) ctx
    (now (3 * k)) (now (3 * k + 1)) (now (3 * k + 2)) r.heap r.log ticketID event triggeredBy
    p d hsm hid hmem hg
  obtain ⟨k1, k2, k3, k4, _⟩ := hcall
  unfold nextCall
  refine ⟨k1, k2, k3, ?_, ?_, ?_, ?_, ?_⟩
  · rw [k4]
    exact serviceTicket_CurrentState _ _ _ _ _
  · rw [k4]
    exact serviceTicket_History _ _ _ _ _
  · rw [k4]
    exact serviceTicket_ReassignCount _ _ _ _ _
  · rw [k4]
    exact serviceTicket_InitialPriority _ _ _ _ _
  · rw [k4]
    exact serviceTicket_Priority _ _ _ _ _

/-- One vetoed call of a sequence. -/
theorem nextCall_veto {Ctx : Type} (ts : TicketService Ctx) (ctx : Ctx) (now : Nat → Time)
    (k : Nat) (ticketID : String) (r : CallResult) (triggeredBy : String) (p : Addr)
    (hsm : ts.sm = serviceMachine Ctx)
    (hid : r.store.tickets ticketID = some p)
    (hs : (r.heap p).CurrentState = StateFinalApproval)
    (ha : triggeredBy ≠ "admin") :
    (nextCall ts ctx now k ticketID r EventApproveFinal triggeredBy).err
      = some "只有管理员可以最终审批" ∧
    (nextCall ts ctx now k ticketID r EventApproveFinal triggeredBy).saved = false ∧
    (nextCall ts ctx now k ticketID r EventApproveFinal triggeredBy).store.tickets ticketID
      = some p ∧
    ((nextCall ts ctx now k ticketID r EventApproveFinal triggeredBy).heap p).CurrentState
      = StateFinalApproval ∧
    ((nextCall ts ctx now k ticketID r EventApproveFinal triggeredBy).heap p).History
      = (r.heap p).History ∧
    ((nextCall ts ctx now k ticketID r EventApproveFinal triggeredBy).heap p).ReassignCount
      = (r.heap p).ReassignCount := by
  have hcall := TransitionTicket_veto ({ ts with store := r.store } : TicketService Ctx) ctx
    (now (3 * k)) (now (3 * k + 1)) (now (3 * k + 2)) r.heap r.log ticketID triggeredBy
    p hsm hid hs ha
  obtain ⟨k1, k2, k3, k4, _⟩ := hcall
  unfold nextCall
  refine ⟨k1, k2, ?_, ?_, ?_, ?_⟩
  · rw [k3]
    exact hid
  · rw [k4]
    exact hs
  · rw [k4]
  · rw [k4]

/-! ## The scenario of the service test -/

/-- C12: on a service built by `NewTicketService`, a stored ticket that starts
in `New` with an empty history and `ReassignCount` 0, driven by `Submit`,
`Assign`, `ApproveInitial`, `Reassign`, `Reassign`, `SubmitFinal` (any
actors), then `ApproveFinal` by an actor who is not "admin", then
`ApproveFinal` by "admin", passes through `Pending` (history length 1),
`InitialReview` (2), `InProgress` (3), `InProgress` (4, counter 1),
`InProgress` (5, counter 2), `FinalApproval` (6); the non-admin `ApproveFinal`
returns an error and leaves the state `FinalApproval` and the history length
6; the admin `ApproveFinal` succeeds and ends in `Completed` with history
length 7. -/
theorem TransitionTicket_scenario {Ctx : Type} (ctx : Ctx) (now : Nat → Time) (heap : Heap)
    (store : MockStore) (l : golog.Log) (ticketID : String) (p : Addr)
    (a₁ a₂ a₃ a₄ a₅ a₆ a₇ : String)
    (hid : store.tickets ticketID = some p)
    (hnew : (heap p).CurrentState = StateNew)
    (hhist : (heap p).History = [])
    (hrc : (heap p).ReassignCount = 0)
    (hna : a₇ ≠ "admin") :
    let ts := NewTicketService Ctx store
    let r₀ := startResult heap store l
    let r₁ := nextCall ts ctx now 1 ticketID r₀ EventSubmit a₁
    let r₂ := nextCall ts ctx now 2 ticketID r₁ EventAssign a₂
    let r₃ := nextCall ts ctx now 3 ticketID r₂ EventApproveInitial a₃
    let r₄ := nextCall ts ctx now 4 ticketID r₃ EventReassign a₄
    let r₅ := nextCall ts ctx now 5 ticketID r₄ EventReassign a₅
    let r₆ := nextCall ts ctx now 6 ticketID r₅ EventSubmitFinal a₆
    let r₇ := nextCall ts ctx now 7 ticketID r₆ EventApproveFinal a₇
    let r₈ := nextCall ts ctx now 8 ticketID r₇ EventApproveFinal "admin"
    (r₁.err = none ∧ (r₁.heap p).CurrentState = StatePending ∧
      (r₁.heap p).History.length = 1) ∧
    (r₂.err = none ∧ (r₂.heap p).CurrentState = StateInitialReview ∧
      (r₂.heap p).History.length = 2) ∧
    (r₃.err = none ∧ (r₃.heap p).CurrentState = StateInProgress ∧
      (r₃.heap p).History.length = 3) ∧
    (r₄.err = none ∧ (r₄.heap p).CurrentState = StateInProgress ∧
      (r₄.heap p).History.length = 4 ∧ (r₄.heap p).ReassignCount = 1) ∧
    (r₅.err = none ∧ (r₅.heap p).CurrentState = StateInProgress ∧
      (r₅.heap p).History.length = 5 ∧ (r₅.heap p).ReassignCount = 2) ∧
    (r₆.err = none ∧ (r₆.heap p).CurrentState = StateFinalApproval ∧
      (r₆.heap p).History.length = 6) ∧
    (r₇.err ≠ none ∧ (r₇.heap p).CurrentState = StateFinalApproval ∧
      (r₇.heap p).History.length = 6) ∧
    (r₈.err = none ∧ (r₈.heap p).CurrentState = StateCompleted ∧
      (r₈.heap p).History.length = 7) := by
  intro ts r₀ r₁ r₂ r₃ r₄ r₅ r₆ r₇ r₈
  have hsm : ts.sm = serviceMachine Ctx := rfl
  have h0 : r₀.store.tickets ticketID = some p := hid
  obtain ⟨e1, _, s1, c1, i1, n1, _, _⟩ := nextCall_accept ts ctx now 1 ticketID r₀ EventSubmit a₁
    p StatePending hsm h0 (by rw [show (r₀.heap p).CurrentState = StateNew from hnew]; decide)
    (fun h => absurd h.1 (by decide))
  obtain ⟨e2, _, s2, c2, i2, n2, _, _⟩ := nextCall_accept ts ctx now 2 ticketID r₁ EventAssign a₂
    p StateInitialReview hsm s1 (by rw [c1]; decide) (fun h => absurd h.1 (by decide))
  obtain ⟨e3, _, s3, c3, i3, n3, _, _⟩ := nextCall_accept ts ctx now 3 ticketID r₂
    EventApproveInitial a₃ p StateInProgress hsm s2 (by rw [c2]; decide)
    (fun h => absurd h.1 (by decide))
  obtain ⟨e4, _, s4, c4, i4, n4, _, _⟩ := nextCall_accept ts ctx now 4 ticketID r₃
    EventReassign a₄ p StateInProgress hsm s3 (by rw [c3]; decide)
    (fun h => absurd h.1 (by decide))
  obtain ⟨e5, _, s5, c5, i5, n5, _, _⟩ := nextCall_accept ts ctx now 5 ticketID r₄
    EventReassign a₅ p StateInProgress hsm s4 (by rw [c4]; decide)
    (fun h => absurd h.1 (by decide))
  obtain ⟨e6, _, s6, c6, i6, n6, _, _⟩ := nextCall_accept ts ctx now 6 ticketID r₅
    EventSubmitFinal a₆ p StateFinalApproval hsm s5 (by rw [c5]; decide)
    (fun h => absurd h.1 (by decide))
  obtain ⟨e7, _, s7, c7, i7, n7⟩ := nextCall_veto ts ctx now 7 ticketID r₆ a₇ p hsm s6 c6 hna
  obtain ⟨e8, _, _, c8, i8, _, _, _⟩ := nextCall_accept ts ctx now 8 ticketID r₇
    EventApproveFinal "admin" p StateCompleted hsm s7 (by rw [c7]; decide)
    (fun h => h.2 rfl)
  have hh0 : (r₀.heap p).History = [] := hhist
  have hr0 : (r₀.heap p).ReassignCount = 0 := hrc
  have l1 : (r₁.heap p).History.length = 1 := by rw [i1, hh0]; rfl
  have l2 : (r₂.heap p).History.length = 2 := by rw [i2, List.length_append, l1]; rfl
  have l3 : (r₃.heap p).History.length = 3 := by rw [i3, List.length_append, l2]; rfl
  have l4 : (r₄.heap p).History.length = 4 := by rw [i4, List.length_append, l3]; rfl
  have l5 : (r₅.heap p).History.length = 5 := by rw [i5, List.length_append, l4]; rfl
  have l6 : (r₆.heap p).History.length = 6 := by rw [i6, List.length_append, l5]; rfl
  have l7 : (r₇.heap p).History.length = 6 := by rw [i7, l6]
  have l8 : (r₈.heap p).History.length = 7 := by rw [i8, List.length_append, l7]; rfl
  have q3 : (r₃.heap p).ReassignCount = 0 := by
    rw [n3, if_neg (by decide), n2, if_neg (by decide), n1, if_neg (by decide), hr0]
  have q4 : (r₄.heap p).ReassignCount = 1 := by
    rw [n4, if_pos rfl, q3]
    decide
  have q5 : (r₅.heap p).ReassignCount = 2 := by
    rw [n5, if_pos rfl, q4]
    decide
  exact ⟨⟨e1, c1, l1⟩, ⟨e2, c2, l2⟩, ⟨e3, c3, l3⟩, ⟨e4, c4, l4, q4⟩, ⟨e5, c5, l5, q5⟩,
    ⟨e6, c6, l6⟩, ⟨by rw [e7]; simp, c7, l7⟩, ⟨e8, c8, l8⟩⟩

/-- Witness of C12: the scenario on the store of the test, with the actors of
the demonstration: after the seventh call, the non-admin `ApproveFinal`, there
is an error, the state is `FinalApproval` and the history has 6 records; after
the eighth there is no error, the state is `Completed` and the history has 7
records. -/
theorem TransitionTicket_scenario_witness :
    (testRun7.err ≠ none ∧ (testRun7.heap 0).CurrentState = "FinalApproval" ∧
      (testRun7.heap 0).History.length = 6) ∧
    (testRun8.err = none ∧ (testRun8.heap 0).CurrentState = "Completed" ∧
      (testRun8.heap 0).History.length = 7) :=
  (TransitionTicket_scenario () testClock testHeap testStore [] "test-ticket" 0
    "user123" "user456" "user456" "user789" "user999" "user999" "user789"
    rfl rfl rfl rfl (by decide)).2.2.2.2.2.2

/-! ## Reassignment through the service -/

/-- What `n` successive `Reassign` calls leave, for a ticket in `InProgress`
whose counter is that of a smaller number of calls. -/
theorem reassignTimes_fields {Ctx : Type} (ts : TicketService Ctx) (ctx : Ctx)
    (now : Nat → Time) (ticketID : String) (actor : Nat → String) (r : CallResult) (p : Addr)
    (hsm : ts.sm = serviceMachine Ctx)
    (hid : r.store.tickets ticketID = some p)
    (hs : (r.heap p).CurrentState = StateInProgress)
    (hrc : (r.heap p).ReassignCount = 0) (n : Nat) (hn : (n : Int) ≤ maxInt) :
    (reassignTimes ts ctx now ticketID actor n r).store.tickets ticketID = some p ∧
    ((reassignTimes ts ctx now ticketID actor n r).heap p).CurrentState = StateInProgress ∧
    ((reassignTimes ts ctx now ticketID actor n r).heap p).ReassignCount = n ∧
    ((reassignTimes ts ctx now ticketID actor n r).heap p).InitialPriority
      = (r.heap p).InitialPriority ∧
    (1 ≤ n →
      (reassignTimes ts ctx now ticketID actor n r).err = none ∧
      ((reassignTimes ts ctx now ticketID actor n r).heap p).Priority
        = wrapInt ((r.heap p).InitialPriority + n)) := by
  induction n with
  | zero => exact ⟨hid, hs, by simpa using hrc, rfl, fun h => absurd h (by decide)⟩
  | succ m ih =>
    have hm : (m : Int) ≤ maxInt := by
      have : (m : Int) ≤ ((m + 1 : Nat) : Int) := by push_cast; omega
      exact le_trans this hn
    obtain ⟨i1, i2, i3, i4, _⟩ := ih hm
    obtain ⟨e, _, s1, c1, _, n1, p1, q1⟩ := nextCall_accept ts ctx now (m + 1) ticketID
      (reassignTimes ts ctx now ticketID actor m r) EventReassign (actor (m + 1)) p
      StateInProgress hsm i1 (by rw [i2]; decide) (fun h => absurd h.1 (by decide))
    have hw : wrapInt ((m : Int) + 1) = ((m + 1 : Nat) : Int) := by
      rw [wrapInt_of_inRange]
      · push_cast
        rfl
      · simp only [minInt]
        omega
      · push_cast at hn
        exact hn
    simp only [reassignTimes]
    refine ⟨s1, c1, ?_, ?_, fun _ => ⟨e, ?_⟩⟩
    · rw [n1, if_pos rfl, i3, hw]
    · rw [p1, i4]
    · rw [q1, if_pos ⟨rfl, Or.inl rfl⟩, if_pos rfl, i3, i4, hw]

/-- C13 fails as stated: `ReassignCount` and `Priority` are Go `int`s and the
sums wrap.  On the service of the test, `Reassign` on the stored ticket in
`InProgress` whose counter is the largest `int`, 2^63 - 1, succeeds and leaves
the counter at the smallest `int`, -2^63, not at the old value plus one. -/
theorem service_reassign_overflow_counterexample :
    testStore.tickets "test-ticket" = some 0 ∧
    ((fun _ => overflowTicket : Heap) 0).CurrentState = StateInProgress ∧
    (TransitionTicket (NewTicketService Unit testStore) () 10 11 12 (fun _ => overflowTicket)
      [] "test-ticket" EventReassign "user789").err = none ∧
    ((TransitionTicket (NewTicketService Unit testStore) () 10 11 12 (fun _ => overflowTicket)
      [] "test-ticket" EventReassign "user789").heap 0).ReassignCount
      = -9223372036854775808 ∧
    ((TransitionTicket (NewTicketService Unit testStore) () 10 11 12 (fun _ => overflowTicket)
      [] "test-ticket" EventReassign "user789").heap 0).ReassignCount
      ≠ overflowTicket.ReassignCount + 1 := by
  refine ⟨rfl, rfl, rfl, rfl, ?_⟩
  decide

/-- C13, amended: on a service built by `NewTicketService`, for every stored
ticket in `InProgress`, a `Reassign` through `TransitionTicket` succeeds,
keeps the state `InProgress`, adds one to `ReassignCount` and sets `Priority`
to `InitialPriority` plus the new `ReassignCount`, both sums in wrapping
64-bit arithmetic: the counter grows by exactly one when it is below the
largest `int`, and the priority is exactly the sum when the sum is in the
range of `int`.  Consequently `n` successive `Reassign`s (`n` at most the
largest `int`) on a ticket in `InProgress` with `ReassignCount` 0 yield
`ReassignCount` `n` and, when `n ≥ 1`, `Priority` the wrapped sum
`InitialPriority + n`, which is that sum itself when it is in range. -/
theorem TransitionTicket_reassign {Ctx : Type} (ctx : Ctx) (heap : Heap) (store : MockStore)
    (l : golog.Log) (ticketID : String) (p : Addr)
    (hid : store.tickets ticketID = some p)
    (hs : (heap p).CurrentState = StateInProgress) :
    (∀ (now₁ now₂ now₃ : Time) (triggeredBy : String),
      (TransitionTicket (NewTicketService Ctx store) ctx now₁ now₂ now₃ heap l ticketID
        EventReassign triggeredBy).err = none ∧
      ((TransitionTicket (NewTicketService Ctx store) ctx now₁ now₂ now₃ heap l ticketID
        EventReassign triggeredBy).heap p).CurrentState = StateInProgress ∧
      ((TransitionTicket (NewTicketService Ctx store) ctx now₁ now₂ now₃ heap l ticketID
        EventReassign triggeredBy).heap p).ReassignCount
        = wrapInt ((heap p).ReassignCount + 1) ∧
      ((TransitionTicket (NewTicketService Ctx store) ctx now₁ now₂ now₃ heap l ticketID
        EventReassign triggeredBy).heap p).InitialPriority = (heap p).InitialPriority ∧
      ((TransitionTicket (NewTicketService Ctx store) ctx now₁ now₂ now₃ heap l ticketID
        EventReassign triggeredBy).heap p).Priority
        = wrapInt ((heap p).InitialPriority + wrapInt ((heap p).ReassignCount + 1)) ∧
      (minInt ≤ (heap p).ReassignCount → (heap p).ReassignCount < maxInt →
        ((TransitionTicket (NewTicketService Ctx store) ctx now₁ now₂ now₃ heap l ticketID
          EventReassign triggeredBy).heap p).ReassignCount = (heap p).ReassignCount + 1 ∧
        (minInt ≤ (heap p).InitialPriority + ((heap p).ReassignCount + 1) →
          (heap p).InitialPriority + ((heap p).ReassignCount + 1) ≤ maxInt →
          ((TransitionTicket (NewTicketService Ctx store) ctx now₁ now₂ now₃ heap l ticketID
            EventReassign triggeredBy).heap p).Priority
            = (heap p).InitialPriority + ((heap p).ReassignCount + 1)))) ∧
    (∀ (now : Nat → Time) (actor : Nat → String) (n : Nat),
      (heap p).ReassignCount = 0 → (n : Int) ≤ maxInt →
      ((reassignTimes (NewTicketService Ctx store) ctx now ticketID actor n
        (startResult heap store l)).heap p).CurrentState = StateInProgress ∧
      ((reassignTimes (NewTicketService Ctx store) ctx now ticketID actor n
        (startResult heap store l)).heap p).ReassignCount = n ∧
      (1 ≤ n →
        (reassignTimes (NewTicketService Ctx store) ctx now ticketID actor n
          (startResult heap store l)).err = none ∧
        ((reassignTimes (NewTicketService Ctx store) ctx now ticketID actor n
          (startResult heap store l)).heap p).Priority
          = wrapInt ((heap p).InitialPriority + n) ∧
        (minInt ≤ (heap p).InitialPriority + n → (heap p).InitialPriority + n ≤ maxInt →
          ((reassignTimes (NewTicketService Ctx store) ctx now ticketID actor n
            (startResult heap store l)).heap p).Priority = (heap p).InitialPriority + n))) := by
  constructor
  · intro now₁ now₂ now₃ triggeredBy
    obtain ⟨k1, _, _, k4, _⟩ := TransitionTicket_accept (NewTicketService Ctx store) ctx
      now₁ now₂ now₃ heap l ticketID EventReassign triggeredBy p StateInProgress rfl hid
      (by rw [hs]; decide) (fun h => absurd h.1 (by decide))
    have hrc : ((TransitionTicket (NewTicketService Ctx store) ctx now₁ now₂ now₃ heap l
        ticketID EventReassign triggeredBy).heap p).ReassignCount
        = wrapInt ((heap p).ReassignCount + 1) := by
      rw [k4]
      exact (serviceTicket_ReassignCount _ _ _ _ _).trans (if_pos rfl)
    have hpr : ((TransitionTicket (NewTicketService Ctx store) ctx now₁ now₂ now₃ heap l
        ticketID EventReassign triggeredBy).heap p).Priority
        = wrapInt ((heap p).InitialPriority + wrapInt ((heap p).ReassignCount + 1)) := by
      rw [k4]
      refine (serviceTicket_Priority _ _ _ _ _).trans ?_
      rw [if_pos ⟨rfl, Or.inl rfl⟩, if_pos rfl]
    refine ⟨k1, ?_, hrc, ?_, hpr, ?_⟩
    · rw [k4]
      exact serviceTicket_CurrentState _ _ _ _ _
    · rw [k4]
      exact serviceTicket_InitialPriority _ _ _ _ _
    · intro h1 h2
      have hw : wrapInt ((heap p).ReassignCount + 1) = (heap p).ReassignCount + 1 := by
        apply wrapInt_of_inRange
        · simp only [minInt] at h1 ⊢
          omega
        · simp only [maxInt] at h2 ⊢
          omega
      refine ⟨by rw [hrc, hw], fun h3 h4 => ?_⟩
      rw [hpr, hw]
      exact wrapInt_of_inRange _ h3 h4
  · intro now actor n hrc hn
    obtain ⟨_, i2, i3, _, i5⟩ := reassignTimes_fields (NewTicketService Ctx store) ctx now
      ticketID actor (startResult heap store l) p rfl hid hs hrc n hn
    refine ⟨i2, i3, fun h1 => ?_⟩
    obtain ⟨e, q⟩ := i5 h1
    refine ⟨e, q, fun h3 h4 => ?_⟩
    rw [q]
    exact wrapInt_of_inRange _ h3 h4

/-- Witness of C13 amended: the ticket of
`TestTicketService_InProgressPriorityTask` in `InProgress` (initial priority
1, counter 0): one `Reassign` gives counter 1 and priority 2, a second one
counter 2 and priority 3. -/
theorem TransitionTicket_reassign_witness :
    (((reassignTimes (NewTicketService Unit testStore) () testClock "test-ticket"
        (fun _ => "user789") 1 (startResult (fun _ => inProgressTicket) testStore [])).heap
        0).ReassignCount = 1 ∧
      ((reassignTimes (NewTicketService Unit testStore) () testClock "test-ticket"
        (fun _ => "user789") 1 (startResult (fun _ => inProgressTicket) testStore [])).heap
        0).Priority = 2) ∧
    (((reassignTimes (NewTicketService Unit testStore) () testClock "test-ticket"
        (fun _ => "user789") 2 (startResult (fun _ => inProgressTicket) testStore [])).heap
        0).ReassignCount = 2 ∧
      ((reassignTimes (NewTicketService Unit testStore) () testClock "test-ticket"
        (fun _ => "user789") 2 (startResult (fun _ => inProgressTicket) testStore [])).heap
        0).Priority = 3) := by
  have h := (TransitionTicket_reassign () (fun _ => inProgressTicket) testStore [] "test-ticket"
    0 rfl rfl).2 testClock (fun _ => "user789")
  obtain ⟨_, a2, a3⟩ := h 1 rfl (by decide)
  obtain ⟨_, b2, b3⟩ := h 2 rfl (by decide)
  exact ⟨⟨a2, ((a3 (by decide)).2.2 (by decide) (by decide)).trans (by decide)⟩,
    ⟨b2, ((b3 (by decide)).2.2 (by decide) (by decide)).trans (by decide)⟩⟩

/-! ## The final approval through the service -/

/-- C14: on a service built by `NewTicketService`, for every stored ticket in
`FinalApproval` and every actor, `TransitionTicket` with `ApproveFinal`
succeeds and moves the ticket to `Completed` if and only if the actor is
"admin"; for any other actor it returns the guard's error, saves nothing, and
the ticket's state stays `FinalApproval` with no history record appended.
`RejectFinal` succeeds for every actor and moves the ticket to
`InProgress`. -/
theorem TransitionTicket_final_approval {Ctx : Type} (ctx : Ctx) (now₁ now₂ now₃ : Time)
    (heap : Heap) (store : MockStore) (l : golog.Log) (ticketID : String) (p : Addr)
    (triggeredBy : String)
    (hid : store.tickets ticketID = some p)
    (hs : (heap p).CurrentState = StateFinalApproval) :
    (((TransitionTicket (NewTicketService Ctx store) ctx now₁ now₂ now₃ heap l ticketID
          EventApproveFinal triggeredBy).err = none ∧
        ((TransitionTicket (NewTicketService Ctx store) ctx now₁ now₂ now₃ heap l ticketID
          EventApproveFinal triggeredBy).heap p).CurrentState = StateCompleted)
      ↔ triggeredBy = "admin") ∧
    (triggeredBy ≠ "admin" →
      (TransitionTicket (NewTicketService Ctx store) ctx now₁ now₂ now₃ heap l ticketID
        EventApproveFinal triggeredBy).err = some "只有管理员可以最终审批" ∧
      (TransitionTicket (NewTicketService Ctx store) ctx now₁ now₂ now₃ heap l ticketID
        EventApproveFinal triggeredBy).saved = false ∧
      ((TransitionTicket (NewTicketService Ctx store) ctx now₁ now₂ now₃ heap l ticketID
        EventApproveFinal triggeredBy).heap p).CurrentState = StateFinalApproval ∧
      ((TransitionTicket (NewTicketService Ctx store) ctx now₁ now₂ now₃ heap l ticketID
        EventApproveFinal triggeredBy).heap p).History = (heap p).History) ∧
    ((TransitionTicket (NewTicketService Ctx store) ctx now₁ now₂ now₃ heap l ticketID
        EventRejectFinal triggeredBy).err = none ∧
      ((TransitionTicket (NewTicketService Ctx store) ctx now₁ now₂ now₃ heap l ticketID
        EventRejectFinal triggeredBy).heap p).CurrentState = StateInProgress) := by
  have hveto : triggeredBy ≠ "admin" →
      (TransitionTicket (NewTicketService Ctx store) ctx now₁ now₂ now₃ heap l ticketID
        EventApproveFinal triggeredBy).err = some "只有管理员可以最终审批" ∧
      (TransitionTicket (NewTicketService Ctx store) ctx now₁ now₂ now₃ heap l ticketID
        EventApproveFinal triggeredBy).saved = false ∧
      ((TransitionTicket (NewTicketService Ctx store) ctx now₁ now₂ now₃ heap l ticketID
        EventApproveFinal triggeredBy).heap p).CurrentState = StateFinalApproval ∧
      ((TransitionTicket (NewTicketService Ctx store) ctx now₁ now₂ now₃ heap l ticketID
        EventApproveFinal triggeredBy).heap p).History = (heap p).History := by
    intro ha
    obtain ⟨k1, k2, _, k4, _⟩ := TransitionTicket_veto (NewTicketService Ctx store) ctx
      now₁ now₂ now₃ heap l ticketID triggeredBy p rfl hid hs ha
    refine ⟨k1, k2, ?_, ?_⟩
    · rw [k4]
      exact hs
    · rw [k4]
  refine ⟨⟨?_, ?_⟩, hveto, ?_⟩
  · intro h
    by_contra ha
    rw [(hveto ha).1] at h
    exact absurd h.1 (by simp)
  · intro ha
    obtain ⟨k1, _, _, k4, _⟩ := TransitionTicket_accept (NewTicketService Ctx store) ctx
      now₁ now₂ now₃ heap l ticketID EventApproveFinal triggeredBy p StateCompleted rfl hid
      (by rw [hs]; decide) (fun h => h.2 ha)
    refine ⟨k1, ?_⟩
    rw [k4]
    exact serviceTicket_CurrentState _ _ _ _ _
  · obtain ⟨k1, _, _, k4, _⟩ := TransitionTicket_accept (NewTicketService Ctx store) ctx
      now₁ now₂ now₃ heap l ticketID EventRejectFinal triggeredBy p StateInProgress rfl hid
      (by rw [hs]; decide) (fun h => absurd h.1 (by decide))
    refine ⟨k1, ?_⟩
    rw [k4]
    exact serviceTicket_CurrentState _ _ _ _ _

/-- Witness of C14: the test ticket in `FinalApproval`: `ApproveFinal` by
"user789" is refused and leaves the state and the empty history, by "admin" it
moves the ticket to `Completed`; `RejectFinal` by "user789" moves it to
`InProgress`. -/
theorem TransitionTicket_final_approval_witness :
    ((TransitionTicket (NewTicketService Unit testStore) () 10 11 12
        (fun _ => finalApprovalTicket) [] "test-ticket" EventApproveFinal "user789").err
        = some "只有管理员可以最终审批" ∧
      ((TransitionTicket (NewTicketService Unit testStore) () 10 11 12
        (fun _ => finalApprovalTicket) [] "test-ticket" EventApproveFinal "user789").heap
        0).CurrentState = "FinalApproval" ∧
      ((TransitionTicket (NewTicketService Unit testStore) () 10 11 12
        (fun _ => finalApprovalTicket) [] "test-ticket" EventApproveFinal "user789").heap
        0).History = []) ∧
    ((TransitionTicket (NewTicketService Unit testStore) () 10 11 12
        (fun _ => finalApprovalTicket) [] "test-ticket" EventApproveFinal "admin").err
        = none ∧
      ((TransitionTicket (NewTicketService Unit testStore) () 10 11 12
        (fun _ => finalApprovalTicket) [] "test-ticket" EventApproveFinal "admin").heap
        0).CurrentState = "Completed") ∧
    ((TransitionTicket (NewTicketService Unit testStore) () 10 11 12
        (fun _ => finalApprovalTicket) [] "test-ticket" EventRejectFinal "user789").err
        = none ∧
      ((TransitionTicket (NewTicketService Unit testStore) () 10 11 12
        (fun _ => finalApprovalTicket) [] "test-ticket" EventRejectFinal "user789").heap
        0).CurrentState = "InProgress") := by
  have h1 := TransitionTicket_final_approval () 10 11 12 (fun _ => finalApprovalTicket)
    testStore [] "test-ticket" 0 "user789" rfl rfl
  have h2 := TransitionTicket_final_approval () 10 11 12 (fun _ => finalApprovalTicket)
    testStore [] "test-ticket" 0 "admin" rfl rfl
  obtain ⟨v1, _, v3, v4⟩ := h1.2.1 (by decide)
  exact ⟨⟨v1, v3, v4⟩, h2.1.mpr rfl, h1.2.2⟩

end service

namespace workflow

/-! ## Node coverage -/

theorem NewStateMachine_nodes (Ctx W : Type) (s : State) (hs : s ∈ eightStates) :
    (NewStateMachine Ctx W).nodes s = some { State := s } := by
  simp only [eightStates, List.mem_cons, List.mem_singleton, List.not_mem_nil, or_false] at hs
  rcases hs with rfl | rfl | rfl | rfl | rfl | rfl | rfl | rfl <;> rfl

theorem builtinTable_states (s : State) (e : Event) (d : State)
    (h : (s, e, d) ∈ builtinTable) : s ∈ eightStates ∧ d ∈ eightStates ∧ e ∈ thirteenEvents := by
  simp only [builtinTable, List.mem_cons, Prod.mk.injEq, List.mem_singleton, List.not_mem_nil,
    or_false] at h
  rcases h with h | h | h | h | h | h | h | h | h | h | h | h | h
  all_goals obtain ⟨rfl, rfl, rfl⟩ := h
  all_goals decide

/-- What every built machine keeps of the fresh one: the table, and a node
for each state that has one in the fresh machine. -/
theorem Built_keeps {Ctx W : Type} (sm : StateMachine Ctx W) (hb : Built sm) :
    sm.transitions = (NewStateMachine Ctx W).transitions ∧
    ∀ s, (∃ n, (NewStateMachine Ctx W).nodes s = some n) → ∃ n, sm.nodes s = some n := by
  induction hb with
  | fresh => exact ⟨rfl, fun _ h => h⟩
  | register sm0 state before after onEnter onExit guards _ ih =>
    refine ⟨ih.1, ?_⟩
    intro s hs
    simp only [RegisterTasks, GoMap.set]
    split_ifs
    · exact ⟨_, rfl⟩
    · exact ih.2 s hs

theorem lookupTransition_Built {Ctx W : Type} (sm : StateMachine Ctx W) (hb : Built sm)
    (s : State) (e : Event) (d : State) :
    lookupTransition sm s e = some d ↔ (s, e, d) ∈ builtinTable := by
  rw [← lookupTransition_NewStateMachine Ctx W s e d]
  simp only [lookupTransition, (Built_keeps sm hb).1]

/-- C15: in every machine built by `NewStateMachine` followed by any sequence
of `RegisterTasks` calls, every state that occurs in the transition table as
a source or as a destination has a node in the registry, hence so has every
state reachable from a state that has one; in the fresh machine each of the
eight states has a node whose five hook lists are empty. -/
theorem Built_node_coverage {Ctx W : Type} (sm : StateMachine Ctx W) (hb : Built sm) :
    (∀ s e d, lookupTransition sm s e = some d →
      (∃ n, sm.nodes s = some n) ∧ (∃ n, sm.nodes d = some n)) ∧
    (∀ s t, (∃ n, sm.nodes s = some n) → Reachable sm s t → ∃ n, sm.nodes t = some n) ∧
    (∀ s ∈ eightStates, ∃ n, (NewStateMachine Ctx W).nodes s = some n ∧ n.State = s ∧
      n.BeforeTasks = [] ∧ n.AfterTasks = [] ∧ n.OnEnter = [] ∧ n.OnExit = [] ∧
      n.Guards = []) := by
  have hcov : ∀ s e d, lookupTransition sm s e = some d →
      (∃ n, sm.nodes s = some n) ∧ (∃ n, sm.nodes d = some n) := by
    intro s e d h
    obtain ⟨h1, h2, _⟩ := builtinTable_states s e d ((lookupTransition_Built sm hb s e d).mp h)
    exact ⟨(Built_keeps sm hb).2 s ⟨_, NewStateMachine_nodes Ctx W s h1⟩,
      (Built_keeps sm hb).2 d ⟨_, NewStateMachine_nodes Ctx W d h2⟩⟩
  refine ⟨hcov, ?_, ?_⟩
  · intro s t hs hr
    induction hr with
    | refl _ => exact hs
    | step a e d _ hl _ ih => exact ih (hcov a e d hl).2
  · intro s hs
    exact ⟨_, NewStateMachine_nodes Ctx W s hs, rfl, rfl, rfl, rfl, rfl, rfl⟩

/-- Witness of C15: the machine of `TestStateMachine_Hooks` is built by two
`RegisterTasks` calls on the fresh machine; the source and the destination of
its entry for `Assign` on `Pending` have nodes. -/
theorem Built_node_coverage_witness :
    Built hookedMachine ∧
    (∃ n, hookedMachine.nodes StatePending = some n) ∧
    (∃ n, hookedMachine.nodes StateInitialReview = some n) := by
  have hb : Built hookedMachine :=
    Built.register _ _ _ _ _ _ _ (Built.register _ _ _ _ _ _ _ Built.fresh)
  exact ⟨hb, (Built_node_coverage hookedMachine hb).1 StatePending EventAssign
    StateInitialReview rfl⟩

end workflow

namespace service

open workflow store

/-! ## The actor on the record, and the save -/

/-- A call of `Transition` that returns no error has reached the commit
step. -/
theorem Transition_committed_of_no_error {Ctx W : Type} (sm : StateMachine Ctx W) (ctx : Ctx)
    (now₁ now₂ : Time) (w : W) (ticket : model.Ticket) (event : Event)
    (h : (Transition sm ctx now₁ now₂ w ticket event).err = none) :
    ∃ d, lookupTransition sm ticket.CurrentState event = some d ∧
      AllSucceed ctx event (preCommitHooks sm ticket.CurrentState) (w, ticket) := by
  cases hl : lookupTransition sm ticket.CurrentState event with
  | none =>
    rw [Transition_of_lookup_none sm ctx now₁ now₂ w ticket event hl] at h
    exact absurd h (by simp)
  | some d =>
    refine ⟨d, rfl, ?_⟩
    by_contra hpre
    obtain ⟨_, _, _, _, h3, _⟩ := Transition_of_reject sm ctx now₁ now₂ w ticket event d hl hpre
    exact h3 h

theorem approveFinal_source (s : State) (d : State)
    (h : (s, EventApproveFinal, d) ∈ builtinTable) : s = StateFinalApproval := by
  simp only [builtinTable, List.mem_cons, Prod.mk.injEq, List.mem_singleton, List.not_mem_nil,
    or_false] at h
  rcases h with h | h | h | h | h | h | h | h | h | h | h | h | h
  all_goals first
    | exact h.1
    | exact absurd h.2.1 (by decide)

/-- On the service machine a call returns no error exactly when it reaches the
commit step: no enter- or after-action of the service fails. -/
theorem serviceMachine_no_error_iff {Ctx : Type} (ctx : Ctx) (now₁ now₂ : Time) (l : golog.Log)
    (t : model.Ticket) (event : Event) :
    (Transition (serviceMachine Ctx) ctx now₁ now₂ l t event).err = none ↔
      ∃ d, lookupTransition (serviceMachine Ctx) t.CurrentState event = some d ∧
        AllSucceed ctx event (preCommitHooks (serviceMachine Ctx) t.CurrentState) (l, t) := by
  constructor
  · exact Transition_committed_of_no_error _ ctx now₁ now₂ l t event
  · rintro ⟨d, hl, hpre⟩
    have hmem := (lookupTransition_serviceMachine Ctx _ _ d).mp hl
    by_cases hv : event = EventApproveFinal ∧ t.AssigneeID ≠ "admin"
    · exfalso
      obtain ⟨rfl, ha⟩ := hv
      have hs := approveFinal_source _ _ hmem
      rw [hs, preCommitHooks_FinalApproval] at hpre
      have hg := hpre.1
      simp [hookErr, guardFinalApproval, ha] at hg
    · exact (serviceMachine_accept ctx now₁ now₂ l t event d hmem hv).2.1

/-- C16: on a service built by `NewTicketService`, every `TransitionTicket`
call that returns no error found the ticket in the store and appended to its
history exactly one record, whose `TriggeredBy` is the `triggeredBy` argument
of the call (and whose `Event` is the event of the call). -/
theorem TransitionTicket_triggered_by {Ctx : Type} (ctx : Ctx) (now₁ now₂ now₃ : Time)
    (heap : Heap) (store : MockStore) (l : golog.Log) (ticketID : String) (event : Event)
    (triggeredBy : String)
    (herr : (TransitionTicket (NewTicketService Ctx store) ctx now₁ now₂ now₃ heap l ticketID
      event triggeredBy).err = none) :
    ∃ p, store.tickets ticketID = some p ∧
      ∃ r : model.History,
        ((TransitionTicket (NewTicketService Ctx store) ctx now₁ now₂ now₃ heap l ticketID
          event triggeredBy).heap p).History = (heap p).History ++ [r] ∧
        r.TriggeredBy = triggeredBy ∧ r.Event = event ∧
        r.FromState = (heap p).CurrentState := by
  cases hid : store.tickets ticketID with
  | none =>
    rw [TransitionTicket_of_not_found (NewTicketService Ctx store) ctx now₁ now₂ now₃ heap l
      ticketID event triggeredBy hid] at herr
    exact absurd herr (by simp)
  | some p =>
    refine ⟨p, rfl, ?_⟩
    cases hout : (Transition (serviceMachine Ctx) ctx now₁ now₂ l
        { heap p with AssigneeID := triggeredBy } event).err with
    | some e =>
      rw [(TransitionTicket_of_error (NewTicketService Ctx store) ctx now₁ now₂ now₃ heap l
        ticketID event triggeredBy p e hid hout).1] at herr
      exact absurd herr (by simp)
    | none =>
      obtain ⟨d, hl, hpre⟩ := (serviceMachine_no_error_iff ctx now₁ now₂ l _ event).mp hout
      have hmem := (lookupTransition_serviceMachine Ctx _ _ d).mp hl
      have hv : ¬ (event = EventApproveFinal ∧ triggeredBy ≠ "admin") := by
        rintro ⟨rfl, ha⟩
        have hs := approveFinal_source _ _ hmem
        rw [hs, preCommitHooks_FinalApproval] at hpre
        have hg := hpre.1
        simp [hookErr, guardFinalApproval, ha] at hg
      obtain ⟨_, _, _, k4, _⟩ := TransitionTicket_accept (NewTicketService Ctx store) ctx
        now₁ now₂ now₃ heap l ticketID event triggeredBy p d rfl hid hmem hv
      refine ⟨{ FromState := (heap p).CurrentState, ToState := d, Event := event,
                Timestamp := now₂, TriggeredBy := triggeredBy }, ?_, rfl, rfl, rfl⟩
      rw [k4]
      exact serviceTicket_History _ _ _ _ _

/-- Witness of C16: `Submit` by "user123" on the test ticket: the one record
of the history is stamped with "user123". -/
theorem TransitionTicket_triggered_by_witness :
    ∃ r : model.History,
      ((TransitionTicket (NewTicketService Unit testStore) () 10 11 12 testHeap [] "test-ticket"
        EventSubmit "user123").heap 0).History = [r] ∧
      r.TriggeredBy = "user123" := by
  obtain ⟨p, hp, r, h1, h2, _⟩ := TransitionTicket_triggered_by () 10 11 12 testHeap testStore
    [] "test-ticket" EventSubmit "user123" rfl
  have hp0 : p = 0 := by
    have h0 : testStore.tickets "test-ticket" = some 0 := rfl
    rw [h0] at hp
    exact (Option.some.inj hp).symm
  subst hp0
  exact ⟨r, h1, h2⟩

theorem commit_AssigneeID (d : State) (event : Event) (now₁ now₂ : Time)
    (t : model.Ticket) : (commit d event now₁ now₂ t).AssigneeID = t.AssigneeID := by
  unfold commit
  split_ifs <;> rfl

theorem serviceTicket_AssigneeID (d : State) (event : Event) (now₁ now₂ : Time)
    (t : model.Ticket) : (serviceTicket d event now₁ now₂ t).AssigneeID = t.AssigneeID := by
  unfold serviceTicket
  split_ifs <;> exact commit_AssigneeID d event now₁ now₂ t

/-- No call of `Transition` on the service machine changes the assignee of the
ticket: the engine does not write it and no registered hook does. -/
theorem serviceMachine_AssigneeID {Ctx : Type} (ctx : Ctx) (now₁ now₂ : Time) (l : golog.Log)
    (t : model.Ticket) (event : Event) :
    (Transition (serviceMachine Ctx) ctx now₁ now₂ l t event).ticket.AssigneeID
      = t.AssigneeID := by
  cases hl : lookupTransition (serviceMachine Ctx) t.CurrentState event with
  | none => rw [Transition_of_lookup_none _ ctx now₁ now₂ l t event hl]
  | some d =>
    have hmem := (lookupTransition_serviceMachine Ctx _ _ d).mp hl
    by_cases hv : event = EventApproveFinal ∧ t.AssigneeID ≠ "admin"
    · obtain ⟨rfl, ha⟩ := hv
      rw [serviceMachine_veto ctx now₁ now₂ l t (approveFinal_source _ _ hmem) ha]
    · rw [(serviceMachine_accept ctx now₁ now₂ l t event d hmem hv).2.2]
      exact serviceTicket_AssigneeID _ _ _ _ _

/-- A call of a service that runs the service machine, on an id the store
holds: the save is made exactly when the transition reaches the commit step,
and what the call leaves in either case. -/
theorem TransitionTicket_of_found {Ctx : Type} (ts : TicketService Ctx) (ctx : Ctx)
    (now₁ now₂ now₃ : Time) (heap : Heap) (l : golog.Log) (ticketID : String) (event : Event)
    (triggeredBy : String) (p : Addr)
    (hsm : ts.sm = serviceMachine Ctx)
    (hid : ts.store.tickets ticketID = some p) :
    ((TransitionTicket ts ctx now₁ now₂ now₃ heap l ticketID event triggeredBy).saved = true ↔
      ∃ d, lookupTransition ts.sm (heap p).CurrentState event = some d ∧
        AllSucceed ctx event (preCommitHooks ts.sm (heap p).CurrentState)
          (l, { heap p with AssigneeID := triggeredBy })) ∧
    ((∃ d, lookupTransition ts.sm (heap p).CurrentState event = some d ∧
        AllSucceed ctx event (preCommitHooks ts.sm (heap p).CurrentState)
          (l, { heap p with AssigneeID := triggeredBy })) →
      (Transition ts.sm ctx now₁ now₂ l { heap p with AssigneeID := triggeredBy }
        event).err = none ∧
      (TransitionTicket ts ctx now₁ now₂ now₃ heap l ticketID event triggeredBy).err = none ∧
      (TransitionTicket ts ctx now₁ now₂ now₃ heap l ticketID event triggeredBy).heap p
        = { (Transition ts.sm ctx now₁ now₂ l { heap p with AssigneeID := triggeredBy }
            event).ticket with UpdatedAt := now₃ } ∧
      (TransitionTicket ts ctx now₁ now₂ now₃ heap l ticketID event triggeredBy).store.tickets
        = ts.store.tickets.set
            (Transition ts.sm ctx now₁ now₂ l { heap p with AssigneeID := triggeredBy }
              event).ticket.ID p ∧
      (TransitionTicket ts ctx now₁ now₂ now₃ heap l ticketID event
        triggeredBy).store.tickets ticketID = some p) ∧
    ((¬ ∃ d, lookupTransition ts.sm (heap p).CurrentState event = some d ∧
        AllSucceed ctx event (preCommitHooks ts.sm (heap p).CurrentState)
          (l, { heap p with AssigneeID := triggeredBy })) →
      (Transition ts.sm ctx now₁ now₂ l { heap p with AssigneeID := triggeredBy }
        event).err ≠ none ∧
      (TransitionTicket ts ctx now₁ now₂ now₃ heap l ticketID event triggeredBy).err
        = (Transition ts.sm ctx now₁ now₂ l { heap p with AssigneeID := triggeredBy }
            event).err ∧
      (TransitionTicket ts ctx now₁ now₂ now₃ heap l ticketID event triggeredBy).saved
        = false ∧
      (TransitionTicket ts ctx now₁ now₂ now₃ heap l ticketID event triggeredBy).store
        = ts.store ∧
      (TransitionTicket ts ctx now₁ now₂ now₃ heap l ticketID event triggeredBy).heap p
        = (Transition ts.sm ctx now₁ now₂ l { heap p with AssigneeID := triggeredBy }
            event).ticket) ∧
    ((TransitionTicket ts ctx now₁ now₂ now₃ heap l ticketID event triggeredBy).heap
      p).AssigneeID = triggeredBy := by
  have hiff : (Transition ts.sm ctx now₁ now₂ l { heap p with AssigneeID := triggeredBy }
      event).err = none ↔
      ∃ d, lookupTransition ts.sm (heap p).CurrentState event = some d ∧
        AllSucceed ctx event (preCommitHooks ts.sm (heap p).CurrentState)
          (l, { heap p with AssigneeID := triggeredBy }) := by
    rw [hsm]
    exact serviceMachine_no_error_iff ctx now₁ now₂ l { heap p with AssigneeID := triggeredBy }
      event
  have hass : (Transition ts.sm ctx now₁ now₂ l { heap p with AssigneeID := triggeredBy }
      event).ticket.AssigneeID = triggeredBy := by
    rw [hsm]
    exact serviceMachine_AssigneeID ctx now₁ now₂ l { heap p with AssigneeID := triggeredBy }
      event
  by_cases hc : ∃ d, lookupTransition ts.sm (heap p).CurrentState event = some d ∧
      AllSucceed ctx event (preCommitHooks ts.sm (heap p).CurrentState)
        (l, { heap p with AssigneeID := triggeredBy })
  · have hout := hiff.mpr hc
    obtain ⟨k1, k2, k3, k4, _⟩ := TransitionTicket_of_success ts ctx now₁ now₂ now₃ heap l
      ticketID event triggeredBy p hid hout
    refine ⟨⟨fun _ => hc, fun _ => k2⟩, fun _ => ⟨hout, k1, k4, k3, ?_⟩,
      fun hn => absurd hc hn, ?_⟩
    · rw [k3]
      exact tickets_set_same_value _ _ _ _ hid
    · rw [k4]
      exact hass
  · have hne : (Transition ts.sm ctx now₁ now₂ l { heap p with AssigneeID := triggeredBy }
        event).err ≠ none := fun h => hc (hiff.mp h)
    obtain ⟨e, he⟩ := Option.ne_none_iff_exists'.mp hne
    obtain ⟨k1, k2, k3, k4, _⟩ := TransitionTicket_of_error ts ctx now₁ now₂ now₃ heap l
      ticketID event triggeredBy p e hid he
    refine ⟨⟨fun h => ?_, fun h => absurd h hc⟩, fun h => absurd h hc,
      fun _ => ⟨hne, by rw [k1, he], k2, k3, k4⟩, ?_⟩
    · rw [k2] at h
      exact absurd h (by simp)
    · rw [k4]
      exact hass

/-- C17: on a service built by `NewTicketService`, `TransitionTicket` loads
the ticket, sets the actor, calls `Transition`, and stamps the update time
and saves the ticket to the store whenever the transition reached the commit
step, with no condition on what `Transition` returned (on such a service a
committed transition returns no error: no enter- or after-action the service
registers fails); it skips the save only when the ticket is not found, in
which case nothing changes, or when the transition was rejected before the
commit, in which case the error is passed on and the store is left as it
was. -/
theorem TransitionTicket_saves {Ctx : Type} (ctx : Ctx) (now₁ now₂ now₃ : Time) (heap : Heap)
    (store : MockStore) (l : golog.Log) (ticketID : String) (event : Event)
    (triggeredBy : String) :
    let ts := NewTicketService Ctx store
    let res := TransitionTicket ts ctx now₁ now₂ now₃ heap l ticketID event triggeredBy
    (store.tickets ticketID = none →
      res = { err := some "ticket not found", heap := heap, store := store, log := l,
              saved := false }) ∧
    (∀ p, store.tickets ticketID = some p →
      let out := Transition ts.sm ctx now₁ now₂ l { heap p with AssigneeID := triggeredBy }
        event
      let committed := ∃ d, lookupTransition ts.sm (heap p).CurrentState event = some d ∧
        AllSucceed ctx event (preCommitHooks ts.sm (heap p).CurrentState)
          (l, { heap p with AssigneeID := triggeredBy })
      (res.saved = true ↔ committed) ∧
      (committed →
        out.err = none ∧ res.err = none ∧
        res.heap p = { out.ticket with UpdatedAt := now₃ } ∧
        res.store.tickets = store.tickets.set out.ticket.ID p ∧
        res.store.tickets ticketID = some p) ∧
      (¬ committed →
        out.err ≠ none ∧ res.err = out.err ∧ res.saved = false ∧ res.store = store ∧
        res.heap p = out.ticket) ∧
      (res.heap p).AssigneeID = triggeredBy) := by
  intro ts res
  refine ⟨TransitionTicket_of_not_found ts ctx now₁ now₂ now₃ heap l ticketID event
    triggeredBy, ?_⟩
  intro p hid
  exact TransitionTicket_of_found ts ctx now₁ now₂ now₃ heap l ticketID event triggeredBy p
    rfl hid

/-- Witness of C17: on the service of the test, `Submit` on the stored test
ticket reaches the commit step, is saved, and is stamped with the service's
clock value 12 and the actor; a `Cancel` on it is rejected before the commit
and not saved; a call on an id the store does not hold returns "ticket not
found". -/
theorem TransitionTicket_saves_witness :
    ((TransitionTicket (NewTicketService Unit testStore) () 10 11 12 testHeap []
        "test-ticket" EventSubmit "user123").saved = true ∧
      ((TransitionTicket (NewTicketService Unit testStore) () 10 11 12 testHeap []
        "test-ticket" EventSubmit "user123").heap 0).UpdatedAt = 12 ∧
      ((TransitionTicket (NewTicketService Unit testStore) () 10 11 12 testHeap []
        "test-ticket" EventSubmit "user123").heap 0).AssigneeID = "user123") ∧
    ((TransitionTicket (NewTicketService Unit testStore) () 10 11 12 testHeap []
        "test-ticket" EventCancel "user123").saved = false ∧
      (TransitionTicket (NewTicketService Unit testStore) () 10 11 12 testHeap []
        "test-ticket" EventCancel "user123").err = some "invalid transition") ∧
    (TransitionTicket (NewTicketService Unit testStore) () 10 11 12 testHeap []
      "no-such-ticket" EventSubmit "user123").err = some "ticket not found" := by
  have h1 := (TransitionTicket_saves () 10 11 12 testHeap testStore [] "test-ticket"
    EventSubmit "user123").2 0 rfl
  have h2 := (TransitionTicket_saves () 10 11 12 testHeap testStore [] "test-ticket"
    EventCancel "user123").2 0 rfl
  have h3 := (TransitionTicket_saves () 10 11 12 testHeap testStore [] "no-such-ticket"
    EventSubmit "user123").1 rfl
  have hc1 : ∃ d, lookupTransition (NewTicketService Unit testStore).sm
      (testHeap 0).CurrentState EventSubmit = some d ∧
      AllSucceed () EventSubmit
        (preCommitHooks (NewTicketService Unit testStore).sm (testHeap 0).CurrentState)
        (([] : golog.Log), { testHeap 0 with AssigneeID := "user123" }) :=
    ⟨StatePending, rfl, trivial⟩
  have hc2 : ¬ ∃ d, lookupTransition (NewTicketService Unit testStore).sm
      (testHeap 0).CurrentState EventCancel = some d ∧
      AllSucceed () EventCancel
        (preCommitHooks (NewTicketService Unit testStore).sm (testHeap 0).CurrentState)
        (([] : golog.Log), { testHeap 0 with AssigneeID := "user123" }) := by
    rintro ⟨d, hd, _⟩
    have hnone : lookupTransition (NewTicketService Unit testStore).sm
        (testHeap 0).CurrentState EventCancel = none := rfl
    rw [hnone] at hd
    exact absurd hd (by simp)
  obtain ⟨_, _, a3, _, _⟩ := h1.2.1 hc1
  obtain ⟨_, b2, b3, _, _⟩ := h2.2.2.1 hc2
  refine ⟨⟨h1.1.mpr hc1, ?_, h1.2.2.2⟩, ⟨b3, b2.trans rfl⟩, ?_⟩
  · rw [a3]
  · rw [h3]

end service

namespace workflow

/-! ## The history chain -/

theorem runSeq_no_error_iff {Ctx W : Type} (ctx : Ctx) (event : Event)
    (l : List (HookKind × Task Ctx W)) (rs : RunState Ctx W) :
    (runSeq ctx event l rs).2 = none ↔ AllSucceed ctx event l (rs.world, rs.ticket) := by
  constructor
  · intro h
    rcases allSucceed_or_first_failure ctx event l (rs.world, rs.ticket) with
      hs | ⟨pre, kh, post, e, hl, hp, hf⟩
    · exact hs
    · rw [hl, runSeq_fail ctx event pre post kh e rs hp hf] at h
      exact absurd h (by simp)
  · intro h
    rw [runSeq_ok ctx event l rs h]

theorem reachesCommit_iff {Ctx W : Type} (sm : StateMachine Ctx W) (c : Call Ctx)
    (s : W × model.Ticket) :
    reachesCommit sm c s = true ↔
      ∃ d, lookupTransition sm s.2.CurrentState c.event = some d ∧
        AllSucceed c.ctx c.event (preCommitHooks sm s.2.CurrentState) (s.1, s.2) := by
  unfold reachesCommit
  cases hl : lookupTransition sm s.2.CurrentState c.event with
  | none => simp
  | some d =>
    simp only [Option.isNone_iff_eq_none, Option.some.injEq, exists_eq_left']
    exact runSeq_no_error_iff c.ctx c.event _ _

/-- One call on a machine whose hooks write neither `CurrentState` nor
`History`: a call that reaches the commit step appends one record, from the
ticket's state to the destination, and moves the ticket to the destination;
any other call leaves both fields as they were. -/
theorem Transition_history_step {Ctx W : Type} (sm : StateMachine Ctx W)
    (hk : ∀ s, ∀ x ∈ preCommitHooks sm s ++ postCommitHooks sm s,
      KeepsState x.2 ∧ KeepsHistory x.2)
    (c : Call Ctx) (s : W × model.Ticket) :
    (reachesCommit sm c s = true →
      ∃ r : model.History,
        (Transition sm c.ctx c.now₁ c.now₂ s.1 s.2 c.event).ticket.History
          = s.2.History ++ [r] ∧
        r.FromState = s.2.CurrentState ∧
        r.ToState = (Transition sm c.ctx c.now₁ c.now₂ s.1 s.2 c.event).ticket.CurrentState) ∧
    (reachesCommit sm c s = false →
      (Transition sm c.ctx c.now₁ c.now₂ s.1 s.2 c.event).ticket.History = s.2.History ∧
      (Transition sm c.ctx c.now₁ c.now₂ s.1 s.2 c.event).ticket.CurrentState
        = s.2.CurrentState) := by
  constructor
  · intro hc
    obtain ⟨d, hl, hpre⟩ := (reachesCommit_iff sm c s).mp hc
    obtain ⟨ran, rest, h1, _, _, h4⟩ :=
      Transition_of_commit sm c.ctx c.now₁ c.now₂ s.1 s.2 c.event d hl hpre
    have hran : ∀ x ∈ ran, KeepsState x.2 ∧ KeepsHistory x.2 := fun x hx =>
      hk d x (List.mem_append_right _ (by rw [h1]; exact List.mem_append_left _ hx))
    have hps : (preState sm c.ctx c.event s.1 s.2).2.CurrentState = s.2.CurrentState :=
      applyHooks_keeps (fun t => t.CurrentState) c.ctx c.event _ (s.1, s.2)
        (fun x hx a b t e => (hk _ x (List.mem_append_left _ hx)).1 a b t e)
    have hph : (preState sm c.ctx c.event s.1 s.2).2.History = s.2.History :=
      applyHooks_keeps (fun t => t.History) c.ctx c.event _ (s.1, s.2)
        (fun x hx a b t e => (hk _ x (List.mem_append_left _ hx)).2 a b t e)
    have hfs := applyHooks_keeps (fun t => t.CurrentState) c.ctx c.event ran
      (commitState sm c.ctx c.now₁ c.now₂ s.1 s.2 c.event d)
      (fun x hx a b t e => (hran x hx).1 a b t e)
    have hfh := applyHooks_keeps (fun t => t.History) c.ctx c.event ran
      (commitState sm c.ctx c.now₁ c.now₂ s.1 s.2 c.event d)
      (fun x hx a b t e => (hran x hx).2 a b t e)
    rw [← h4] at hfs hfh
    simp only at hfs hfh
    rw [commit_CurrentState] at hfs
    rw [commit_History, hph, hps] at hfh
    exact ⟨_, hfh, rfl, hfs.symm⟩
  · intro hc
    cases hl : lookupTransition sm s.2.CurrentState c.event with
    | none =>
      rw [Transition_of_lookup_none sm c.ctx c.now₁ c.now₂ s.1 s.2 c.event hl]
      exact ⟨rfl, rfl⟩
    | some d =>
      have hpre : ¬ AllSucceed c.ctx c.event (preCommitHooks sm s.2.CurrentState)
          (s.1, s.2) := by
        intro h
        have := (reachesCommit_iff sm c s).mpr ⟨d, hl, h⟩
        rw [hc] at this
        exact absurd this (by simp)
      obtain ⟨ran, rest, h1, _, _, _, h5⟩ :=
        Transition_of_reject sm c.ctx c.now₁ c.now₂ s.1 s.2 c.event d hl hpre
      have hran : ∀ x ∈ ran, KeepsState x.2 ∧ KeepsHistory x.2 := fun x hx =>
        hk _ x (List.mem_append_left _ (by rw [h1]; exact List.mem_append_left _ hx))
      have hfs := applyHooks_keeps (fun t => t.CurrentState) c.ctx c.event ran (s.1, s.2)
        (fun x hx a b t e => (hran x hx).1 a b t e)
      have hfh := applyHooks_keeps (fun t => t.History) c.ctx c.event ran (s.1, s.2)
        (fun x hx a b t e => (hran x hx).2 a b t e)
      rw [← h5] at hfs hfh
      exact ⟨hfh, hfs⟩

/-- C18: on a machine whose hooks write neither the ticket's `CurrentState`
nor its `History`, for a ticket whose history is chained (each record's
`ToState` is the next record's `FromState`; an empty history is) and whose
last record, if any, leads to the ticket's `CurrentState`: after any finite
sequence of `Transition` calls, whether they succeed, are rejected or fail
after the commit, the history is still chained, its last record leads to the
ticket's `CurrentState`, the history before the calls is a prefix of the
history after them, and the history has grown by exactly the number of calls
that reached the commit step. -/
theorem runCalls_history_chain {Ctx W : Type} (sm : StateMachine Ctx W)
    (hk : ∀ s, ∀ x ∈ preCommitHooks sm s ++ postCommitHooks sm s,
      KeepsState x.2 ∧ KeepsHistory x.2)
    (calls : List (Call Ctx)) (w : W) (ticket : model.Ticket)
    (hc : Chained ticket.History) (he : EndsAt ticket.History ticket.CurrentState) :
    Chained (runCalls sm calls (w, ticket)).2.History ∧
    EndsAt (runCalls sm calls (w, ticket)).2.History
      (runCalls sm calls (w, ticket)).2.CurrentState ∧
    ticket.History <+: (runCalls sm calls (w, ticket)).2.History ∧
    (runCalls sm calls (w, ticket)).2.History.length
      = ticket.History.length + countCommits sm calls (w, ticket) := by
  induction calls generalizing w ticket with
  | nil => exact ⟨hc, he, List.prefix_refl _, rfl⟩
  | cons c rest ih =>
    simp only [runCalls, countCommits]
    cases hr : reachesCommit sm c (w, ticket) with
    | true =>
      obtain ⟨r, h1, h2, h3⟩ := (Transition_history_step sm hk c (w, ticket)).1 hr
      have hc2 : Chained (Transition sm c.ctx c.now₁ c.now₂ w ticket c.event).ticket.History := by
        rw [h1]
        refine List.Chain'.append hc (List.chain'_singleton r) ?_
        intro x hx y hy
        have hy2 : y = r := by simpa using hy.symm
        rw [hy2, h2]
        exact he x hx
      have he2 : EndsAt (Transition sm c.ctx c.now₁ c.now₂ w ticket c.event).ticket.History
          (Transition sm c.ctx c.now₁ c.now₂ w ticket c.event).ticket.CurrentState := by
        intro x hx
        rw [h1, List.getLast?_concat] at hx
        rw [← Option.some.inj hx, h3]
      obtain ⟨i1, i2, i3, i4⟩ := ih _ _ hc2 he2
      refine ⟨i1, i2, ?_, ?_⟩
      · refine List.IsPrefix.trans ?_ i3
        rw [h1]
        exact List.prefix_append _ _
      · rw [i4, h1, List.length_append]
        simp only [List.length_singleton, if_true]
        omega
    | false =>
      obtain ⟨h1, h2⟩ := (Transition_history_step sm hk c (w, ticket)).2 hr
      have hc2 : Chained (Transition sm c.ctx c.now₁ c.now₂ w ticket c.event).ticket.History := by
        rw [h1]
        exact hc
      have he2 : EndsAt (Transition sm c.ctx c.now₁ c.now₂ w ticket c.event).ticket.History
          (Transition sm c.ctx c.now₁ c.now₂ w ticket c.event).ticket.CurrentState := by
        rw [h1, h2]
        exact he
      obtain ⟨i1, i2, i3, i4⟩ := ih _ _ hc2 he2
      refine ⟨i1, i2, ?_, ?_⟩
      · rw [h1] at i3
        exact i3
      · rw [i4, h1]
        simp

/-- The hooks of a state after a `RegisterTasks` call: those it had, followed
by the registered ones when the call is for that state. -/
theorem hooksAt_RegisterTasks {Ctx W : Type} (sm : StateMachine Ctx W) (state : State)
    (before after onEnter onExit guards : List (Task Ctx W)) (s : State) :
    hooksAt (RegisterTasks sm state before after onEnter onExit guards) s (fun n => n.Guards)
      = hooksAt sm s (fun n => n.Guards) ++ (if s = state then guards else []) ∧
    hooksAt (RegisterTasks sm state before after onEnter onExit guards) s
        (fun n => n.BeforeTasks)
      = hooksAt sm s (fun n => n.BeforeTasks) ++ (if s = state then before else []) ∧
    hooksAt (RegisterTasks sm state before after onEnter onExit guards) s (fun n => n.OnExit)
      = hooksAt sm s (fun n => n.OnExit) ++ (if s = state then onExit else []) ∧
    hooksAt (RegisterTasks sm state before after onEnter onExit guards) s (fun n => n.OnEnter)
      = hooksAt sm s (fun n => n.OnEnter) ++ (if s = state then onEnter else []) ∧
    hooksAt (RegisterTasks sm state before after onEnter onExit guards) s
        (fun n => n.AfterTasks)
      = hooksAt sm s (fun n => n.AfterTasks) ++ (if s = state then after else []) := by
  by_cases hs : s = state
  · subst hs
    simp only [hooksAt, RegisterTasks, GoMap.set, if_true]
    cases sm.nodes s <;> simp
  · simp [hooksAt, RegisterTasks, GoMap.set, if_neg hs]

/-- A property of hooks that holds for every hook of a machine and for every
hook of the five registered lists holds for every hook of the machine after
the `RegisterTasks` call. -/
theorem RegisterTasks_hooks {Ctx W : Type} (P : Task Ctx W → Prop) (sm : StateMachine Ctx W)
    (state : State) (before after onEnter onExit guards : List (Task Ctx W))
    (hsm : ∀ s, ∀ x ∈ preCommitHooks sm s ++ postCommitHooks sm s, P x.2)
    (hnew : ∀ h ∈ before ++ after ++ onEnter ++ onExit ++ guards, P h) :
    ∀ s, ∀ x ∈ preCommitHooks (RegisterTasks sm state before after onEnter onExit guards) s
      ++ postCommitHooks (RegisterTasks sm state before after onEnter onExit guards) s,
      P x.2 := by
  intro s x hx
  obtain ⟨h1, h2, h3, h4, h5⟩ :=
    hooksAt_RegisterTasks sm state before after onEnter onExit guards s
  have hold := hsm s x
  simp only [preCommitHooks, postCommitHooks, h1, h2, h3, h4, h5, tag, List.mem_append,
    List.mem_map, List.map_append] at hx hold
  simp only [List.mem_append] at hnew
  rcases hx with ((((⟨t, ht, rfl⟩ | ⟨t, ht, rfl⟩) | (⟨t, ht, rfl⟩ | ⟨t, ht, rfl⟩)) |
      (⟨t, ht, rfl⟩ | ⟨t, ht, rfl⟩)) |
    ((⟨t, ht, rfl⟩ | ⟨t, ht, rfl⟩) | (⟨t, ht, rfl⟩ | ⟨t, ht, rfl⟩)))
  all_goals first
    | (apply hold; simp [ht]; done)
    | (split_ifs at ht
       · apply hnew; simp [ht]
       · exact absurd ht (List.not_mem_nil _))

/-- Every hook of the machine of `TestStateMachine_Hooks` leaves the ticket
as it is. -/
theorem hookedMachine_keeps (s : State) (x : HookKind × Task Unit Nat)
    (hx : x ∈ preCommitHooks hookedMachine s ++ postCommitHooks hookedMachine s) :
    KeepsState x.2 ∧ KeepsHistory x.2 := by
  have hok : ∀ name, KeepsState (okHook name) ∧ KeepsHistory (okHook name) :=
    fun _ => ⟨fun _ _ _ _ => rfl, fun _ _ _ _ => rfl⟩
  refine RegisterTasks_hooks (fun h => KeepsState h ∧ KeepsHistory h) _ _ _ _ _ _ _
    (RegisterTasks_hooks (fun h => KeepsState h ∧ KeepsHistory h) _ _ _ _ _ _ _ ?_ ?_) ?_ s x hx
  · intro s0 y hy
    rw [preCommitHooks_NewStateMachine, postCommitHooks_NewStateMachine] at hy
    exact absurd hy (List.not_mem_nil _)
  · intro h hh
    simp only [List.append_nil, List.nil_append, List.mem_append, List.mem_singleton,
      List.mem_cons, List.not_mem_nil, or_false, false_or] at hh
    rcases hh with (rfl | rfl) | rfl <;> exact hok _
  · intro h hh
    simp only [List.append_nil, List.nil_append, List.mem_append, List.mem_singleton,
      List.mem_cons, List.not_mem_nil, or_false, false_or] at hh
    rcases hh with rfl | rfl <;> exact hok _

/-- Witness of C18: on the machine of `TestStateMachine_Hooks`, a ticket in
`New` with an empty history, driven by `Submit` (committed), `Archive`
(invalid in `Pending`), `Assign` (committed): two calls reach the commit step
and the history has two chained records, the last one leading to
`InitialReview`. -/
theorem runCalls_history_chain_witness :
    countCommits hookedMachine
      [{ ctx := (), now₁ := 10, now₂ := 11, event := EventSubmit },
        { ctx := (), now₁ := 20, now₂ := 21, event := EventArchive },
        { ctx := (), now₁ := 30, now₂ := 31, event := EventAssign }]
      (0, sampleTicket StateNew 0) = 2 ∧
    (runCalls hookedMachine
      [{ ctx := (), now₁ := 10, now₂ := 11, event := EventSubmit },
        { ctx := (), now₁ := 20, now₂ := 21, event := EventArchive },
        { ctx := (), now₁ := 30, now₂ := 31, event := EventAssign }]
      (0, sampleTicket StateNew 0)).2.History.length = 0 + 2 ∧
    Chained (runCalls hookedMachine
      [{ ctx := (), now₁ := 10, now₂ := 11, event := EventSubmit },
        { ctx := (), now₁ := 20, now₂ := 21, event := EventArchive },
        { ctx := (), now₁ := 30, now₂ := 31, event := EventAssign }]
      (0, sampleTicket StateNew 0)).2.History ∧
    EndsAt (runCalls hookedMachine
      [{ ctx := (), now₁ := 10, now₂ := 11, event := EventSubmit },
        { ctx := (), now₁ := 20, now₂ := 21, event := EventArchive },
        { ctx := (), now₁ := 30, now₂ := 31, event := EventAssign }]
      (0, sampleTicket StateNew 0)).2.History StateInitialReview := by
  have h := runCalls_history_chain hookedMachine hookedMachine_keeps
    [{ ctx := (), now₁ := 10, now₂ := 11, event := EventSubmit },
      { ctx := (), now₁ := 20, now₂ := 21, event := EventArchive },
      { ctx := (), now₁ := 30, now₂ := 31, event := EventAssign }]
    0 (sampleTicket StateNew 0) List.chain'_nil (fun r hr => by simp [sampleTicket] at hr)
  have hcount : countCommits hookedMachine
      [{ ctx := (), now₁ := 10, now₂ := 11, event := EventSubmit },
        { ctx := (), now₁ := 20, now₂ := 21, event := EventArchive },
        { ctx := (), now₁ := 30, now₂ := 31, event := EventAssign }]
      (0, sampleTicket StateNew 0) = 2 := rfl
  refine ⟨hcount, ?_, h.1, ?_⟩
  · rw [h.2.2.2, hcount]
    rfl
  · exact h.2.1

/-! ## The two readings of the state -/

/-- C19: the destination is resolved from the ticket's `CurrentState` as read
before any hook runs, and the `FromState` of the history record is the
ticket's `CurrentState` as the guards, before-actions and exit-actions left
it.  On `moveMachine`, whose before-action on `Pending` succeeds and writes
`"X"`, `Assign` on a ticket in `Pending` commits to `InitialReview`, the table
destination of (`Pending`, `Assign`), and appends a record whose `FromState`
is `"X"`, not `"Pending"`.  On `moveThenFailMachine`, where that hook is
followed by a failing before-action, the returned state is `"Pending"` while
the ticket's `CurrentState` is `"X"`. -/
theorem Transition_reads_state_twice :
    (∀ (Ctx W : Type) (sm : StateMachine Ctx W) (ctx : Ctx) (now₁ now₂ : Time) (w : W)
        (ticket : model.Ticket) (event : Event) (d : State),
      lookupTransition sm ticket.CurrentState event = some d →
      AllSucceed ctx event (preCommitHooks sm ticket.CurrentState) (w, ticket) →
      (Transition sm ctx now₁ now₂ w ticket event).state = d ∧
      (commitState sm ctx now₁ now₂ w ticket event d).2.CurrentState = d ∧
      (commitState sm ctx now₁ now₂ w ticket event d).2.History
        = (preState sm ctx event w ticket).2.History
          ++ [{ FromState := (preState sm ctx event w ticket).2.CurrentState,
                ToState := d, Event := event, Timestamp := now₂,
                TriggeredBy := (preState sm ctx event w ticket).2.AssigneeID }]) ∧
    (lookupTransition moveMachine StatePending EventAssign = some StateInitialReview ∧
      (preState moveMachine () EventAssign 0 (sampleTicket StatePending 0)).2.CurrentState
        = "X" ∧
      (Transition moveMachine () 10 11 0 (sampleTicket StatePending 0) EventAssign).state
        = "InitialReview" ∧
      (Transition moveMachine () 10 11 0 (sampleTicket StatePending 0) EventAssign).err
        = none ∧
      (Transition moveMachine () 10 11 0
        (sampleTicket StatePending 0) EventAssign).ticket.CurrentState = "InitialReview" ∧
      (Transition moveMachine () 10 11 0 (sampleTicket StatePending 0) EventAssign).ticket.History
        = [{ FromState := "X", ToState := "InitialReview", Event := "Assign", Timestamp := 11,
             TriggeredBy := "user123" }]) ∧
    ((Transition moveThenFailMachine () 10 11 0 (sampleTicket StatePending 0) EventAssign).state
        = "Pending" ∧
      (Transition moveThenFailMachine () 10 11 0 (sampleTicket StatePending 0) EventAssign).err
        = some "before failed" ∧
      (Transition moveThenFailMachine () 10 11 0 (sampleTicket StatePending 0) EventAssign).trace
        = [(HookKind.before, moveHook "mv" "X"),
            (HookKind.before, failHook "f" "before failed")] ∧
      (Transition moveThenFailMachine () 10 11 0
        (sampleTicket StatePending 0) EventAssign).ticket.CurrentState = "X" ∧
      (Transition moveThenFailMachine () 10 11 0
        (sampleTicket StatePending 0) EventAssign).ticket.CurrentState
        ≠ (Transition moveThenFailMachine () 10 11 0
            (sampleTicket StatePending 0) EventAssign).state) := by
  refine ⟨?_, ⟨rfl, rfl, rfl, rfl, rfl, rfl⟩, ⟨rfl, rfl, rfl, rfl, by decide⟩⟩
  intro Ctx W sm ctx now₁ now₂ w ticket event d hl hpre
  obtain ⟨_, _, _, h2, _, _⟩ := Transition_of_commit sm ctx now₁ now₂ w ticket event d hl hpre
  exact ⟨h2, commit_CurrentState _ _ _ _ _, commit_History _ _ _ _ _⟩

/-! ## The shape of the built-in graph -/

theorem Reachable_trans {Ctx W : Type} (sm : StateMachine Ctx W) (a b c : State)
    (h1 : Reachable sm a b) (h2 : Reachable sm b c) : Reachable sm a c := by
  induction h1 with
  | refl _ => exact h2
  | step s e d _ hl _ ih => exact Reachable.step s e d c hl (ih h2)

theorem Reachable_single {Ctx W : Type} (sm : StateMachine Ctx W) (s : State) (e : Event)
    (d : State) (hl : lookupTransition sm s e = some d) : Reachable sm s d :=
  Reachable.step s e d d hl (Reachable.refl d)

/-- No event, whatever string it is, is valid in `Closed` or in `Canceled`. -/
theorem lookupTransition_terminal (Ctx W : Type) (e : Event) :
    lookupTransition (NewStateMachine Ctx W) StateClosed e = none ∧
    lookupTransition (NewStateMachine Ctx W) StateCanceled e = none := by
  constructor
  · cases h : lookupTransition (NewStateMachine Ctx W) StateClosed e with
    | none => rfl
    | some d =>
      have hm := (lookupTransition_NewStateMachine Ctx W _ _ d).mp h
      simp only [builtinTable, List.mem_cons, Prod.mk.injEq, List.mem_singleton,
        List.not_mem_nil, or_false] at hm
      rcases hm with h | h | h | h | h | h | h | h | h | h | h | h | h
      all_goals exact absurd h.1 (by decide)
  · cases h : lookupTransition (NewStateMachine Ctx W) StateCanceled e with
    | none => rfl
    | some d =>
      have hm := (lookupTransition_NewStateMachine Ctx W _ _ d).mp h
      simp only [builtinTable, List.mem_cons, Prod.mk.injEq, List.mem_singleton,
        List.not_mem_nil, or_false] at hm
      rcases hm with h | h | h | h | h | h | h | h | h | h | h | h | h
      all_goals exact absurd h.1 (by decide)

/-- C20: in the built-in table, among the eight states `Closed` and
`Canceled` are exactly the ones with no outgoing entry: every one of the
thirteen events (indeed every event) is invalid in them, and every other
state of the eight has a valid event among the thirteen; every one of the
eight states is reachable from `New` by a sequence of valid events; and from
every one of the eight states `Closed` or `Canceled` is reachable. -/
theorem builtin_graph_shape (Ctx W : Type) :
    (∀ e, lookupTransition (NewStateMachine Ctx W) StateClosed e = none ∧
      lookupTransition (NewStateMachine Ctx W) StateCanceled e = none) ∧
    (∀ s ∈ eightStates,
      (∀ e ∈ thirteenEvents, lookupTransition (NewStateMachine Ctx W) s e = none)
        ↔ (s = StateClosed ∨ s = StateCanceled)) ∧
    (∀ s ∈ eightStates, s ≠ StateClosed → s ≠ StateCanceled →
      ∃ e ∈ thirteenEvents, ∃ d ∈ eightStates,
        lookupTransition (NewStateMachine Ctx W) s e = some d) ∧
    (∀ s ∈ eightStates, Reachable (NewStateMachine Ctx W) StateNew s) ∧
    (∀ s ∈ eightStates, Reachable (NewStateMachine Ctx W) s StateClosed ∨
      Reachable (NewStateMachine Ctx W) s StateCanceled) := by
  have n_p : Reachable (NewStateMachine Ctx W) StateNew StatePending :=
    Reachable_single _ _ EventSubmit _ rfl
  have p_i : Reachable (NewStateMachine Ctx W) StatePending StateInitialReview :=
    Reachable_single _ _ EventAssign _ rfl
  have p_x : Reachable (NewStateMachine Ctx W) StatePending StateCanceled :=
    Reachable_single _ _ EventCancel _ rfl
  have i_g : Reachable (NewStateMachine Ctx W) StateInitialReview StateInProgress :=
    Reachable_single _ _ EventApproveInitial _ rfl
  have g_f : Reachable (NewStateMachine Ctx W) StateInProgress StateFinalApproval :=
    Reachable_single _ _ EventSubmitFinal _ rfl
  have f_c : Reachable (NewStateMachine Ctx W) StateFinalApproval StateCompleted :=
    Reachable_single _ _ EventApproveFinal _ rfl
  have c_z : Reachable (NewStateMachine Ctx W) StateCompleted StateClosed :=
    Reachable_single _ _ EventArchive _ rfl
  have n_i := Reachable_trans _ _ _ _ n_p p_i
  have n_g := Reachable_trans _ _ _ _ n_i i_g
  have n_f := Reachable_trans _ _ _ _ n_g g_f
  have n_c := Reachable_trans _ _ _ _ n_f f_c
  have n_z := Reachable_trans _ _ _ _ n_c c_z
  have n_x := Reachable_trans _ _ _ _ n_p p_x
  have f_z := Reachable_trans _ _ _ _ f_c c_z
  have g_z := Reachable_trans _ _ _ _ g_f f_z
  have i_z := Reachable_trans _ _ _ _ i_g g_z
  have hout : ∀ s ∈ eightStates, s ≠ StateClosed → s ≠ StateCanceled →
      ∃ e ∈ thirteenEvents, ∃ d ∈ eightStates,
        lookupTransition (NewStateMachine Ctx W) s e = some d := by
    intro s hs h1 h2
    simp only [eightStates, List.mem_cons, List.mem_singleton, List.not_mem_nil, or_false] at hs
    rcases hs with rfl | rfl | rfl | rfl | rfl | rfl | rfl | rfl
    · exact ⟨EventSubmit, by decide, StatePending, by decide, rfl⟩
    · exact ⟨EventAssign, by decide, StateInitialReview, by decide, rfl⟩
    · exact ⟨EventApproveInitial, by decide, StateInProgress, by decide, rfl⟩
    · exact ⟨EventSubmitFinal, by decide, StateFinalApproval, by decide, rfl⟩
    · exact ⟨EventApproveFinal, by decide, StateCompleted, by decide, rfl⟩
    · exact ⟨EventArchive, by decide, StateClosed, by decide, rfl⟩
    · exact absurd rfl h1
    · exact absurd rfl h2
  refine ⟨lookupTransition_terminal Ctx W, ?_, hout, ?_, ?_⟩
  · intro s hs
    constructor
    · intro hall
      by_contra hne
      obtain ⟨e, he, d, _, hl⟩ := hout s hs (fun h => hne (Or.inl h)) (fun h => hne (Or.inr h))
      rw [hall e he] at hl
      exact absurd hl (by simp)
    · rintro (rfl | rfl) e _
      · exact (lookupTransition_terminal Ctx W e).1
      · exact (lookupTransition_terminal Ctx W e).2
  · intro s hs
    simp only [eightStates, List.mem_cons, List.mem_singleton, List.not_mem_nil, or_false] at hs
    rcases hs with rfl | rfl | rfl | rfl | rfl | rfl | rfl | rfl
    · exact Reachable.refl _
    · exact n_p
    · exact n_i
    · exact n_g
    · exact n_f
    · exact n_c
    · exact n_z
    · exact n_x
  · intro s hs
    simp only [eightStates, List.mem_cons, List.mem_singleton, List.not_mem_nil, or_false] at hs
    rcases hs with rfl | rfl | rfl | rfl | rfl | rfl | rfl | rfl
    · exact Or.inl n_z
    · exact Or.inr p_x
    · exact Or.inl i_z
    · exact Or.inl g_z
    · exact Or.inl f_z
    · exact Or.inl c_z
    · exact Or.inl (Reachable.refl _)
    · exact Or.inr (Reachable.refl _)

end workflow
